import Mathlib

/-!
# GP1 software ray tracer: intersection library, scene queries, reflectance, renderer

Shallow embedding of `Utils.h` (namespaces `GeometryUtils` and `LightUtils`),
of the query fan-out and the material list of `Scene.cpp`, of the microfacet
terms of `BRDFs.h`, of the camera basis of `Camera.h` and of the per-pixel
loop of `Renderer.cpp`.

Numbers: the C++ `float` is embedded as an element of a linear ordered field
`K` (exact arithmetic, `ℚ` for evaluation, `ℝ` for the full range of inputs).
Rounding is outside this embedding.  The square root is not a field operation,
so it is supplied by the `Numerics` record together with the two `<cfloat>`
constants the code depends on.

NaN and infinities: three operations of the intersection library leave the
finite range: the square root of a negative number in `HitTest_Sphere`, the
division by a zero dot product in `HitTest_Plane` and the divisions by a zero
direction component in `SlabTest_TriangleMesh`. `FloatValue K` adds the IEEE-754
special values to `K`. `HitTest_Sphere` and `HitTest_Plane` return the miss
the source computes in these cases, and are proved equal, on every input, to
their line-by-line embeddings on `FloatValue` (`HitTest_Sphere.ieee`,
`HitTest_Plane.ieee`); `SlabTest_TriangleMesh` is evaluated on `FloatValue`.
The exact field has one zero: the sign of a zero divisor is a parameter of
`HitTest_Plane.ieee` and of `SlabTest_TriangleMesh.signed`, and the results
are shown not to depend on it: the plane test for every input, the slab
pretest unless the direction is the zero vector, and the mesh test for every
ray and every mesh whose element accesses are in bounds
(`HitTest_TriangleMesh_sign_irrelevant`).

Reference parameters: a C++ function `bool f(..., HitRecord& hitRecord, ...)`
becomes a Lean function returning `Bool × HitRecord K`: the returned boolean and
the record as the caller finds it after the call.

Containers and integers: a `std::vector` is a `List`, an element access that
is out of bounds makes the enclosing function return `none`, and the
`unsigned char` returned by `Scene::AddMaterial` is a natural number reduced
modulo 256.
-/

namespace dae

/-- Modelled from the spec: the numeric environment of `Math.h`, which is not
part of the sources: the square root used by `sqrt`/`Magnitude`, the initial
`t` of a `HitRecord` ("initialized to +infinity", practically a large maximum)
and the tolerance of `AreEqual` ("(near-)parallel"). -/
structure Numerics (K : Type) where
  sqrt : K → K
  FLT_MAX : K
  FLT_EPSILON : K

/-- Modelled from the spec: `Vector3` of `Math.h`, three scalar components. -/
structure Vector3 (K : Type) where
  x : K
  y : K
  z : K
deriving DecidableEq

namespace Vector3

variable {K : Type} [LinearOrderedField K]

/-- Modelled from the spec: `Vector3{}`, the zero vector. -/
def zero : Vector3 K := ⟨0, 0, 0⟩

/-- Modelled from the spec: `operator+` of `Vector3`. -/
def add (a b : Vector3 K) : Vector3 K := ⟨a.x + b.x, a.y + b.y, a.z + b.z⟩

/-- Modelled from the spec: binary `operator-` of `Vector3`. -/
def sub (a b : Vector3 K) : Vector3 K := ⟨a.x - b.x, a.y - b.y, a.z - b.z⟩

/-- Modelled from the spec: unary `operator-` of `Vector3`. -/
def neg (a : Vector3 K) : Vector3 K := ⟨-a.x, -a.y, -a.z⟩

/-- Modelled from the spec: `operator*(float)` of `Vector3`. -/
def scale (a : Vector3 K) (s : K) : Vector3 K := ⟨a.x * s, a.y * s, a.z * s⟩

/-- Modelled from the spec: `operator/(float)` of `Vector3`. -/
def divide (a : Vector3 K) (s : K) : Vector3 K := ⟨a.x / s, a.y / s, a.z / s⟩

/-- Modelled from the spec: `Vector3::Dot`. -/
def Dot (a b : Vector3 K) : K := a.x * b.x + a.y * b.y + a.z * b.z

/-- Modelled from the spec: `Vector3::Cross`. -/
def Cross (a b : Vector3 K) : Vector3 K :=
  ⟨a.y * b.z - a.z * b.y, a.z * b.x - a.x * b.z, a.x * b.y - a.y * b.x⟩

/-- Modelled from the spec: `Vector3::SqrMagnitude`. -/
def SqrMagnitude (a : Vector3 K) : K := a.x * a.x + a.y * a.y + a.z * a.z

/-- Modelled from the spec: `Vector3::Magnitude`. -/
def Magnitude (nm : Numerics K) (a : Vector3 K) : K := nm.sqrt a.SqrMagnitude

/-- Modelled from the spec: `Vector3::Normalized`, the vector divided by its
magnitude. -/
def Normalized (nm : Numerics K) (a : Vector3 K) : Vector3 K := a.divide (a.Magnitude nm)

end Vector3

variable {K : Type} [LinearOrderedField K]

/-- Modelled from the spec: `Square` of `Math.h`. -/
def Square (a : K) : K := a * a

/-- Modelled from the spec: `AreEqual` of `Math.h`, equality up to the
tolerance of the numeric environment. -/
def AreEqual (nm : Numerics K) (a b : K) : Bool := decide (|a - b| < nm.FLT_EPSILON)

/-! ## Non-finite float values

The exact field `K` has no NaN and no infinities. `FloatValue K` adds the
IEEE-754 special values and their comparison rules, for the square root of a
negative number in `HitTest_Sphere` and the divisions by zero in
`HitTest_Plane` and `SlabTest_TriangleMesh`. -/

/-- Modelled from the spec: a `float` that may be non-finite (IEEE-754): a
finite value, `+inf`, `-inf` or NaN. -/
inductive FloatValue (K : Type) where
  | finite (value : K)
  | posInf
  | negInf
  | nan
deriving DecidableEq

namespace FloatValue

/-- Modelled from the spec: `a < b` on floats; false when either side is NaN. -/
def lt : FloatValue K → FloatValue K → Bool
  | finite a, finite b => decide (a < b)
  | finite _, posInf => true
  | negInf, finite _ => true
  | negInf, posInf => true
  | _, _ => false

/-- Modelled from the spec: `a > b` on floats, that is `b < a`. -/
def gt (a b : FloatValue K) : Bool := lt b a

/-- Modelled from the spec: `a >= b` on floats; false when either side is NaN. -/
def ge : FloatValue K → FloatValue K → Bool
  | finite a, finite b => decide (a ≥ b)
  | posInf, finite _ => true
  | posInf, posInf => true
  | posInf, negInf => true
  | finite _, negInf => true
  | negInf, negInf => true
  | _, _ => false

/-- Modelled from the spec: `std::min(a, b)` of `<algorithm>`, that is
`(b < a) ? b : a`; the first argument when either is NaN. -/
def min (a b : FloatValue K) : FloatValue K := if lt b a then b else a

/-- Modelled from the spec: `std::max(a, b)` of `<algorithm>`, that is
`(a < b) ? b : a`; the first argument when either is NaN. -/
def max (a b : FloatValue K) : FloatValue K := if lt a b then b else a

/-- Modelled from the spec: unary minus on floats. -/
def neg : FloatValue K → FloatValue K
  | finite a => finite (-a)
  | posInf => negInf
  | negInf => posInf
  | nan => nan

/-- Modelled from the spec: `a + b` on floats; NaN propagates and
`inf + (-inf)` is NaN. -/
def add : FloatValue K → FloatValue K → FloatValue K
  | finite a, finite b => finite (a + b)
  | nan, _ => nan
  | _, nan => nan
  | posInf, negInf => nan
  | negInf, posInf => nan
  | posInf, _ => posInf
  | _, posInf => posInf
  | negInf, _ => negInf
  | _, negInf => negInf

/-- Modelled from the spec: `a - b` on floats. -/
def sub (a b : FloatValue K) : FloatValue K := add a (neg b)

/-- Modelled from the spec: `sqrt` of `<cmath>`: NaN for a negative argument. -/
def sqrt (nm : Numerics K) : FloatValue K → FloatValue K
  | finite a => if a < 0 then nan else finite (nm.sqrt a)
  | posInf => posInf
  | negInf => nan
  | nan => nan

/-- Modelled from the spec: `a / b` for finite floats `a`, `b`: for `b = 0` the
quotient is NaN when `a = 0` and an infinity otherwise, whose sign is the sign
of `a` times the sign of the zero (`negativeZero` says that `b` is `-0.0`). -/
def divFinite (negativeZero : Bool) (a b : K) : FloatValue K :=
  if b ≠ 0 then finite (a / b)
  else if a = 0 then nan
  else if decide (0 < a) != negativeZero then posInf
  else negInf

/-- The value of a finite float (`0` for a non-finite one). -/
def toFinite : FloatValue K → K
  | finite a => a
  | _ => 0

end FloatValue

/-- Modelled from the spec: `Ray` of `DataTypes.h`. -/
structure Ray (K : Type) where
  origin : Vector3 K
  direction : Vector3 K
  min : K
  max : K
deriving DecidableEq

/-- Modelled from the spec: `HitRecord` of `DataTypes.h`. -/
structure HitRecord (K : Type) where
  origin : Vector3 K
  normal : Vector3 K
  t : K
  didHit : Bool
  materialIndex : Nat
deriving DecidableEq

/-- Modelled from the spec: `HitRecord{}`, the fresh record: no hit, `t` at its
initial maximum. -/
def HitRecord.fresh (nm : Numerics K) : HitRecord K :=
  { origin := Vector3.zero, normal := Vector3.zero, t := nm.FLT_MAX, didHit := false,
    materialIndex := 0 }

/-- Modelled from the spec: `Sphere` of `DataTypes.h`. -/
structure Sphere (K : Type) where
  origin : Vector3 K
  radius : K
  materialIndex : Nat
deriving DecidableEq

/-- Modelled from the spec: `Plane` of `DataTypes.h`. -/
structure Plane (K : Type) where
  origin : Vector3 K
  normal : Vector3 K
  materialIndex : Nat
deriving DecidableEq

/-- Lines 50-62 of `Utils.h`: the range and closer-wins check on the selected
root, and the write of the record. -/
def HitTest_Sphere.commit (nm : Numerics K) (sphere : Sphere K) (ray : Ray K)
    (hitRecord : HitRecord K) (ignoreHitRecord : Bool) (t : K) : Bool × HitRecord K :=
  if t > ray.min ∧ t < ray.max ∧ t < hitRecord.t then
    if !ignoreHitRecord then
      let origin := ray.origin.add (ray.direction.scale t)
      (true, { t := t, didHit := true, materialIndex := sphere.materialIndex,
               origin := origin, normal := (origin.sub sphere.origin).Normalized nm })
    else (true, hitRecord)
  else (false, hitRecord)

/-- Embedding of `GeometryUtils::HitTest_Sphere(sphere, ray, hitRecord, ignoreHitRecord)`.
For a negative argument the `sqrt` of line 25 is NaN, so are `t0`, `t1` and
`t`, every comparison of lines 32-50 is false and the call returns `false` at
line 62 without a write: the first branch. `HitTest_Sphere.ieee` follows
these lines on `FloatValue`, and the two agree on every input
(`HitTest_Sphere_ieee_eq`). -/
def HitTest_Sphere (nm : Numerics K) (sphere : Sphere K) (ray : Ray K)
    (hitRecord : HitRecord K) (ignoreHitRecord : Bool) : Bool × HitRecord K :=
  let rayToSphereOrigin := sphere.origin.sub ray.origin
  let tAdjacent := Vector3.Dot rayToSphereOrigin ray.direction
  let oppositeSideSqrd := rayToSphereOrigin.SqrMagnitude - Square tAdjacent
  if Square sphere.radius - oppositeSideSqrd < 0 then (false, hitRecord)
  else
    let tDelta := nm.sqrt (Square sphere.radius - oppositeSideSqrd)
    let t0 := tAdjacent - tDelta
    let t1 := tAdjacent + tDelta
    if t0 > ray.min ∧ t0 < ray.max then
      HitTest_Sphere.commit nm sphere ray hitRecord ignoreHitRecord t0
    else if t1 < ray.min ∨ t0 > ray.max then (false, hitRecord)
    else HitTest_Sphere.commit nm sphere ray hitRecord ignoreHitRecord t1

/-- Embedding of `GeometryUtils::HitTest_Plane(plane, ray, hitRecord, ignoreHitRecord)`.
For a ray parallel to the plane the quotient of line 79 is a division by
zero: `t` is an infinity or NaN, the condition of line 81 is false and the
call returns `false` at line 94 without a write: the first branch. `HitTest_Plane.ieee`
follows these lines on `FloatValue`, and the two agree on every input and for
both signs of the zero (`HitTest_Plane_ieee_eq`). -/
def HitTest_Plane (plane : Plane K) (ray : Ray K) (hitRecord : HitRecord K)
    (ignoreHitRecord : Bool) : Bool × HitRecord K :=
  let rayToPlaneOrigin := plane.origin.sub ray.origin
  if Vector3.Dot ray.direction plane.normal = 0 then (false, hitRecord)
  else
    let t := Vector3.Dot rayToPlaneOrigin plane.normal / Vector3.Dot ray.direction plane.normal
    if t > ray.min ∧ t < ray.max ∧ t < hitRecord.t then
      if !ignoreHitRecord then
        (true, { t := t, didHit := true, materialIndex := plane.materialIndex,
                 origin := ray.origin.add (ray.direction.scale t), normal := plane.normal })
      else (true, hitRecord)
    else (false, hitRecord)

/-- Modelled from the spec: `TriangleCullMode` of `DataTypes.h`. -/
inductive TriangleCullMode where
  | FrontFaceCulling
  | BackFaceCulling
  | NoCulling
deriving DecidableEq

/-- Modelled from the spec: `Triangle` of `DataTypes.h`. -/
structure Triangle (K : Type) where
  v0 : Vector3 K
  v1 : Vector3 K
  v2 : Vector3 K
  normal : Vector3 K
  cullMode : TriangleCullMode
  materialIndex : Nat
deriving DecidableEq

/-- Modelled from the spec: the fields of `TriangleMesh` (`DataTypes.h`) read by
the intersection library: the index list, the material, the cull mode and the
cached world-space positions, normals and bounding box. -/
structure TriangleMesh (K : Type) where
  positions : List (Vector3 K)
  indices : List Int
  materialIndex : Nat
  cullMode : TriangleCullMode
  transformedPositions : List (Vector3 K)
  transformedNormals : List (Vector3 K)
  transformedMinAABB : Vector3 K
  transformedMaxAABB : Vector3 K

/-- Lines 115-124 of `Utils.h`: the cull mode in force, inverted for a shadow
(`ignoreHitRecord`) query. -/
def HitTest_Triangle.effectiveCullMode (cullMode : TriangleCullMode) (ignoreHitRecord : Bool) :
    TriangleCullMode :=
  if ignoreHitRecord ∧ cullMode ≠ TriangleCullMode.NoCulling then
    (if cullMode = TriangleCullMode.FrontFaceCulling then TriangleCullMode.BackFaceCulling
     else TriangleCullMode.FrontFaceCulling)
  else cullMode

/-- Lines 125-135 of `Utils.h`: the `switch` on the cull mode; `true` when the
triangle is culled for a ray with the given `Dot(triangle.normal, ray.direction)`. -/
def HitTest_Triangle.culled (cullMode : TriangleCullMode) (nDotD : K) : Bool :=
  match cullMode with
  | TriangleCullMode.FrontFaceCulling => decide (nDotD < 0)
  | TriangleCullMode.BackFaceCulling => decide (nDotD > 0)
  | TriangleCullMode.NoCulling => false

/-- Lines 151-154, 159-162 and 167-170 of `Utils.h`: one edge of the
inside-outside test; `true` when the point lies on the outer side of the edge
from `a` to `b`. -/
def HitTest_Triangle.outsideEdge (a b intersectionPoint normal : Vector3 K) : Bool :=
  let edge := b.sub a
  let pointToVertex := intersectionPoint.sub a
  let cross := Vector3.Cross edge pointToVertex
  decide (Vector3.Dot cross normal < 0)

/-- Line 138 of `Utils.h`: `Plane{ triangle.v0, triangle.normal,
triangle.materialIndex }`, the supporting plane handed to `HitTest_Plane`. -/
def Triangle.supportingPlane (triangle : Triangle K) : Plane K :=
  { origin := triangle.v0, normal := triangle.normal, materialIndex := triangle.materialIndex }

/-- Embedding of `GeometryUtils::HitTest_Triangle(triangle, ray, hitRecord, ignoreHitRecord)`. -/
def HitTest_Triangle (nm : Numerics K) (triangle : Triangle K) (ray : Ray K)
    (hitRecord : HitRecord K) (ignoreHitRecord : Bool) : Bool × HitRecord K :=
  if AreEqual nm (Vector3.Dot triangle.normal ray.direction) 0 then (false, hitRecord)
  else
    let cullMode := HitTest_Triangle.effectiveCullMode triangle.cullMode ignoreHitRecord
    if HitTest_Triangle.culled cullMode (Vector3.Dot triangle.normal ray.direction) then
      (false, hitRecord)
    else
      let planeTest := HitTest_Plane triangle.supportingPlane ray (HitRecord.fresh nm) false
      let temp := planeTest.2
      if !planeTest.1 then (false, hitRecord)
      else if temp.t > hitRecord.t then (false, hitRecord)
      else
        let intersectionPoint := temp.origin
        if HitTest_Triangle.outsideEdge triangle.v0 triangle.v1 intersectionPoint triangle.normal then
          (false, hitRecord)
        else if HitTest_Triangle.outsideEdge triangle.v1 triangle.v2 intersectionPoint
            triangle.normal then
          (false, hitRecord)
        else if HitTest_Triangle.outsideEdge triangle.v2 triangle.v0 intersectionPoint
            triangle.normal then
          (false, hitRecord)
        else
          let isBackFace := decide (Vector3.Dot temp.normal ray.direction > 0)
          let temp := if isBackFace then { temp with normal := temp.normal.neg } else temp
          (true, temp)

/-- Lines 196-214 of `Utils.h` in exact arithmetic; `SlabTest_TriangleMesh`
equals it when no component of the ray direction is zero
(`SlabTest_TriangleMesh_eq_exact`). -/
def SlabTest_TriangleMesh.exact (mesh : TriangleMesh K) (ray : Ray K) : Bool :=
  let tx1 := (mesh.transformedMinAABB.x - ray.origin.x) / ray.direction.x
  let tx2 := (mesh.transformedMaxAABB.x - ray.origin.x) / ray.direction.x
  let tmin := min tx1 tx2
  let tmax := max tx1 tx2
  let ty1 := (mesh.transformedMinAABB.y - ray.origin.y) / ray.direction.y
  let ty2 := (mesh.transformedMaxAABB.y - ray.origin.y) / ray.direction.y
  let tmin := max tmin (min ty1 ty2)
  let tmax := min tmax (max ty1 ty2)
  let tz1 := (mesh.transformedMinAABB.z - ray.origin.z) / ray.direction.z
  let tz2 := (mesh.transformedMaxAABB.z - ray.origin.z) / ray.direction.z
  let tmin := max tmin (min tz1 tz2)
  let tmax := min tmax (max tz1 tz2)
  decide (tmax > 0 ∧ tmax ≥ tmin)

/-- Lines 196-214 of `Utils.h` on floats that may be non-finite: a quotient
by a zero direction component is an infinity or NaN, and `std::min`,
`std::max` and the comparisons follow IEEE-754. `negativeZeroX`,
`negativeZeroY`, `negativeZeroZ` say that a zero component of the direction
is `-0.0`. -/
def SlabTest_TriangleMesh.signed (negativeZeroX negativeZeroY negativeZeroZ : Bool)
    (mesh : TriangleMesh K) (ray : Ray K) : Bool :=
  let tx1 := FloatValue.divFinite negativeZeroX (mesh.transformedMinAABB.x - ray.origin.x)
    ray.direction.x
  let tx2 := FloatValue.divFinite negativeZeroX (mesh.transformedMaxAABB.x - ray.origin.x)
    ray.direction.x
  let tmin := FloatValue.min tx1 tx2
  let tmax := FloatValue.max tx1 tx2
  let ty1 := FloatValue.divFinite negativeZeroY (mesh.transformedMinAABB.y - ray.origin.y)
    ray.direction.y
  let ty2 := FloatValue.divFinite negativeZeroY (mesh.transformedMaxAABB.y - ray.origin.y)
    ray.direction.y
  let tmin := FloatValue.max tmin (FloatValue.min ty1 ty2)
  let tmax := FloatValue.min tmax (FloatValue.max ty1 ty2)
  let tz1 := FloatValue.divFinite negativeZeroZ (mesh.transformedMinAABB.z - ray.origin.z)
    ray.direction.z
  let tz2 := FloatValue.divFinite negativeZeroZ (mesh.transformedMaxAABB.z - ray.origin.z)
    ray.direction.z
  let tmin := FloatValue.max tmin (FloatValue.min tz1 tz2)
  let tmax := FloatValue.min tmax (FloatValue.max tz1 tz2)
  tmax.gt (FloatValue.finite 0) && tmax.ge tmin

/-- Embedding of `GeometryUtils::SlabTest_TriangleMesh(mesh, ray)`: the
pretest on floats, with a zero component of the direction read as `+0.0`.
The sign of a zero component does not change the result unless the direction
is the zero vector (`SlabTest_TriangleMesh_sign_irrelevant`), for which no
triangle is hit and `HitTest_TriangleMesh` returns `false` whatever the
pretest says (`HitTest_TriangleMesh_zero_direction`,
`HitTest_TriangleMesh_sign_irrelevant`). -/
def SlabTest_TriangleMesh (mesh : TriangleMesh K) (ray : Ray K) : Bool :=
  SlabTest_TriangleMesh.signed false false false mesh ray

/-- The element `mesh.transformedPositions[i]` for an `int` index converted to
`size_t`; `none` when the access is out of bounds. -/
def TriangleMesh.positionAt (mesh : TriangleMesh K) (i : Int) : Option (Vector3 K) :=
  if 0 ≤ i then mesh.transformedPositions[i.toNat]? else none

/-- Lines 228-234 of `Utils.h`: the triangle built for `normalIndex`; `none`
when one of the element accesses is out of bounds. -/
def TriangleMesh.triangleAt (mesh : TriangleMesh K) (normalIndex : Nat) : Option (Triangle K) :=
  let tripletIndex := normalIndex * 3
  match mesh.indices[tripletIndex]?, mesh.indices[tripletIndex + 1]?,
      mesh.indices[tripletIndex + 2]?, mesh.transformedNormals[normalIndex]? with
  | some i0, some i1, some i2, some normal =>
    match mesh.positionAt i0, mesh.positionAt i1, mesh.positionAt i2 with
    | some v0, some v1, some v2 =>
      some { v0 := v0, v1 := v1, v2 := v2, normal := normal, cullMode := mesh.cullMode,
             materialIndex := 0 }
    | _, _, _ => none
  | _, _, _, _ => none

/-- Lines 226-237 of `Utils.h`: the loop over the triangles, threading the
temporary record; `none` when an element access is out of bounds. -/
def HitTest_TriangleMesh.scan (nm : Numerics K) (mesh : TriangleMesh K) (ray : Ray K)
    (ignoreHitRecord : Bool) : List Nat → HitRecord K → Option (HitRecord K)
  | [], temp => some temp
  | normalIndex :: rest, temp =>
    match mesh.triangleAt normalIndex with
    | some triangle =>
      HitTest_TriangleMesh.scan nm mesh ray ignoreHitRecord rest
        (HitTest_Triangle nm triangle ray temp ignoreHitRecord).2
    | none => none

/-- Embedding of `GeometryUtils::HitTest_TriangleMesh(mesh, ray, hitRecord, ignoreHitRecord)`;
`none` when an element access of the triangle loop is out of bounds. -/
def HitTest_TriangleMesh (nm : Numerics K) (mesh : TriangleMesh K) (ray : Ray K)
    (hitRecord : HitRecord K) (ignoreHitRecord : Bool) : Option (Bool × HitRecord K) :=
  if !SlabTest_TriangleMesh mesh ray then some (false, hitRecord)
  else
    match HitTest_TriangleMesh.scan nm mesh ray ignoreHitRecord
        (List.range mesh.transformedNormals.length) (HitRecord.fresh nm) with
    | none => none
    | some temp =>
      if temp.didHit ∧ temp.t < hitRecord.t then
        if !ignoreHitRecord then
          some (true, { temp with materialIndex := mesh.materialIndex })
        else some (true, hitRecord)
      else some (false, hitRecord)

/-- Embedding of `GeometryUtils::HitTest_Sphere(sphere, ray)`, the existence overload. -/
def HitTest_Sphere.existence (nm : Numerics K) (sphere : Sphere K) (ray : Ray K) : Bool :=
  (HitTest_Sphere nm sphere ray (HitRecord.fresh nm) true).1

/-- Embedding of `GeometryUtils::HitTest_Plane(plane, ray)`, the existence overload. -/
def HitTest_Plane.existence (nm : Numerics K) (plane : Plane K) (ray : Ray K) : Bool :=
  (HitTest_Plane plane ray (HitRecord.fresh nm) true).1

/-- Embedding of `GeometryUtils::HitTest_Triangle(triangle, ray)`, the existence overload. -/
def HitTest_Triangle.existence (nm : Numerics K) (triangle : Triangle K) (ray : Ray K) : Bool :=
  (HitTest_Triangle nm triangle ray (HitRecord.fresh nm) true).1

/-- Embedding of `GeometryUtils::HitTest_TriangleMesh(mesh, ray)`, the existence overload. -/
def HitTest_TriangleMesh.existence (nm : Numerics K) (mesh : TriangleMesh K) (ray : Ray K) :
    Option Bool :=
  (HitTest_TriangleMesh nm mesh ray (HitRecord.fresh nm) true).map Prod.fst

/-- Modelled from the spec: `ColorRGB` of `ColorRGB.h`, three colour channels. -/
structure ColorRGB (K : Type) where
  r : K
  g : K
  b : K
deriving DecidableEq

namespace ColorRGB

/-- Modelled from the spec: `ColorRGB{}`, black. -/
def black : ColorRGB K := ⟨0, 0, 0⟩

/-- Modelled from the spec: `operator+` of `ColorRGB`. -/
def add (a c : ColorRGB K) : ColorRGB K := ⟨a.r + c.r, a.g + c.g, a.b + c.b⟩

/-- Modelled from the spec: `operator-` of `ColorRGB`. -/
def sub (a c : ColorRGB K) : ColorRGB K := ⟨a.r - c.r, a.g - c.g, a.b - c.b⟩

/-- Modelled from the spec: `operator*(ColorRGB)` of `ColorRGB`, channel by channel. -/
def mul (a c : ColorRGB K) : ColorRGB K := ⟨a.r * c.r, a.g * c.g, a.b * c.b⟩

/-- Modelled from the spec: `operator*(float)` of `ColorRGB`. -/
def scale (a : ColorRGB K) (s : K) : ColorRGB K := ⟨a.r * s, a.g * s, a.b * s⟩

/-- Modelled from the spec: `operator/(float)` of `ColorRGB`. -/
def divide (a : ColorRGB K) (s : K) : ColorRGB K := ⟨a.r / s, a.g / s, a.b / s⟩

end ColorRGB

/-- Modelled from the spec: `LightType` of `DataTypes.h`. -/
inductive LightType where
  | Point
  | Directional
deriving DecidableEq

/-- Modelled from the spec: `Light` of `DataTypes.h`: a point light carries a
world position, a directional light a world direction; both an intensity and
a colour. -/
structure Light (K : Type) where
  origin : Vector3 K
  direction : Vector3 K
  color : ColorRGB K
  intensity : K
  type : LightType
deriving DecidableEq

/-- Modelled from the spec: the material variants of `Material.h`, each with
its parameters; a `Material*` of the source is the variant it points to. -/
inductive Material (K : Type) where
  | SolidColor (color : ColorRGB K)
  | Lambert (diffuseColor : ColorRGB K) (diffuseReflectance : K)
  | CookTorrence (albedo : ColorRGB K) (metalness : K) (roughness : K)
deriving DecidableEq

/-- The geometry, light and material collections of `Scene` (`Scene.h`). -/
structure Scene (K : Type) where
  m_PlaneGeometries : List (Plane K)
  m_SphereGeometries : List (Sphere K)
  m_TriangleMeshGeometries : List (TriangleMesh K)
  m_Lights : List (Light K)
  m_Materials : List (Material K)

/-- Lines 9-16 of `Scene.cpp`: the constructor `Scene::Scene()`, empty
collections and the default solid colour material (red). -/
def Scene.construct : Scene K :=
  { m_PlaneGeometries := [], m_SphereGeometries := [], m_TriangleMeshGeometries := [],
    m_Lights := [], m_Materials := [Material.SolidColor ⟨1, 0, 0⟩] }

/-- Line 42 of `Scene.h`: `GetMaterials()`. -/
def Scene.GetMaterials (scene : Scene K) : List (Material K) := scene.m_Materials

/-- Embedding of `Scene::AddMaterial(pMaterial)` (lines 123-127 of
`Scene.cpp`): the scene after `push_back` and the returned `unsigned char`,
the cast of `m_Materials.size() - 1`. -/
def Scene.AddMaterial (scene : Scene K) (pMaterial : Material K) : Scene K × Nat :=
  let scene := { scene with m_Materials := scene.m_Materials ++ [pMaterial] }
  (scene, (scene.m_Materials.length - 1) % 256)

/-- Lines 39-42 of `Scene.cpp`: the loop over the triangle meshes. -/
def Scene.GetClosestHit.meshes (nm : Numerics K) (ray : Ray K) :
    List (TriangleMesh K) → HitRecord K → Option (HitRecord K)
  | [], closestHit => some closestHit
  | mesh :: rest, closestHit =>
    match HitTest_TriangleMesh nm mesh ray closestHit false with
    | some result => Scene.GetClosestHit.meshes nm ray rest result.2
    | none => none

/-- Embedding of `Scene::GetClosestHit(ray, closestHit)`: the record after the call; `none`
when a mesh test performs an out-of-bounds access. -/
def Scene.GetClosestHit (nm : Numerics K) (scene : Scene K) (ray : Ray K)
    (closestHit : HitRecord K) : Option (HitRecord K) :=
  let afterSpheres := scene.m_SphereGeometries.foldl
    (fun closestHit sphere => (HitTest_Sphere nm sphere ray closestHit false).2) closestHit
  let afterPlanes := scene.m_PlaneGeometries.foldl
    (fun closestHit plane => (HitTest_Plane plane ray closestHit false).2) afterSpheres
  Scene.GetClosestHit.meshes nm ray scene.m_TriangleMeshGeometries afterPlanes

/-- Every element access of the triangle loop of `HitTest_TriangleMesh` is
within bounds. -/
def TriangleMesh.Valid (mesh : TriangleMesh K) : Prop :=
  ∀ normalIndex, normalIndex < mesh.transformedNormals.length →
    (mesh.triangleAt normalIndex).isSome = true

/-- Every mesh of the scene is `Valid`. -/
def Scene.Valid (scene : Scene K) : Prop :=
  ∀ mesh ∈ scene.m_TriangleMeshGeometries, mesh.Valid

/-- The numeric environment used for evaluation on rationals: the rational
square root (exact on squares), `FLT_MAX` and `FLT_EPSILON` of `<cfloat>`. -/
def ratNumerics : Numerics ℚ :=
  { sqrt := Rat.sqrt, FLT_MAX := 340282346638528859811704183484516925440,
    FLT_EPSILON := 1 / 8388608 }

/-- The triangle of the concrete scenario: `(-1,0,0), (1,0,0), (0,1,0)`, normal
`(0,0,1)`. -/
def scenarioTriangle (cullMode : TriangleCullMode) : Triangle ℚ :=
  { v0 := ⟨-1, 0, 0⟩, v1 := ⟨1, 0, 0⟩, v2 := ⟨0, 1, 0⟩, normal := ⟨0, 0, 1⟩,
    cullMode := cullMode, materialIndex := 2 }

/-- The ray of the scenario that starts in front of the `-z` side:
origin `(0, 0.3, -5)`, direction `(0,0,1)`, bounds `(0, FLT_MAX)`. -/
def scenarioRayFromNegZ : Ray ℚ :=
  { origin := ⟨0, 3 / 10, -5⟩, direction := ⟨0, 0, 1⟩, min := 0, max := ratNumerics.FLT_MAX }

/-- The ray of the scenario that starts on the `+z` side: origin `(0, 0.3, 5)`,
direction `(0,0,-1)`, bounds `(0, FLT_MAX)`. -/
def scenarioRayFromPosZ : Ray ℚ :=
  { origin := ⟨0, 3 / 10, 5⟩, direction := ⟨0, 0, -1⟩, min := 0, max := ratNumerics.FLT_MAX }

/-- The unit sphere at the origin of the concrete scenario. -/
def scenarioSphere : Sphere ℚ := { origin := ⟨0, 0, 0⟩, radius := 1, materialIndex := 1 }

/-- The ray of the sphere scenario: origin `(0,0,-5)`, direction `(0,0,1)`,
bounds `(0, FLT_MAX)`. -/
def scenarioSphereRay : Ray ℚ :=
  { origin := ⟨0, 0, -5⟩, direction := ⟨0, 0, 1⟩, min := 0, max := ratNumerics.FLT_MAX }

/-- The horizontal plane `y = 0` with normal `(0,1,0)` of the concrete scenario. -/
def scenarioPlane : Plane ℚ := { origin := ⟨0, 0, 0⟩, normal := ⟨0, 1, 0⟩, materialIndex := 1 }

/-- The ray of the plane scenario: origin `(0,5,0)`, direction `(0,-1,0)`,
bounds `(0, FLT_MAX)`. -/
def scenarioPlaneRay : Ray ℚ :=
  { origin := ⟨0, 5, 0⟩, direction := ⟨0, -1, 0⟩, min := 0, max := ratNumerics.FLT_MAX }

/-! ## Specification-side predicates -/

/-- The point `ray.origin + t * ray.direction` lies on the sphere: its squared
distance to the centre is the squared radius (for a radius `> 0` this is the
same as the distance being the radius). -/
def OnSphere (sphere : Sphere K) (ray : Ray K) (t : K) : Prop :=
  ((ray.origin.add (ray.direction.scale t)).sub sphere.origin).SqrMagnitude = Square sphere.radius

/-- The parameter `t` is the least parameter strictly between `ray.min` and
`ray.max` whose point lies on the sphere. -/
def IsNearestRoot (sphere : Sphere K) (ray : Ray K) (t : K) : Prop :=
  ray.min < t ∧ t < ray.max ∧ OnSphere sphere ray t ∧
    ∀ u, ray.min < u → u < ray.max → OnSphere sphere ray u → t ≤ u

/-- Radius squared minus the squared perpendicular distance from the sphere
centre to the line of the ray (for a unit direction). -/
def sphereDiscriminant (sphere : Sphere K) (ray : Ray K) : K :=
  Square sphere.radius - ((sphere.origin.sub ray.origin).SqrMagnitude -
    Square (Vector3.Dot (sphere.origin.sub ray.origin) ray.direction))

/-- The closer-wins update shared by the closest-hit tests: a primitive offers
a candidate record, which replaces the caller's record when the candidate is
valid and strictly closer. -/
def closerWins (candidate : Bool × HitRecord K) (hitRecord : HitRecord K) :
    Bool × HitRecord K :=
  if candidate.1 = true ∧ candidate.2.t < hitRecord.t then (true, candidate.2)
  else (false, hitRecord)

/-- The record used to probe a closest-hit test for its candidate: a fresh
record whose `t` is the upper bound of the ray, which every hit in range beats. -/
def probeRecord (nm : Numerics K) (ray : Ray K) : HitRecord K :=
  { HitRecord.fresh nm with t := ray.max }

/-- A record written by a hit of the given ray: `didHit`, `t` strictly inside
the bounds of the ray and `origin` the point of the ray at `t`. -/
def HitRecord.IsHitOf (hitRecord : HitRecord K) (ray : Ray K) : Prop :=
  hitRecord.didHit = true ∧ ray.min < hitRecord.t ∧ hitRecord.t < ray.max ∧
    hitRecord.origin = ray.origin.add (ray.direction.scale hitRecord.t)

/-- The mesh of the concrete scenario: the scenario triangle as a one-triangle
mesh with its bounding box. -/
def scenarioMesh (cullMode : TriangleCullMode) : TriangleMesh ℚ :=
  { positions := [⟨-1, 0, 0⟩, ⟨1, 0, 0⟩, ⟨0, 1, 0⟩],
    indices := [0, 1, 2], materialIndex := 4, cullMode := cullMode,
    transformedPositions := [⟨-1, 0, 0⟩, ⟨1, 0, 0⟩, ⟨0, 1, 0⟩],
    transformedNormals := [⟨0, 0, 1⟩],
    transformedMinAABB := ⟨-1, 0, 0⟩, transformedMaxAABB := ⟨1, 1, 0⟩ }

/-- The ray of the scene scenario: origin `(-2, -0.7, 2)`, unit direction
`(2/3, 1/3, -2/3)`, bounds `(0, FLT_MAX)`; it passes through `(0, 0.3, 0)` at
`t = 3`. -/
def sceneRay : Ray ℚ :=
  { origin := ⟨-2, -7 / 10, 2⟩, direction := ⟨2 / 3, 1 / 3, -2 / 3⟩, min := 0,
    max := ratNumerics.FLT_MAX }

/-- The sphere of the scene scenario: radius 1 around the point of `sceneRay`
at `t = 6`, so the ray enters it at `t = 5`. -/
def sceneSphere : Sphere ℚ := { origin := ⟨2, 13 / 10, -2⟩, radius := 1, materialIndex := 1 }

/-- The plane `z = -1` with normal `(0,0,1)`; `sceneRay` meets it at `t = 9/2`. -/
def scenePlane : Plane ℚ := { origin := ⟨0, 0, -1⟩, normal := ⟨0, 0, 1⟩, materialIndex := 2 }

/-- The plane `z = -1` again, with the opposite normal and another material. -/
def scenePlaneFlipped : Plane ℚ :=
  { origin := ⟨0, 0, -1⟩, normal := ⟨0, 0, -1⟩, materialIndex := 3 }

/-- The scene of the scenario: one sphere (hit at `t = 5`), one plane (hit at
`t = 9/2`) and the one-triangle mesh (hit at `t = 3`). -/
def scenarioScene : Scene ℚ :=
  { m_SphereGeometries := [sceneSphere], m_PlaneGeometries := [scenePlane],
    m_TriangleMeshGeometries := [scenarioMesh TriangleCullMode.BackFaceCulling],
    m_Lights := [], m_Materials := [Material.SolidColor ⟨1, 0, 0⟩] }

/-- A scene with two coincident planes that differ in normal and material. -/
def twoPlaneScene : Scene ℚ :=
  { m_SphereGeometries := [], m_PlaneGeometries := [scenePlane, scenePlaneFlipped],
    m_TriangleMeshGeometries := [], m_Lights := [],
    m_Materials := [Material.SolidColor ⟨1, 0, 0⟩] }

/-- The scene `twoPlaneScene` with its two planes in the other order. -/
def twoPlaneSceneSwapped : Scene ℚ :=
  { m_SphereGeometries := [], m_PlaneGeometries := [scenePlaneFlipped, scenePlane],
    m_TriangleMeshGeometries := [], m_Lights := [],
    m_Materials := [Material.SolidColor ⟨1, 0, 0⟩] }

/-- A record left by an earlier hit at `t = 5` on another surface: material 7,
normal `(0,1,0)`. -/
def earlierHitAtFive : HitRecord ℚ :=
  { t := 5, didHit := true, materialIndex := 7, origin := ⟨0, 3 / 10, 0⟩, normal := ⟨0, 1, 0⟩ }

/-- The candidate a sphere offers to the closer-wins update: the outcome of
the closest-hit test against the probe record. -/
def sphereCandidate (nm : Numerics K) (ray : Ray K) (sphere : Sphere K) : Bool × HitRecord K :=
  HitTest_Sphere nm sphere ray (probeRecord nm ray) false

/-- The candidate a plane offers to the closer-wins update. -/
def planeCandidate (nm : Numerics K) (ray : Ray K) (plane : Plane K) : Bool × HitRecord K :=
  HitTest_Plane plane ray (probeRecord nm ray) false

/-- The candidate a triangle mesh offers to the closer-wins update. -/
def meshCandidate (nm : Numerics K) (ray : Ray K) (mesh : TriangleMesh K) :
    Bool × HitRecord K :=
  (HitTest_TriangleMesh nm mesh ray (probeRecord nm ray) false).getD (false, probeRecord nm ray)

/-- The candidates of a scene in the order in which `Scene::GetClosestHit`
tests the primitives: spheres, planes, triangle meshes. -/
def Scene.candidates (nm : Numerics K) (scene : Scene K) (ray : Ray K) :
    List (Bool × HitRecord K) :=
  scene.m_SphereGeometries.map (sphereCandidate nm ray) ++
    (scene.m_PlaneGeometries.map (planeCandidate nm ray) ++
      scene.m_TriangleMeshGeometries.map (meshCandidate nm ray))

/-- The closer-wins update applied to a list of candidates in order. -/
def runCandidates (candidates : List (Bool × HitRecord K)) (hitRecord : HitRecord K) :
    HitRecord K :=
  candidates.foldl (fun closestHit candidate => (closerWins candidate closestHit).2) hitRecord

/-- Some sphere, plane or triangle mesh of the scene, tested alone against a
fresh record, is hit, and the hit has parameter `t`. -/
def Scene.HitAloneAt (nm : Numerics K) (scene : Scene K) (ray : Ray K) (t : K) : Prop :=
  (∃ sphere ∈ scene.m_SphereGeometries,
      (HitTest_Sphere nm sphere ray (HitRecord.fresh nm) false).1 = true ∧
      (HitTest_Sphere nm sphere ray (HitRecord.fresh nm) false).2.t = t) ∨
  (∃ plane ∈ scene.m_PlaneGeometries,
      (HitTest_Plane plane ray (HitRecord.fresh nm) false).1 = true ∧
      (HitTest_Plane plane ray (HitRecord.fresh nm) false).2.t = t) ∨
  (∃ mesh ∈ scene.m_TriangleMeshGeometries, ∃ result,
      HitTest_TriangleMesh nm mesh ray (HitRecord.fresh nm) false = some result ∧
      result.1 = true ∧ result.2.t = t)

/-! ## Reflectance functions (`BRDFs.h`) -/

namespace BRDF

/-- Embedding of `BRDF::FresnelFunction_Schlick(h, v, f0)`; `powf(x, 5.f)` is
the fifth power. -/
def FresnelFunction_Schlick (h v : Vector3 K) (f0 : ColorRGB K) : ColorRGB K :=
  let hDotv := max (Vector3.Dot h v) 0
  let one : ColorRGB K := ⟨1, 1, 1⟩
  f0.add ((one.sub f0).scale ((1 - hDotv) ^ 5))

/-- Line 73 of `BRDFs.h`: the denominator of `NormalDistribution_GGX`; the
constant `PI` of `Math.h` is a parameter, `powf(x, 2.f)` is the square. -/
def NormalDistribution_GGX.denominator (PI : K) (n h : Vector3 K) (roughness : K) : K :=
  let alpha := Square roughness
  let alphaSqrd := Square alpha
  let nDothSqr := Square (max (Vector3.Dot n h) 0)
  PI * (nDothSqr * (alphaSqrd - 1) + 1) ^ 2

/-- Embedding of `BRDF::NormalDistribution_GGX(n, h, roughness)`. -/
def NormalDistribution_GGX (PI : K) (n h : Vector3 K) (roughness : K) : K :=
  let alpha := Square roughness
  let alphaSqrd := Square alpha
  alphaSqrd / NormalDistribution_GGX.denominator PI n h roughness

/-- Line 89 of `BRDFs.h`: the direct-lighting remap `k` of the roughness. -/
def GeometryFunction_SchlickGGX.k (roughness : K) : K :=
  let alpha := Square roughness
  (alpha + 1) ^ 2 / 8

/-- Line 92 of `BRDFs.h`: the denominator of `GeometryFunction_SchlickGGX`. -/
def GeometryFunction_SchlickGGX.denominator (n v : Vector3 K) (roughness : K) : K :=
  let k := GeometryFunction_SchlickGGX.k roughness
  let nDotv := max (Vector3.Dot n v) 0
  nDotv * (1 - k) + k

/-- Embedding of `BRDF::GeometryFunction_SchlickGGX(n, v, roughness)`. -/
def GeometryFunction_SchlickGGX (n v : Vector3 K) (roughness : K) : K :=
  let nDotv := max (Vector3.Dot n v) 0
  nDotv / GeometryFunction_SchlickGGX.denominator n v roughness

/-- Embedding of `BRDF::GeometryFunction_Smith(n, v, l, roughness)`. -/
def GeometryFunction_Smith (n v l : Vector3 K) (roughness : K) : K :=
  GeometryFunction_SchlickGGX n v roughness * GeometryFunction_SchlickGGX n l roughness

end BRDF

/-- The value of the `float` constant `PI` of `Math.h`,
`3.14159265358979323846f`, as a rational. -/
def ratPI : ℚ := 13176795 / 4194304

/-! ## Renderer: pixel indexing (`Renderer.cpp`) -/

/-- Line 67 of `Renderer.cpp`: `px = pixelIndex % m_Width` (`uint32_t`). -/
def RenderPixel.px (m_Width pixelIndex : Nat) : Nat := pixelIndex % m_Width

/-- Line 67 of `Renderer.cpp`: `py = pixelIndex / m_Width` (`uint32_t`). -/
def RenderPixel.py (m_Width pixelIndex : Nat) : Nat := pixelIndex / m_Width

/-- Line 126 of `Renderer.cpp`: the index `px + (py * m_Width)` of the buffer
cell written, in `uint32_t` arithmetic. -/
def RenderPixel.bufferIndex (m_Width pixelIndex : Nat) : Nat :=
  (RenderPixel.px m_Width pixelIndex +
    (RenderPixel.py m_Width pixelIndex * m_Width) % 2 ^ 32) % 2 ^ 32

/-- Lines 126-129 of `Renderer.cpp`: the write of `RenderPixel` into the pixel
buffer. The value written depends on the scene and the pixel index only (the
buffer is never read), so it is a function `pixelValue` of the index. -/
def RenderPixel.writeBuffer (m_Width : Nat) (pixelValue : Nat → Nat) (buffer : List Nat)
    (pixelIndex : Nat) : List Nat :=
  buffer.set (RenderPixel.bufferIndex m_Width pixelIndex) (pixelValue pixelIndex)

/-- Lines 37-54 of `Renderer.cpp`: `RenderPixel` run for every pixel index in
the given order; the sequential branch uses `0, 1, ..., m_Width * m_Height - 1`,
the parallel branch any interleaving of those indices. -/
def Render.pixels (m_Width : Nat) (pixelValue : Nat → Nat) (buffer : List Nat)
    (order : List Nat) : List Nat :=
  order.foldl (RenderPixel.writeBuffer m_Width pixelValue) buffer

/-- Lines 50-62 of `Utils.h` on a possibly non-finite `t`. The record is
written only under `t > ray.min && t < ray.max`, where `t` is finite. -/
def HitTest_Sphere.commitIeee (nm : Numerics K) (sphere : Sphere K) (ray : Ray K)
    (hitRecord : HitRecord K) (ignoreHitRecord : Bool) (t : FloatValue K) :
    Bool × HitRecord K :=
  if t.gt (FloatValue.finite ray.min) ∧ t.lt (FloatValue.finite ray.max) ∧
      t.lt (FloatValue.finite hitRecord.t) then
    if !ignoreHitRecord then
      let origin := ray.origin.add (ray.direction.scale t.toFinite)
      (true, { t := t.toFinite, didHit := true, materialIndex := sphere.materialIndex,
               origin := origin, normal := (origin.sub sphere.origin).Normalized nm })
    else (true, hitRecord)
  else (false, hitRecord)

/-- Embedding of `GeometryUtils::HitTest_Sphere(sphere, ray, hitRecord,
ignoreHitRecord)` with `tDelta`, `t0`, `t1` and `t` as possibly non-finite
floats: the square root of a negative number is NaN. -/
def HitTest_Sphere.ieee (nm : Numerics K) (sphere : Sphere K) (ray : Ray K)
    (hitRecord : HitRecord K) (ignoreHitRecord : Bool) : Bool × HitRecord K :=
  let rayToSphereOrigin := sphere.origin.sub ray.origin
  let tAdjacent := Vector3.Dot rayToSphereOrigin ray.direction
  let oppositeSideSqrd := rayToSphereOrigin.SqrMagnitude - Square tAdjacent
  let tDelta := FloatValue.sqrt nm (FloatValue.finite (Square sphere.radius - oppositeSideSqrd))
  let t0 := (FloatValue.finite tAdjacent).sub tDelta
  let t1 := (FloatValue.finite tAdjacent).add tDelta
  if t0.gt (FloatValue.finite ray.min) ∧ t0.lt (FloatValue.finite ray.max) then
    HitTest_Sphere.commitIeee nm sphere ray hitRecord ignoreHitRecord t0
  else if t1.lt (FloatValue.finite ray.min) ∨ t0.gt (FloatValue.finite ray.max) then
    (false, hitRecord)
  else HitTest_Sphere.commitIeee nm sphere ray hitRecord ignoreHitRecord t1

/-- Embedding of `GeometryUtils::HitTest_Plane(plane, ray, hitRecord,
ignoreHitRecord)` with `t` as a possibly non-finite float: the quotient by a
zero dot product is an infinity or NaN. The record is written only under
`t > ray.min && t < ray.max`, where `t` is finite. -/
def HitTest_Plane.ieee (negativeZero : Bool) (plane : Plane K) (ray : Ray K)
    (hitRecord : HitRecord K) (ignoreHitRecord : Bool) : Bool × HitRecord K :=
  let rayToPlaneOrigin := plane.origin.sub ray.origin
  let t := FloatValue.divFinite negativeZero (Vector3.Dot rayToPlaneOrigin plane.normal)
    (Vector3.Dot ray.direction plane.normal)
  if t.gt (FloatValue.finite ray.min) ∧ t.lt (FloatValue.finite ray.max) ∧
      t.lt (FloatValue.finite hitRecord.t) then
    if !ignoreHitRecord then
      (true, { t := t.toFinite, didHit := true, materialIndex := plane.materialIndex,
               origin := ray.origin.add (ray.direction.scale t.toFinite),
               normal := plane.normal })
    else (true, hitRecord)
  else (false, hitRecord)

/-- A ray that passes the scenario sphere at distance 5: origin `(0,5,-5)`,
direction `(0,0,1)`. -/
def missingSphereRay : Ray ℚ :=
  { origin := ⟨0, 5, -5⟩, direction := ⟨0, 0, 1⟩, min := 0, max := ratNumerics.FLT_MAX }

/-- A ray parallel to the scenario plane `y = 0`: origin `(0,5,0)`, direction
`(1,0,0)`. -/
def parallelPlaneRay : Ray ℚ :=
  { origin := ⟨0, 5, 0⟩, direction := ⟨1, 0, 0⟩, min := 0, max := ratNumerics.FLT_MAX }

/-! ## Triangle scan of a mesh: specification-side notions -/

/-- The update `HitTest_Triangle` applies to the record it is given: the
candidate replaces the record when it is valid and not farther (a tie
overwrites). -/
def tieWins (candidate : Bool × HitRecord K) (hitRecord : HitRecord K) : Bool × HitRecord K :=
  if candidate.1 = true ∧ candidate.2.t ≤ hitRecord.t then (true, candidate.2)
  else (false, hitRecord)

/-- The candidate a triangle offers: the outcome of `HitTest_Triangle` against a
fresh record. -/
def triangleCandidate (nm : Numerics K) (ray : Ray K) (ignoreHitRecord : Bool)
    (triangle : Triangle K) : Bool × HitRecord K :=
  HitTest_Triangle nm triangle ray (HitRecord.fresh nm) ignoreHitRecord

/-- Some triangle of the mesh (an index triple with its cached normal and the
mesh cull mode), tested alone against a fresh record, is hit and leaves the
record `hitRecord`. -/
def TriangleMesh.TriangleHitAlone (nm : Numerics K) (mesh : TriangleMesh K) (ray : Ray K)
    (hitRecord : HitRecord K) : Prop :=
  ∃ normalIndex triangle, normalIndex < mesh.transformedNormals.length ∧
    mesh.triangleAt normalIndex = some triangle ∧
    HitTest_Triangle nm triangle ray (HitRecord.fresh nm) false = (true, hitRecord)

/-- A ray that meets the scenario plane `y = 0` from below: origin `(0,-5,0)`,
unit direction `(0,1,0)`. -/
def rayFromBelowPlane : Ray ℚ :=
  { origin := ⟨0, -5, 0⟩, direction := ⟨0, 1, 0⟩, min := 0, max := ratNumerics.FLT_MAX }

/-- A ray that starts at the centre of the scenario sphere: origin `(0,0,0)`,
unit direction `(0,0,1)`. -/
def rayFromSphereCentre : Ray ℚ :=
  { origin := ⟨0, 0, 0⟩, direction := ⟨0, 0, 1⟩, min := 0, max := ratNumerics.FLT_MAX }

/-- The cached bounding box contains every transformed vertex of the mesh. -/
def TriangleMesh.BoxContainsVertices (mesh : TriangleMesh K) : Prop :=
  ∀ v ∈ mesh.transformedPositions,
    (mesh.transformedMinAABB.x ≤ v.x ∧ v.x ≤ mesh.transformedMaxAABB.x) ∧
    (mesh.transformedMinAABB.y ≤ v.y ∧ v.y ≤ mesh.transformedMaxAABB.y) ∧
    (mesh.transformedMinAABB.z ≤ v.z ∧ v.z ≤ mesh.transformedMaxAABB.z)

/-- The cached normal of every triangle of the mesh is a positive multiple of
its winding normal `Cross(v1 - v0, v2 - v0)`; the unit winding normal of a
non-degenerate triangle is the multiple by `1 / |Cross(v1 - v0, v2 - v0)|`. -/
def TriangleMesh.HasWindingNormals (mesh : TriangleMesh K) : Prop :=
  ∀ normalIndex triangle, mesh.triangleAt normalIndex = some triangle →
    ∃ c, 0 < c ∧ triangle.normal =
      (Vector3.Cross (triangle.v1.sub triangle.v0) (triangle.v2.sub triangle.v0)).scale c

/-- The triangle scan of `HitTest_TriangleMesh` run without the slab pretest:
lines 223-249 of `Utils.h` without line 221. -/
def HitTest_TriangleMesh.withoutSlabTest (nm : Numerics K) (mesh : TriangleMesh K)
    (ray : Ray K) (hitRecord : HitRecord K) (ignoreHitRecord : Bool) :
    Option (Bool × HitRecord K) :=
  match HitTest_TriangleMesh.scan nm mesh ray ignoreHitRecord
      (List.range mesh.transformedNormals.length) (HitRecord.fresh nm) with
  | none => none
  | some temp =>
    if temp.didHit ∧ temp.t < hitRecord.t then
      if !ignoreHitRecord then
        some (true, { temp with materialIndex := mesh.materialIndex })
      else some (true, hitRecord)
    else some (false, hitRecord)

/-- A ray that leaves the scenario mesh behind: origin `(-2, -0.7, 2)`, direction
`(2/3, 1/3, 2/3)`, no zero component. -/
def rayAwayFromMesh : Ray ℚ :=
  { origin := ⟨-2, -7 / 10, 2⟩, direction := ⟨2 / 3, 1 / 3, 2 / 3⟩, min := 0,
    max := ratNumerics.FLT_MAX }

/-! ## Lights and the per-pixel shading loop (`Utils.h`, `Scene.cpp`, `Renderer.cpp`) -/

/-- Embedding of `LightUtils::GetDirectionToLight(light, origin)`;
`Vector3{ origin, light.origin }` is the vector from `origin` to
`light.origin`. -/
def GetDirectionToLight (light : Light K) (origin : Vector3 K) : Vector3 K :=
  match light.type with
  | LightType.Point => light.origin.sub origin
  | LightType.Directional => origin.neg

/-- Embedding of `LightUtils::GetRadiance(light, target)`. -/
def GetRadiance (nm : Numerics K) (light : Light K) (target : Vector3 K) : ColorRGB K :=
  match light.type with
  | LightType.Point =>
    let radius := (light.origin.sub target).Magnitude nm
    (light.color.scale light.intensity).divide (Square radius)
  | LightType.Directional => light.color.scale light.intensity

/-- Lines 57-61 of `Scene.cpp`: the loop of `DoesHit` over the triangle meshes. -/
def Scene.DoesHit.meshes (nm : Numerics K) (ray : Ray K) : List (TriangleMesh K) → Option Bool
  | [] => some false
  | mesh :: rest =>
    match HitTest_TriangleMesh.existence nm mesh ray with
    | none => none
    | some true => some true
    | some false => Scene.DoesHit.meshes nm ray rest

/-- Embedding of `Scene::DoesHit(ray)`; `none` when a mesh test performs an
out-of-bounds access. -/
def Scene.DoesHit (nm : Numerics K) (scene : Scene K) (ray : Ray K) : Option Bool :=
  if scene.m_SphereGeometries.any (fun sphere => HitTest_Sphere.existence nm sphere ray) then
    some true
  else if scene.m_PlaneGeometries.any (fun plane => HitTest_Plane.existence nm plane ray) then
    some true
  else Scene.DoesHit.meshes nm ray scene.m_TriangleMeshGeometries

/-- Modelled from the spec: `LightingMode` of `Renderer.h`, the selectable
display mode. -/
inductive LightingMode where
  | ObservedArea
  | Radiance
  | BRDF
  | Combined
deriving DecidableEq

/-- Line 96 of `Renderer.cpp`: the shadow ray
`Ray{ hitOrigin, directionToLight, 0.001f, rayMax }`. -/
def RenderPixel.shadowRay (hitOrigin directionToLight : Vector3 K) (rayMax : K) : Ray K :=
  { origin := hitOrigin, direction := directionToLight, min := 1 / 1000, max := rayMax }

/-- Lines 91-92 of `Renderer.cpp`: the direction to the light after
`Normalize()` (which divides the vector by its magnitude in place). -/
def RenderPixel.directionToLight (nm : Numerics K) (light : Light K)
    (closestHit : HitRecord K) : Vector3 K :=
  (GetDirectionToLight light closestHit.origin).Normalized nm

/-- Lines 91-98 of `Renderer.cpp`: whether the light is skipped (`continue`)
by the shadow test; `rayMax` is the magnitude returned by `Normalize()`. -/
def RenderPixel.lightSkipped (nm : Numerics K) (scene : Scene K) (shadowsEnabled : Bool)
    (closestHit : HitRecord K) (light : Light K) : Option Bool :=
  let rayMax := (GetDirectionToLight light closestHit.origin).Magnitude nm
  if shadowsEnabled then
    scene.DoesHit nm (RenderPixel.shadowRay closestHit.origin
      (RenderPixel.directionToLight nm light closestHit) rayMax)
  else some false

/-- Lines 88-119 of `Renderer.cpp`: the loop over the lights, accumulating
`finalColor`. `Shade materialIndex hit l v` stands for
`materials[materialIndex]->Shade(hit, l, v)` of `Material.h`. -/
def RenderPixel.lightLoop (nm : Numerics K) (scene : Scene K)
    (Shade : Nat → HitRecord K → Vector3 K → Vector3 K → ColorRGB K) (shadowsEnabled : Bool)
    (mode : LightingMode) (rayDirection : Vector3 K) (closestHit : HitRecord K) :
    List (Light K) → ColorRGB K → Option (ColorRGB K)
  | [], finalColor => some finalColor
  | light :: rest, finalColor =>
    match RenderPixel.lightSkipped nm scene shadowsEnabled closestHit light with
    | none => none
    | some true =>
      RenderPixel.lightLoop nm scene Shade shadowsEnabled mode rayDirection closestHit rest
        finalColor
    | some false =>
      let directionToLight := RenderPixel.directionToLight nm light closestHit
      let radiance := GetRadiance nm light closestHit.origin
      let observedArea := max (Vector3.Dot closestHit.normal directionToLight) 0
      let BRDF := Shade closestHit.materialIndex closestHit directionToLight rayDirection.neg
      RenderPixel.lightLoop nm scene Shade shadowsEnabled mode rayDirection closestHit rest
        (match mode with
         | LightingMode.ObservedArea => finalColor.add ⟨observedArea, observedArea, observedArea⟩
         | LightingMode.Radiance => finalColor.add radiance
         | LightingMode.BRDF => finalColor.add BRDF
         | LightingMode.Combined => finalColor.add ((radiance.mul BRDF).scale observedArea))

/-- Lines 79-121 of `Renderer.cpp`: the colour accumulated by `RenderPixel` for
the view ray, before `MaxToOne`; `none` when a mesh test performs an
out-of-bounds access. -/
def RenderPixel.finalColor (nm : Numerics K) (scene : Scene K)
    (Shade : Nat → HitRecord K → Vector3 K → Vector3 K → ColorRGB K) (shadowsEnabled : Bool)
    (mode : LightingMode) (viewRay : Ray K) : Option (ColorRGB K) :=
  match Scene.GetClosestHit nm scene viewRay (HitRecord.fresh nm) with
  | none => none
  | some closestHit =>
    if closestHit.didHit then
      RenderPixel.lightLoop nm scene Shade shadowsEnabled mode viewRay.direction closestHit
        scene.m_Lights ColorRGB.black
    else some ColorRGB.black

/-- The sum, over the lights not skipped by the shadow test, of the clamped
cosine `max(Dot(hit.normal, directionToLight), 0)` with the direction
`RenderPixel` computes; `none` when a shadow test performs an out-of-bounds
access. -/
def observedAreaSum (nm : Numerics K) (scene : Scene K) (shadowsEnabled : Bool)
    (closestHit : HitRecord K) : List (Light K) → Option K
  | [] => some 0
  | light :: rest =>
    match RenderPixel.lightSkipped nm scene shadowsEnabled closestHit light,
        observedAreaSum nm scene shadowsEnabled closestHit rest with
    | some true, some total => some total
    | some false, some total =>
      some (max (Vector3.Dot closestHit.normal
        (RenderPixel.directionToLight nm light closestHit)) 0 + total)
    | _, _ => none

/-- A directional light shining along `+z` (its rays travel in direction
`(0,0,1)`, so the direction to the light is `(0,0,-1)`), white, intensity 1. -/
def directionalLightAlongZ : Light ℚ :=
  { origin := ⟨0, 0, 0⟩, direction := ⟨0, 0, 1⟩, color := ⟨1, 1, 1⟩, intensity := 1,
    type := LightType.Directional }

/-- A point light at `(0,0,-3)`, white, intensity 1. -/
def pointLightInFront : Light ℚ :=
  { origin := ⟨0, 0, -3⟩, direction := ⟨0, 0, 0⟩, color := ⟨1, 1, 1⟩, intensity := 1,
    type := LightType.Point }

/-- The scenario sphere lit by one light. -/
def litSphereScene (light : Light ℚ) : Scene ℚ :=
  { m_SphereGeometries := [scenarioSphere], m_PlaneGeometries := [],
    m_TriangleMeshGeometries := [], m_Lights := [light],
    m_Materials := [Material.SolidColor ⟨1, 0, 0⟩] }

/-- A material shading that returns black; the ObservedArea mode ignores it. -/
def blackShade : Nat → HitRecord ℚ → Vector3 ℚ → Vector3 ℚ → ColorRGB ℚ :=
  fun _ _ _ _ => ColorRGB.black

/-- A ray that starts at `(0,0,-5)` and points away from the scenario sphere:
unit direction `(0,0,-1)`. -/
def rayAwayFromSphere : Ray ℚ :=
  { origin := ⟨0, 0, -5⟩, direction := ⟨0, 0, -1⟩, min := 0, max := ratNumerics.FLT_MAX }

/-! ## Materials, shadow rays and camera rays -/

/-- A sequence of `AddMaterial` calls in the order of the list: the final
scene and the indices the calls returned. -/
def Scene.AddMaterials (scene : Scene K) : List (Material K) → Scene K × List Nat
  | [] => (scene, [])
  | pMaterial :: rest =>
    let call := scene.AddMaterial pMaterial
    let calls := Scene.AddMaterials call.1 rest
    (calls.1, call.2 :: calls.2)

/-- The material `Material_Lambert({ 0.49, 0.57, 0.57 }, 1)` of the reference scenes. -/
def grayBlueLambert : Material ℚ := Material.Lambert ⟨49 / 100, 57 / 100, 57 / 100⟩ 1

/-- The scenario mesh after its object-space data was replaced by one triangle
while the cache still holds two normals: the three indices are valid into
`positions` and their count is divisible by 3. -/
def staleNormalsMesh : TriangleMesh ℚ :=
  { positions := [⟨-1, 0, 0⟩, ⟨1, 0, 0⟩, ⟨0, 1, 0⟩],
    indices := [0, 1, 2], materialIndex := 4, cullMode := TriangleCullMode.NoCulling,
    transformedPositions := [⟨-1, 0, 0⟩, ⟨1, 0, 0⟩, ⟨0, 1, 0⟩],
    transformedNormals := [⟨0, 0, 1⟩, ⟨0, 0, 1⟩],
    transformedMinAABB := ⟨-1, 0, 0⟩, transformedMaxAABB := ⟨1, 1, 0⟩ }

/-- The scenario mesh after a fourth position was added and the indices were
changed to `1, 2, 3` without an update of the cache: the indices are valid
into `positions`, the cache holds three positions. -/
def stalePositionsMesh : TriangleMesh ℚ :=
  { positions := [⟨-1, 0, 0⟩, ⟨1, 0, 0⟩, ⟨0, 1, 0⟩, ⟨0, -1, 0⟩],
    indices := [1, 2, 3], materialIndex := 4, cullMode := TriangleCullMode.NoCulling,
    transformedPositions := [⟨-1, 0, 0⟩, ⟨1, 0, 0⟩, ⟨0, 1, 0⟩],
    transformedNormals := [⟨0, 0, 1⟩],
    transformedMinAABB := ⟨-1, 0, 0⟩, transformedMaxAABB := ⟨1, 1, 0⟩ }

/-- Lines 90-96 of `Renderer.cpp`: the shadow ray `RenderPixel` builds for a
hit and a light. -/
def RenderPixel.shadowRayTowards (nm : Numerics K) (light : Light K)
    (closestHit : HitRecord K) : Ray K :=
  RenderPixel.shadowRay closestHit.origin (RenderPixel.directionToLight nm light closestHit)
    ((GetDirectionToLight light closestHit.origin).Magnitude nm)

/-- The hit of the scenario ray on the scenario sphere, as `HitTest_Sphere`
records it: the point `(0,0,-1)` with normal `(0,0,-1)`. -/
def frontOfSphereHit : HitRecord ℚ :=
  (HitTest_Sphere ratNumerics scenarioSphere scenarioSphereRay (HitRecord.fresh ratNumerics)
    false).2

/-- A point light at distance `1/2000` in front of the point `(0,0,-1)`. -/
def nearbyPointLight : Light ℚ :=
  { origin := ⟨0, 0, -2001 / 2000⟩, direction := ⟨0, 0, 0⟩, color := ⟨1, 1, 1⟩, intensity := 1,
    type := LightType.Point }

/-- Modelled from the spec: `Vector3::UnitY` of `Vector3.h`. -/
def Vector3.UnitY : Vector3 K := ⟨0, 1, 0⟩

/-- Modelled from the spec: `Matrix` of `Matrix.h`, the three axes of the
orientation basis and the translation. -/
structure Matrix (K : Type) where
  xAxis : Vector3 K
  yAxis : Vector3 K
  zAxis : Vector3 K
  translation : Vector3 K

/-- Modelled from the spec: `Matrix::TransformVector`, the vector expressed in
the orientation basis (the translation is not applied). -/
def Matrix.TransformVector (m : Matrix K) (v : Vector3 K) : Vector3 K :=
  ⟨v.x * m.xAxis.x + v.y * m.yAxis.x + v.z * m.zAxis.x,
   v.x * m.xAxis.y + v.y * m.yAxis.y + v.z * m.zAxis.y,
   v.x * m.xAxis.z + v.y * m.yAxis.z + v.z * m.zAxis.z⟩

/-- The fields of `Camera` (`Camera.h`) that `CalculateCameraToWorld` reads. -/
structure Camera (K : Type) where
  origin : Vector3 K
  forward : Vector3 K

/-- Embedding of `Camera::CalculateCameraToWorld()` (lines 31-39 of `Camera.h`). -/
def Camera.CalculateCameraToWorld (nm : Numerics K) (camera : Camera K) : Matrix K :=
  let forward := camera.forward.Normalized nm
  let right := (Vector3.Cross Vector3.UnitY forward).Normalized nm
  let up := (Vector3.Cross forward right).Normalized nm
  { xAxis := right, yAxis := up, zAxis := forward, translation := camera.origin }

/-- Lines 67-73 of `Renderer.cpp`: the camera-space direction `{ x, y, 1.f }`
of a pixel, from its normalised device coordinates. -/
def RenderPixel.cameraSpaceDirection (m_Width m_Height pixelIndex : Nat)
    (fov aspectRatio : K) : Vector3 K :=
  let px := RenderPixel.px m_Width pixelIndex
  let py := RenderPixel.py m_Width pixelIndex
  let x := (2 * (((px : K) + 1 / 2) / (m_Width : K)) - 1) * aspectRatio * fov
  let y := (1 - 2 * (((py : K) + 1 / 2) / (m_Height : K))) * fov
  ⟨x, y, 1⟩

/-- Lines 67-77 of `Renderer.cpp`: the camera ray of a pixel. `rayMin` and
`rayMax` stand for the default bounds of `Ray` (`DataTypes.h`), which the
two-argument construction `Ray{ cameraOrigin, rayDirection }` leaves in place. -/
def RenderPixel.viewRay (nm : Numerics K) (m_Width m_Height pixelIndex : Nat)
    (fov aspectRatio : K) (cameraToWorld : Matrix K) (cameraOrigin : Vector3 K)
    (rayMin rayMax : K) : Ray K :=
  let rayDirection := RenderPixel.cameraSpaceDirection m_Width m_Height pixelIndex fov
    aspectRatio
  let rayDirection := cameraToWorld.TransformVector (rayDirection.Normalized nm)
  { origin := cameraOrigin, direction := rayDirection, min := rayMin, max := rayMax }

/-- The square root of the numeric environment is exact at `a`. -/
def Numerics.ExactAt (nm : Numerics K) (a : K) : Prop := nm.sqrt a * nm.sqrt a = a

/-- A camera at `(0,0,-5)` looking along `+z`, the default `forward`. -/
def cameraAlongZ : Camera ℚ := { origin := ⟨0, 0, -5⟩, forward := ⟨0, 0, 1⟩ }

/-- A camera at `(0,0,-5)` looking straight up, along the world `y` axis. -/
def cameraLookingUp : Camera ℚ := { origin := ⟨0, 0, -5⟩, forward := ⟨0, 1, 0⟩ }

/-- The scenario scene with its mesh under `NoCulling`. -/
def noCullingScene : Scene ℚ :=
  { m_SphereGeometries := [sceneSphere], m_PlaneGeometries := [scenePlane],
    m_TriangleMeshGeometries := [scenarioMesh TriangleCullMode.NoCulling],
    m_Lights := [], m_Materials := [Material.SolidColor ⟨1, 0, 0⟩] }

/-! ## The slab pretest on non-finite values: axis pairs -/

/-- Lines 196-200 of `Utils.h` for one axis: the pair
`(std::min(t1, t2), std::max(t1, t2))` of the two quotients of the axis. -/
def SlabTest_TriangleMesh.axis (negativeZero : Bool) (lo hi o d : K) :
    FloatValue K × FloatValue K :=
  (FloatValue.min (FloatValue.divFinite negativeZero (lo - o) d)
      (FloatValue.divFinite negativeZero (hi - o) d),
    FloatValue.max (FloatValue.divFinite negativeZero (lo - o) d)
      (FloatValue.divFinite negativeZero (hi - o) d))

/-- Lines 199-214 of `Utils.h` on the pairs of the three axes. -/
def SlabTest_TriangleMesh.combine (x y z : FloatValue K × FloatValue K) : Bool :=
  let tmin := x.1
  let tmax := x.2
  let tmin := FloatValue.max tmin y.1
  let tmax := FloatValue.min tmax y.2
  let tmin := FloatValue.max tmin z.1
  let tmax := FloatValue.min tmax z.2
  tmax.gt (FloatValue.finite 0) && tmax.ge tmin

/-! ## Scenario with an axis-aligned ray -/

/-- A mesh of two parallel triangles: the scenario triangle in the plane
`z = 0` (index triple `0, 1, 2`) and a copy of it in the plane `z = 1` (index
triple `3, 4, 5`), both with normal `(0,0,1)`, with their bounding box. -/
def twoTriangleMesh (cullMode : TriangleCullMode) : TriangleMesh ℚ :=
  { positions := [⟨-1, 0, 0⟩, ⟨1, 0, 0⟩, ⟨0, 1, 0⟩, ⟨-1, 0, 1⟩, ⟨1, 0, 1⟩, ⟨0, 1, 1⟩],
    indices := [0, 1, 2, 3, 4, 5], materialIndex := 4, cullMode := cullMode,
    transformedPositions :=
      [⟨-1, 0, 0⟩, ⟨1, 0, 0⟩, ⟨0, 1, 0⟩, ⟨-1, 0, 1⟩, ⟨1, 0, 1⟩, ⟨0, 1, 1⟩],
    transformedNormals := [⟨0, 0, 1⟩, ⟨0, 0, 1⟩],
    transformedMinAABB := ⟨-1, 0, 0⟩, transformedMaxAABB := ⟨1, 1, 1⟩ }

/-- A ray along the `z` axis, with two zero direction components: origin
`(0, 1/4, 5)`, direction `(0,0,-1)`, bounds `(0, FLT_MAX)`. It meets the
plane `z = 1` at `t = 4` and the plane `z = 0` at `t = 5`. -/
def axisAlignedRay : Ray ℚ :=
  { origin := ⟨0, 1 / 4, 5⟩, direction := ⟨0, 0, -1⟩, min := 0, max := ratNumerics.FLT_MAX }

/-- A unit sphere around `(3, 1/4, 0)`, at distance 3 from the line of
`axisAlignedRay`. -/
def sphereBesideAxis : Sphere ℚ := { origin := ⟨3, 1 / 4, 0⟩, radius := 1, materialIndex := 1 }

/-- A scene for `axisAlignedRay`: a sphere the ray passes at distance 3, the
plane `y = 0` parallel to the ray, the plane `z = -1` (met at `t = 6`) and the
mesh of two triangles (met at `t = 5` and at `t = 4`). -/
def axisAlignedScene (cullMode : TriangleCullMode) : Scene ℚ :=
  { m_SphereGeometries := [sphereBesideAxis], m_PlaneGeometries := [scenarioPlane, scenePlane],
    m_TriangleMeshGeometries := [twoTriangleMesh cullMode], m_Lights := [],
    m_Materials := [Material.SolidColor ⟨1, 0, 0⟩] }

/-- The outcome of each primitive of the scene tested alone against the record
`hitRecord`, in the order in which `Scene::GetClosestHit` visits the
primitives: spheres, planes, triangle meshes. -/
def Scene.testsAgainst (nm : Numerics K) (scene : Scene K) (ray : Ray K)
    (hitRecord : HitRecord K) : List (Bool × HitRecord K) :=
  scene.m_SphereGeometries.map (fun sphere => HitTest_Sphere nm sphere ray hitRecord false) ++
    (scene.m_PlaneGeometries.map (fun plane => HitTest_Plane plane ray hitRecord false) ++
      scene.m_TriangleMeshGeometries.map (fun mesh =>
        (HitTest_TriangleMesh nm mesh ray hitRecord false).getD (false, hitRecord)))

/-- The record `closestHit` is the caller's record when no primitive, tested
alone against it, is hit; otherwise it is the record written by the first
primitive in iteration order among those whose hit has the smallest `t`. -/
def Scene.FirstClosestWins (nm : Numerics K) (scene : Scene K) (ray : Ray K)
    (hitRecord closestHit : HitRecord K) : Prop :=
  (closestHit = hitRecord ∧ ∀ r ∈ scene.testsAgainst nm ray hitRecord, r.1 = false) ∨
  ∃ (i : Nat) (r : Bool × HitRecord K),
    (scene.testsAgainst nm ray hitRecord)[i]? = some r ∧ r.1 = true ∧ closestHit = r.2 ∧
    (∀ other ∈ scene.testsAgainst nm ray hitRecord, other.1 = true → r.2.t ≤ other.2.t) ∧
    (∀ (j : Nat) (other : Bool × HitRecord K), j < i → (scene.testsAgainst nm ray hitRecord)[j]? = some other →
      other.1 = true → r.2.t < other.2.t)

/-- A scene in which `axisAlignedRay` meets the mesh only: the sphere beside
the axis, the plane `y = 0` parallel to the ray and the mesh of two triangles. -/
def meshOnlyScene (cullMode : TriangleCullMode) : Scene ℚ :=
  { m_SphereGeometries := [sphereBesideAxis], m_PlaneGeometries := [scenarioPlane],
    m_TriangleMeshGeometries := [twoTriangleMesh cullMode], m_Lights := [],
    m_Materials := [Material.SolidColor ⟨1, 0, 0⟩] }

/-- The mesh test `HitTest_TriangleMesh` with the slab pretest evaluated for
given signs of the zero components of the direction; for a mesh whose element
accesses are in bounds it equals `HitTest_TriangleMesh` for every choice of
the signs (`HitTest_TriangleMesh_sign_irrelevant`). -/
def HitTest_TriangleMesh.signed (negativeZeroX negativeZeroY negativeZeroZ : Bool)
    (nm : Numerics K) (mesh : TriangleMesh K) (ray : Ray K) (hitRecord : HitRecord K)
    (ignoreHitRecord : Bool) : Option (Bool × HitRecord K) :=
  if !SlabTest_TriangleMesh.signed negativeZeroX negativeZeroY negativeZeroZ mesh ray then
    some (false, hitRecord)
  else
    match HitTest_TriangleMesh.scan nm mesh ray ignoreHitRecord
        (List.range mesh.transformedNormals.length) (HitRecord.fresh nm) with
    | none => none
    | some temp =>
      if temp.didHit ∧ temp.t < hitRecord.t then
        if !ignoreHitRecord then
          some (true, { temp with materialIndex := mesh.materialIndex })
        else some (true, hitRecord)
      else some (false, hitRecord)

/-! ## Non-finite values: the exact forms of the tests -/

theorem HitTest_Sphere_of_neg (nm : Numerics K) (sphere : Sphere K) (ray : Ray K)
    (hitRecord : HitRecord K) (ignoreHitRecord : Bool)
    (h : sphereDiscriminant sphere ray < 0) :
    HitTest_Sphere nm sphere ray hitRecord ignoreHitRecord = (false, hitRecord) := by
  unfold sphereDiscriminant at h
  simp only [HitTest_Sphere]
  rw [if_pos h]

theorem HitTest_Sphere_of_nonneg (nm : Numerics K) (sphere : Sphere K) (ray : Ray K)
    (hitRecord : HitRecord K) (ignoreHitRecord : Bool)
    (h : 0 ≤ sphereDiscriminant sphere ray) :
    HitTest_Sphere nm sphere ray hitRecord ignoreHitRecord =
      if Vector3.Dot (sphere.origin.sub ray.origin) ray.direction -
            nm.sqrt (sphereDiscriminant sphere ray) > ray.min ∧
          Vector3.Dot (sphere.origin.sub ray.origin) ray.direction -
            nm.sqrt (sphereDiscriminant sphere ray) < ray.max then
        HitTest_Sphere.commit nm sphere ray hitRecord ignoreHitRecord
          (Vector3.Dot (sphere.origin.sub ray.origin) ray.direction -
            nm.sqrt (sphereDiscriminant sphere ray))
      else if Vector3.Dot (sphere.origin.sub ray.origin) ray.direction +
            nm.sqrt (sphereDiscriminant sphere ray) < ray.min ∨
          Vector3.Dot (sphere.origin.sub ray.origin) ray.direction -
            nm.sqrt (sphereDiscriminant sphere ray) > ray.max then (false, hitRecord)
      else HitTest_Sphere.commit nm sphere ray hitRecord ignoreHitRecord
          (Vector3.Dot (sphere.origin.sub ray.origin) ray.direction +
            nm.sqrt (sphereDiscriminant sphere ray)) := by
  have hnot : ¬ sphereDiscriminant sphere ray < 0 := not_lt.mpr h
  unfold sphereDiscriminant at hnot ⊢
  simp only [HitTest_Sphere]
  rw [if_neg hnot]

theorem HitTest_Sphere_hit_nonneg (nm : Numerics K) (sphere : Sphere K) (ray : Ray K)
    (hitRecord : HitRecord K) (ignoreHitRecord : Bool)
    (h : (HitTest_Sphere nm sphere ray hitRecord ignoreHitRecord).1 = true) :
    0 ≤ sphereDiscriminant sphere ray := by
  by_contra hneg
  rw [HitTest_Sphere_of_neg nm sphere ray hitRecord ignoreHitRecord (not_le.mp hneg)] at h
  cases h

theorem HitTest_Plane_of_parallel (plane : Plane K) (ray : Ray K) (hitRecord : HitRecord K)
    (ignoreHitRecord : Bool) (h : Vector3.Dot ray.direction plane.normal = 0) :
    HitTest_Plane plane ray hitRecord ignoreHitRecord = (false, hitRecord) := by
  simp only [HitTest_Plane]
  rw [if_pos h]

theorem HitTest_Plane_hit_not_parallel (plane : Plane K) (ray : Ray K) (hitRecord : HitRecord K)
    (ignoreHitRecord : Bool) (h : (HitTest_Plane plane ray hitRecord ignoreHitRecord).1 = true) :
    Vector3.Dot ray.direction plane.normal ≠ 0 := by
  intro hpar
  rw [HitTest_Plane_of_parallel plane ray hitRecord ignoreHitRecord hpar] at h
  cases h

theorem floatMin_finite (a b : K) :
    FloatValue.min (FloatValue.finite a) (FloatValue.finite b) = FloatValue.finite (min a b) := by
  simp only [FloatValue.min, FloatValue.lt, decide_eq_true_eq]
  by_cases h : b < a
  · rw [if_pos h, min_eq_right (le_of_lt h)]
  · rw [if_neg h, min_eq_left (not_lt.mp h)]

theorem floatMax_finite (a b : K) :
    FloatValue.max (FloatValue.finite a) (FloatValue.finite b) = FloatValue.finite (max a b) := by
  simp only [FloatValue.max, FloatValue.lt, decide_eq_true_eq]
  by_cases h : a < b
  · rw [if_pos h, max_eq_right (le_of_lt h)]
  · rw [if_neg h, max_eq_left (not_lt.mp h)]

theorem divFinite_of_ne (negativeZero : Bool) (a b : K) (hb : b ≠ 0) :
    FloatValue.divFinite negativeZero a b = FloatValue.finite (a / b) := by
  simp only [FloatValue.divFinite]
  rw [if_pos hb]

theorem SlabTest_TriangleMesh_signed_eq_exact (negativeZeroX negativeZeroY negativeZeroZ : Bool)
    (mesh : TriangleMesh K) (ray : Ray K) (hx : ray.direction.x ≠ 0)
    (hy : ray.direction.y ≠ 0) (hz : ray.direction.z ≠ 0) :
    SlabTest_TriangleMesh.signed negativeZeroX negativeZeroY negativeZeroZ mesh ray =
      SlabTest_TriangleMesh.exact mesh ray := by
  simp only [SlabTest_TriangleMesh.signed, SlabTest_TriangleMesh.exact,
    divFinite_of_ne _ _ _ hx, divFinite_of_ne _ _ _ hy,
    divFinite_of_ne _ _ _ hz, floatMin_finite, floatMax_finite,
    FloatValue.gt, FloatValue.lt, FloatValue.ge]
  simp only [Bool.decide_and, gt_iff_lt, ge_iff_le]

theorem SlabTest_TriangleMesh_eq_exact (mesh : TriangleMesh K) (ray : Ray K)
    (hx : ray.direction.x ≠ 0) (hy : ray.direction.y ≠ 0) (hz : ray.direction.z ≠ 0) :
    SlabTest_TriangleMesh mesh ray = SlabTest_TriangleMesh.exact mesh ray :=
  SlabTest_TriangleMesh_signed_eq_exact false false false mesh ray hx hy hz

/-! ## Sphere -/

theorem onSphere_iff_quadratic (sphere : Sphere K) (ray : Ray K) (t : K)
    (hd : ray.direction.SqrMagnitude = 1) :
    OnSphere sphere ray t ↔
      (t - Vector3.Dot (sphere.origin.sub ray.origin) ray.direction) ^ 2 =
        sphereDiscriminant sphere ray := by
  unfold OnSphere sphereDiscriminant
  simp only [Vector3.SqrMagnitude, Vector3.add, Vector3.sub, Vector3.scale, Vector3.Dot,
    Square] at hd ⊢
  constructor
  · intro h
    linear_combination h - t ^ 2 * hd
  · intro h
    linear_combination h + t ^ 2 * hd

theorem onSphere_iff_root (nm : Numerics K) (sphere : Sphere K) (ray : Ray K) (t : K)
    (hd : ray.direction.SqrMagnitude = 1)
    (hsq : nm.sqrt (sphereDiscriminant sphere ray) * nm.sqrt (sphereDiscriminant sphere ray) =
      sphereDiscriminant sphere ray) :
    OnSphere sphere ray t ↔
      t = Vector3.Dot (sphere.origin.sub ray.origin) ray.direction -
          nm.sqrt (sphereDiscriminant sphere ray) ∨
      t = Vector3.Dot (sphere.origin.sub ray.origin) ray.direction +
          nm.sqrt (sphereDiscriminant sphere ray) := by
  rw [onSphere_iff_quadratic sphere ray t hd]
  constructor
  · intro h
    have hprod : (t - (Vector3.Dot (sphere.origin.sub ray.origin) ray.direction -
          nm.sqrt (sphereDiscriminant sphere ray))) *
        (t - (Vector3.Dot (sphere.origin.sub ray.origin) ray.direction +
          nm.sqrt (sphereDiscriminant sphere ray))) = 0 := by
      linear_combination h - hsq
    rcases mul_eq_zero.mp hprod with h0 | h1
    · left; linarith
    · right; linarith
  · rintro (h | h)
    · rw [h]; linear_combination hsq
    · rw [h]; linear_combination hsq

theorem HitTest_Sphere_commit_closest (nm : Numerics K) (sphere : Sphere K) (ray : Ray K)
    (hitRecord : HitRecord K) (t : K) :
    HitTest_Sphere.commit nm sphere ray hitRecord false t =
      if ray.min < t ∧ t < ray.max ∧ t < hitRecord.t then
        (true, { t := t, didHit := true, materialIndex := sphere.materialIndex,
                 origin := ray.origin.add (ray.direction.scale t),
                 normal := ((ray.origin.add (ray.direction.scale t)).sub
                   sphere.origin).Normalized nm })
      else (false, hitRecord) := by
  simp [HitTest_Sphere.commit]

theorem isNearestRoot_iff (nm : Numerics K) (sphere : Sphere K) (ray : Ray K) (t : K)
    (hd : ray.direction.SqrMagnitude = 1)
    (hs0 : 0 ≤ nm.sqrt (sphereDiscriminant sphere ray))
    (hsq : nm.sqrt (sphereDiscriminant sphere ray) * nm.sqrt (sphereDiscriminant sphere ray) =
      sphereDiscriminant sphere ray) :
    IsNearestRoot sphere ray t ↔
      ((ray.min < Vector3.Dot (sphere.origin.sub ray.origin) ray.direction -
            nm.sqrt (sphereDiscriminant sphere ray) ∧
          Vector3.Dot (sphere.origin.sub ray.origin) ray.direction -
            nm.sqrt (sphereDiscriminant sphere ray) < ray.max) ∧
        t = Vector3.Dot (sphere.origin.sub ray.origin) ray.direction -
            nm.sqrt (sphereDiscriminant sphere ray)) ∨
      (¬ (ray.min < Vector3.Dot (sphere.origin.sub ray.origin) ray.direction -
            nm.sqrt (sphereDiscriminant sphere ray) ∧
          Vector3.Dot (sphere.origin.sub ray.origin) ray.direction -
            nm.sqrt (sphereDiscriminant sphere ray) < ray.max) ∧
        (ray.min < Vector3.Dot (sphere.origin.sub ray.origin) ray.direction +
            nm.sqrt (sphereDiscriminant sphere ray) ∧
          Vector3.Dot (sphere.origin.sub ray.origin) ray.direction +
            nm.sqrt (sphereDiscriminant sphere ray) < ray.max) ∧
        t = Vector3.Dot (sphere.origin.sub ray.origin) ray.direction +
            nm.sqrt (sphereDiscriminant sphere ray)) := by
  have key := fun u => onSphere_iff_root nm sphere ray u hd hsq
  generalize Vector3.Dot (sphere.origin.sub ray.origin) ray.direction = tA at key ⊢
  generalize nm.sqrt (sphereDiscriminant sphere ray) = s at key hs0 ⊢
  unfold IsNearestRoot
  constructor
  · rintro ⟨hmin, hmax, hon, hleast⟩
    rcases (key t).mp hon with h | h
    · left
      exact ⟨⟨h ▸ hmin, h ▸ hmax⟩, h⟩
    · by_cases h0 : ray.min < tA - s ∧ tA - s < ray.max
      · left
        have := hleast (tA - s) h0.1 h0.2 ((key _).mpr (Or.inl rfl))
        exact ⟨h0, by linarith⟩
      · right
        exact ⟨h0, ⟨h ▸ hmin, h ▸ hmax⟩, h⟩
  · rintro (⟨⟨hmin, hmax⟩, h⟩ | ⟨h0, ⟨hmin, hmax⟩, h⟩)
    · subst h
      refine ⟨hmin, hmax, (key _).mpr (Or.inl rfl), ?_⟩
      intro u _ _ hu
      rcases (key u).mp hu with h | h <;> linarith
    · subst h
      refine ⟨hmin, hmax, (key _).mpr (Or.inr rfl), ?_⟩
      intro u hu1 hu2 hu
      rcases (key u).mp hu with h | h
      · exact absurd ⟨h ▸ hu1, h ▸ hu2⟩ h0
      · linarith

/-- C1: for a sphere with radius `> 0`, a ray with unit direction whose line
meets the sphere (non-negative discriminant, on which the square root is exact)
and any record, the closest-hit `HitTest_Sphere` returns true exactly when a
least root `t` strictly between `ray.min` and `ray.max` exists and is smaller
than `hitRecord.t`; in that case the record becomes `t`, `didHit = true`, the
sphere's material, the point `ray.origin + t * direction` and the normalised
vector from the centre to that point. -/
theorem HitTest_Sphere_nearest_root (nm : Numerics K) (sphere : Sphere K) (ray : Ray K)
    (hitRecord : HitRecord K)
    (hr : 0 < sphere.radius)
    (hd : ray.direction.SqrMagnitude = 1)
    (hdisc : 0 ≤ sphereDiscriminant sphere ray)
    (hs0 : 0 ≤ nm.sqrt (sphereDiscriminant sphere ray))
    (hsq : nm.sqrt (sphereDiscriminant sphere ray) * nm.sqrt (sphereDiscriminant sphere ray) =
      sphereDiscriminant sphere ray) :
    ((HitTest_Sphere nm sphere ray hitRecord false).1 = true ↔
        ∃ t, IsNearestRoot sphere ray t ∧ t < hitRecord.t) ∧
    (∀ t, IsNearestRoot sphere ray t → t < hitRecord.t →
        HitTest_Sphere nm sphere ray hitRecord false =
          (true, { t := t, didHit := true, materialIndex := sphere.materialIndex,
                   origin := ray.origin.add (ray.direction.scale t),
                   normal := ((ray.origin.add (ray.direction.scale t)).sub
                     sphere.origin).Normalized nm })) := by
  have _ := hr
  have _ := hdisc
  have near := fun t => isNearestRoot_iff nm sphere ray t hd hs0 hsq
  have hcode : HitTest_Sphere nm sphere ray hitRecord false =
      if Vector3.Dot (sphere.origin.sub ray.origin) ray.direction -
            nm.sqrt (sphereDiscriminant sphere ray) > ray.min ∧
          Vector3.Dot (sphere.origin.sub ray.origin) ray.direction -
            nm.sqrt (sphereDiscriminant sphere ray) < ray.max then
        HitTest_Sphere.commit nm sphere ray hitRecord false
          (Vector3.Dot (sphere.origin.sub ray.origin) ray.direction -
            nm.sqrt (sphereDiscriminant sphere ray))
      else if Vector3.Dot (sphere.origin.sub ray.origin) ray.direction +
            nm.sqrt (sphereDiscriminant sphere ray) < ray.min ∨
          Vector3.Dot (sphere.origin.sub ray.origin) ray.direction -
            nm.sqrt (sphereDiscriminant sphere ray) > ray.max then (false, hitRecord)
      else HitTest_Sphere.commit nm sphere ray hitRecord false
          (Vector3.Dot (sphere.origin.sub ray.origin) ray.direction +
            nm.sqrt (sphereDiscriminant sphere ray)) :=
    HitTest_Sphere_of_nonneg nm sphere ray hitRecord false hdisc
  rw [hcode]
  simp only [HitTest_Sphere_commit_closest]
  generalize Vector3.Dot (sphere.origin.sub ray.origin) ray.direction = tA at near ⊢
  generalize nm.sqrt (sphereDiscriminant sphere ray) = s at near hs0 ⊢
  by_cases h0 : ray.min < tA - s ∧ tA - s < ray.max
  · have h0' : tA - s > ray.min ∧ tA - s < ray.max := h0
    rw [if_pos h0']
    constructor
    · constructor
      · intro h
        by_cases hc : ray.min < tA - s ∧ tA - s < ray.max ∧ tA - s < hitRecord.t
        · exact ⟨tA - s, (near _).mpr (Or.inl ⟨h0, rfl⟩), hc.2.2⟩
        · rw [if_neg hc] at h
          exact absurd h (by simp)
      · rintro ⟨t, ht, hlt⟩
        rcases (near t).mp ht with ⟨_, rfl⟩ | ⟨hn, _⟩
        · rw [if_pos ⟨h0.1, h0.2, hlt⟩]
        · exact absurd h0 hn
    · intro t ht hlt
      rcases (near t).mp ht with ⟨_, rfl⟩ | ⟨hn, _⟩
      · rw [if_pos ⟨h0.1, h0.2, hlt⟩]
      · exact absurd h0 hn
  · have h0' : ¬ (tA - s > ray.min ∧ tA - s < ray.max) := h0
    rw [if_neg h0']
    by_cases h1 : tA + s < ray.min ∨ tA - s > ray.max
    · rw [if_pos h1]
      have hno : ∀ t, ¬ IsNearestRoot sphere ray t := by
        intro t ht
        rcases (near t).mp ht with ⟨hin, _⟩ | ⟨_, ⟨hmin, hmax⟩, _⟩
        · exact h0 hin
        · rcases h1 with h1 | h1 <;> linarith
      constructor
      · constructor
        · intro h
          exact absurd h (by simp)
        · rintro ⟨t, ht, _⟩
          exact absurd ht (hno t)
      · intro t ht _
        exact absurd ht (hno t)
    · rw [if_neg h1]
      constructor
      · constructor
        · intro h
          by_cases hc : ray.min < tA + s ∧ tA + s < ray.max ∧ tA + s < hitRecord.t
          · exact ⟨tA + s, (near _).mpr (Or.inr ⟨h0, ⟨hc.1, hc.2.1⟩, rfl⟩), hc.2.2⟩
          · rw [if_neg hc] at h
            exact absurd h (by simp)
        · rintro ⟨t, ht, hlt⟩
          rcases (near t).mp ht with ⟨hin, _⟩ | ⟨_, ⟨hmin, hmax⟩, rfl⟩
          · exact absurd hin h0
          · rw [if_pos ⟨hmin, hmax, hlt⟩]
      · intro t ht hlt
        rcases (near t).mp ht with ⟨hin, _⟩ | ⟨_, ⟨hmin, hmax⟩, rfl⟩
        · exact absurd hin h0
        · rw [if_pos ⟨hmin, hmax, hlt⟩]

/-- C1, concrete scenario: the unit sphere at the origin, the ray from
`(0,0,-5)` with direction `(0,0,1)` and a fresh record give a hit at `t = 4`
with normal `(0,0,-1)`, and `4` is the least root in range. -/
theorem HitTest_Sphere_nearest_root_witness :
    HitTest_Sphere ratNumerics scenarioSphere scenarioSphereRay (HitRecord.fresh ratNumerics) false
      = (true, { t := 4, didHit := true, materialIndex := 1, origin := ⟨0, 0, -1⟩,
                 normal := ⟨0, 0, -1⟩ }) ∧
    IsNearestRoot scenarioSphere scenarioSphereRay 4 := by
  have hspec := HitTest_Sphere_nearest_root ratNumerics scenarioSphere scenarioSphereRay
    (HitRecord.fresh ratNumerics) (by decide!) (by decide!) (by decide!) (by decide!) (by decide!)
  have hrun : HitTest_Sphere ratNumerics scenarioSphere scenarioSphereRay
      (HitRecord.fresh ratNumerics) false
      = (true, { t := 4, didHit := true, materialIndex := 1, origin := ⟨0, 0, -1⟩,
                 normal := ⟨0, 0, -1⟩ }) := by decide!
  refine ⟨hrun, ?_⟩
  obtain ⟨t, hnear, hlt⟩ := hspec.1.mp (by rw [hrun])
  have heq := hspec.2 t hnear hlt
  rw [hrun] at heq
  have ht : (4 : ℚ) = t := congrArg (fun r => r.2.t) heq
  rw [ht]
  exact hnear

/-! ## Plane -/

/-- C2: for a plane and a ray with `Dot(direction, normal) ≠ 0`, with
`tStar = Dot(plane.origin - ray.origin, normal) / Dot(direction, normal)`, the
closest-hit `HitTest_Plane` returns true exactly when
`ray.min < tStar < ray.max` and `tStar < hitRecord.t`; on true the record is
`tStar`, `didHit = true`, the plane's material, the point
`ray.origin + tStar * direction` and the plane normal; that point lies on the
plane. -/
theorem HitTest_Plane_solves_linear_equation (plane : Plane K) (ray : Ray K)
    (hitRecord : HitRecord K) (tStar : K)
    (hden : Vector3.Dot ray.direction plane.normal ≠ 0)
    (htStar : tStar = Vector3.Dot (plane.origin.sub ray.origin) plane.normal /
      Vector3.Dot ray.direction plane.normal) :
    ((HitTest_Plane plane ray hitRecord false).1 = true ↔
        ray.min < tStar ∧ tStar < ray.max ∧ tStar < hitRecord.t) ∧
    ((HitTest_Plane plane ray hitRecord false).1 = true →
        (HitTest_Plane plane ray hitRecord false).2 =
          { t := tStar, didHit := true, materialIndex := plane.materialIndex,
            origin := ray.origin.add (ray.direction.scale tStar), normal := plane.normal }) ∧
    Vector3.Dot ((ray.origin.add (ray.direction.scale tStar)).sub plane.origin) plane.normal
      = 0 := by
  have hcode : HitTest_Plane plane ray hitRecord false =
      if ray.min < tStar ∧ tStar < ray.max ∧ tStar < hitRecord.t then
        (true, { t := tStar, didHit := true, materialIndex := plane.materialIndex,
                 origin := ray.origin.add (ray.direction.scale tStar), normal := plane.normal })
      else (false, hitRecord) := by
    subst htStar
    simp [HitTest_Plane, hden]
  refine ⟨?_, ?_, ?_⟩
  · rw [hcode]
    by_cases hc : ray.min < tStar ∧ tStar < ray.max ∧ tStar < hitRecord.t
    · simp [hc]
    · simp [hc]
  · rw [hcode]
    by_cases hc : ray.min < tStar ∧ tStar < ray.max ∧ tStar < hitRecord.t
    · simp [hc]
    · simp [hc]
  · have hmul : tStar * Vector3.Dot ray.direction plane.normal =
        Vector3.Dot (plane.origin.sub ray.origin) plane.normal := by
      rw [htStar]
      exact div_mul_cancel₀ _ hden
    simp only [Vector3.Dot, Vector3.add, Vector3.sub, Vector3.scale] at hmul ⊢
    linear_combination hmul

/-- C2, concrete scenario: the plane `y = 0` with normal `(0,1,0)`, the ray from
`(0,5,0)` with direction `(0,-1,0)` and a fresh record give a hit at `t = 5`
with normal `(0,1,0)`. -/
theorem HitTest_Plane_solves_linear_equation_witness :
    HitTest_Plane scenarioPlane scenarioPlaneRay (HitRecord.fresh ratNumerics) false =
      (true, { t := 5, didHit := true, materialIndex := 1, origin := ⟨0, 0, 0⟩,
               normal := ⟨0, 1, 0⟩ }) ∧
    Vector3.Dot (((scenarioPlaneRay.origin.add (scenarioPlaneRay.direction.scale 5)).sub
      scenarioPlane.origin)) scenarioPlane.normal = 0 := by
  have hspec := HitTest_Plane_solves_linear_equation scenarioPlane scenarioPlaneRay
    (HitRecord.fresh ratNumerics) 5 (by decide!) (by decide!)
  have hhit : (HitTest_Plane scenarioPlane scenarioPlaneRay (HitRecord.fresh ratNumerics)
      false).1 = true := hspec.1.mpr (by decide!)
  refine ⟨Prod.ext hhit ?_, hspec.2.2⟩
  rw [hspec.2.1 hhit]
  decide!

/-! ## Triangle -/

/-- C3, as the specification states it, fails: with `BackFaceCulling` the ray
from `(0,0.3,-5)` with direction `(0,0,1)` does not hit the triangle
`(-1,0,0), (1,0,0), (0,1,0)` with normal `(0,0,1)`, and the ray from
`(0,0.3,5)` with direction `(0,0,-1)` does. -/
theorem HitTest_Triangle_stated_culling_fails :
    ¬ ((HitTest_Triangle ratNumerics (scenarioTriangle TriangleCullMode.BackFaceCulling)
          scenarioRayFromNegZ (HitRecord.fresh ratNumerics) false).1 = true ∧
       (HitTest_Triangle ratNumerics (scenarioTriangle TriangleCullMode.BackFaceCulling)
          scenarioRayFromPosZ (HitRecord.fresh ratNumerics) false).1 = false ∧
       (HitTest_Triangle ratNumerics (scenarioTriangle TriangleCullMode.NoCulling)
          scenarioRayFromPosZ (HitRecord.fresh ratNumerics) false).1 = true) := by
  decide!

/-- C3 (amended): for the triangle `(-1,0,0), (1,0,0), (0,1,0)` with normal
`(0,0,1)` and a fresh record, with `BackFaceCulling` the ray from `(0,0.3,-5)`
with direction `(0,0,1)` misses and the ray from `(0,0.3,5)` with direction
`(0,0,-1)` hits (at `t = 5`, normal `(0,0,1)`); with `NoCulling` the ray from
`(0,0.3,5)` with direction `(0,0,-1)` hits. -/
theorem HitTest_Triangle_culling_scenario :
    HitTest_Triangle ratNumerics (scenarioTriangle TriangleCullMode.BackFaceCulling)
        scenarioRayFromNegZ (HitRecord.fresh ratNumerics) false
      = (false, HitRecord.fresh ratNumerics) ∧
    HitTest_Triangle ratNumerics (scenarioTriangle TriangleCullMode.BackFaceCulling)
        scenarioRayFromPosZ (HitRecord.fresh ratNumerics) false
      = (true, { t := 5, didHit := true, materialIndex := 2, origin := ⟨0, 3 / 10, 0⟩,
                 normal := ⟨0, 0, 1⟩ }) ∧
    (HitTest_Triangle ratNumerics (scenarioTriangle TriangleCullMode.NoCulling)
        scenarioRayFromPosZ (HitRecord.fresh ratNumerics) false).1 = true := by
  decide!

/-- C4: the existence query on a triangle with `BackFaceCulling` returns the
boolean of the closest-hit query on the same triangle with `FrontFaceCulling`
against a fresh record, and conversely; with `NoCulling` the existence query
and the closest-hit query against a fresh record return the same boolean. -/
theorem HitTest_Triangle_cull_mode_inversion (nm : Numerics K) (triangle : Triangle K)
    (ray : Ray K) :
    HitTest_Triangle.existence nm
        { triangle with cullMode := TriangleCullMode.BackFaceCulling } ray =
      (HitTest_Triangle nm { triangle with cullMode := TriangleCullMode.FrontFaceCulling } ray
        (HitRecord.fresh nm) false).1 ∧
    HitTest_Triangle.existence nm
        { triangle with cullMode := TriangleCullMode.FrontFaceCulling } ray =
      (HitTest_Triangle nm { triangle with cullMode := TriangleCullMode.BackFaceCulling } ray
        (HitRecord.fresh nm) false).1 ∧
    HitTest_Triangle.existence nm
        { triangle with cullMode := TriangleCullMode.NoCulling } ray =
      (HitTest_Triangle nm { triangle with cullMode := TriangleCullMode.NoCulling } ray
        (HitRecord.fresh nm) false).1 := by
  refine ⟨?_, ?_, ?_⟩ <;>
    simp [HitTest_Triangle.existence, HitTest_Triangle, HitTest_Triangle.effectiveCullMode,
      Triangle.supportingPlane]

/-! ## Existence queries and misses -/

theorem HitTest_Sphere_ignore_snd (nm : Numerics K) (sphere : Sphere K) (ray : Ray K)
    (hitRecord : HitRecord K) :
    (HitTest_Sphere nm sphere ray hitRecord true).2 = hitRecord := by
  simp only [HitTest_Sphere, HitTest_Sphere.commit]
  split_ifs <;> simp_all

theorem HitTest_Plane_ignore_snd (plane : Plane K) (ray : Ray K) (hitRecord : HitRecord K) :
    (HitTest_Plane plane ray hitRecord true).2 = hitRecord := by
  simp only [HitTest_Plane]
  split_ifs <;> simp_all

theorem HitTest_TriangleMesh_of_scan (nm : Numerics K) (mesh : TriangleMesh K) (ray : Ray K)
    (hitRecord : HitRecord K) (ignoreHitRecord : Bool) (temp : HitRecord K)
    (hscan : HitTest_TriangleMesh.scan nm mesh ray ignoreHitRecord
      (List.range mesh.transformedNormals.length) (HitRecord.fresh nm) = some temp) :
    HitTest_TriangleMesh nm mesh ray hitRecord ignoreHitRecord =
      some (if SlabTest_TriangleMesh mesh ray = true ∧ temp.didHit = true ∧ temp.t < hitRecord.t
        then (true, if ignoreHitRecord then hitRecord
          else { temp with materialIndex := mesh.materialIndex })
        else (false, hitRecord)) := by
  unfold HitTest_TriangleMesh
  rw [hscan]
  by_cases hslab : SlabTest_TriangleMesh mesh ray = true
  · by_cases hc : temp.didHit = true ∧ temp.t < hitRecord.t
    · cases ignoreHitRecord <;> simp [hslab, hc]
    · have hc' : ¬ (SlabTest_TriangleMesh mesh ray = true ∧ temp.didHit = true ∧
          temp.t < hitRecord.t) := fun h => hc h.2
      rw [if_neg hc']
      simp [hslab, hc]
  · simp [hslab]

theorem HitTest_TriangleMesh_cases (nm : Numerics K) (mesh : TriangleMesh K) (ray : Ray K)
    (hitRecord : HitRecord K) (ignoreHitRecord : Bool) (result : Bool × HitRecord K)
    (h : HitTest_TriangleMesh nm mesh ray hitRecord ignoreHitRecord = some result) :
    result = (false, hitRecord) ∨
    ∃ temp, HitTest_TriangleMesh.scan nm mesh ray ignoreHitRecord
        (List.range mesh.transformedNormals.length) (HitRecord.fresh nm) = some temp ∧
      SlabTest_TriangleMesh mesh ray = true ∧ temp.didHit = true ∧ temp.t < hitRecord.t ∧
      result = (true, if ignoreHitRecord then hitRecord
          else { temp with materialIndex := mesh.materialIndex }) := by
  cases hscan : HitTest_TriangleMesh.scan nm mesh ray ignoreHitRecord
      (List.range mesh.transformedNormals.length) (HitRecord.fresh nm) with
  | none =>
    left
    unfold HitTest_TriangleMesh at h
    rw [hscan] at h
    by_cases hslab : SlabTest_TriangleMesh mesh ray = true
    · simp [hslab] at h
    · simp only [hslab, Bool.not_false, if_true] at h
      exact (Option.some.inj h).symm
  | some temp =>
    rw [HitTest_TriangleMesh_of_scan nm mesh ray hitRecord ignoreHitRecord temp hscan] at h
    have h' := (Option.some.inj h).symm
    by_cases hc : SlabTest_TriangleMesh mesh ray = true ∧ temp.didHit = true ∧
        temp.t < hitRecord.t
    · right
      rw [if_pos hc] at h'
      exact ⟨temp, rfl, hc.1, hc.2.1, hc.2.2, h'⟩
    · left
      rw [if_neg hc] at h'
      exact h'

theorem HitTest_TriangleMesh_ignore_snd (nm : Numerics K) (mesh : TriangleMesh K) (ray : Ray K)
    (hitRecord : HitRecord K) (result : Bool × HitRecord K)
    (h : HitTest_TriangleMesh nm mesh ray hitRecord true = some result) :
    result.2 = hitRecord := by
  rcases HitTest_TriangleMesh_cases nm mesh ray hitRecord true result h with
    rfl | ⟨temp, _, _, _, _, rfl⟩
  · rfl
  · rfl

theorem HitTest_Sphere_miss_snd (nm : Numerics K) (sphere : Sphere K) (ray : Ray K)
    (hitRecord : HitRecord K) (ignoreHitRecord : Bool)
    (h : (HitTest_Sphere nm sphere ray hitRecord ignoreHitRecord).1 = false) :
    (HitTest_Sphere nm sphere ray hitRecord ignoreHitRecord).2 = hitRecord := by
  revert h
  simp only [HitTest_Sphere, HitTest_Sphere.commit]
  split_ifs <;> simp

theorem HitTest_Plane_miss_snd (plane : Plane K) (ray : Ray K) (hitRecord : HitRecord K)
    (ignoreHitRecord : Bool) (h : (HitTest_Plane plane ray hitRecord ignoreHitRecord).1 = false) :
    (HitTest_Plane plane ray hitRecord ignoreHitRecord).2 = hitRecord := by
  revert h
  simp only [HitTest_Plane]
  split_ifs <;> simp

theorem HitTest_Triangle_miss_snd (nm : Numerics K) (triangle : Triangle K) (ray : Ray K)
    (hitRecord : HitRecord K) (ignoreHitRecord : Bool)
    (h : (HitTest_Triangle nm triangle ray hitRecord ignoreHitRecord).1 = false) :
    (HitTest_Triangle nm triangle ray hitRecord ignoreHitRecord).2 = hitRecord := by
  revert h
  simp only [HitTest_Triangle]
  split_ifs <;> simp

theorem HitTest_TriangleMesh_miss_snd (nm : Numerics K) (mesh : TriangleMesh K) (ray : Ray K)
    (hitRecord : HitRecord K) (ignoreHitRecord : Bool) (result : Bool × HitRecord K)
    (h : HitTest_TriangleMesh nm mesh ray hitRecord ignoreHitRecord = some result)
    (hmiss : result.1 = false) : result.2 = hitRecord := by
  rcases HitTest_TriangleMesh_cases nm mesh ray hitRecord ignoreHitRecord result h with
    rfl | ⟨temp, _, _, _, _, rfl⟩
  · rfl
  · simp at hmiss

theorem scan_isSome (nm : Numerics K) (mesh : TriangleMesh K) (ray : Ray K)
    (ignoreHitRecord : Bool) (hvalid : mesh.Valid) (l : List Nat)
    (hl : ∀ i ∈ l, i < mesh.transformedNormals.length) (temp : HitRecord K) :
    ∃ result, HitTest_TriangleMesh.scan nm mesh ray ignoreHitRecord l temp = some result := by
  induction l generalizing temp with
  | nil => exact ⟨temp, rfl⟩
  | cons i rest ih =>
    have hi := hvalid i (hl i (List.mem_cons_self _ _))
    obtain ⟨triangle, htri⟩ := Option.isSome_iff_exists.mp hi
    simp only [HitTest_TriangleMesh.scan, htri]
    exact ih (fun j hj => hl j (List.mem_cons_of_mem _ hj)) _

theorem HitTest_TriangleMesh_isSome (nm : Numerics K) (mesh : TriangleMesh K) (ray : Ray K)
    (hitRecord : HitRecord K) (ignoreHitRecord : Bool) (hvalid : mesh.Valid) :
    ∃ result, HitTest_TriangleMesh nm mesh ray hitRecord ignoreHitRecord = some result := by
  obtain ⟨temp, htemp⟩ := scan_isSome nm mesh ray ignoreHitRecord hvalid
    (List.range mesh.transformedNormals.length) (fun i hi => List.mem_range.mp hi)
    (HitRecord.fresh nm)
  exact ⟨_, HitTest_TriangleMesh_of_scan nm mesh ray hitRecord ignoreHitRecord temp htemp⟩

/-- C5, evaluated at the failing input: called with `ignoreHitRecord = true` on
the scenario triangle (`NoCulling`), the ray from `(0,0.3,5)` with direction
`(0,0,-1)` and a fresh record, `HitTest_Triangle` returns true and overwrites
the caller's record (`t = 5`, `didHit = true`). -/
theorem HitTest_Triangle_ignore_overwrites_record :
    HitTest_Triangle ratNumerics (scenarioTriangle TriangleCullMode.NoCulling)
        scenarioRayFromPosZ (HitRecord.fresh ratNumerics) true
      = (true, { t := 5, didHit := true, materialIndex := 2, origin := ⟨0, 3 / 10, 0⟩,
                 normal := ⟨0, 0, 1⟩ }) ∧
    (HitTest_Triangle ratNumerics (scenarioTriangle TriangleCullMode.NoCulling)
        scenarioRayFromPosZ (HitRecord.fresh ratNumerics) true).2 ≠ HitRecord.fresh ratNumerics := by
  decide!

/-- C6: when the closest-hit form of `HitTest_Sphere`, `HitTest_Plane`,
`HitTest_Triangle` or `HitTest_TriangleMesh` returns false, the caller's record
is unchanged; the mesh test of a mesh whose element accesses are in bounds
does return. -/
theorem closest_hit_miss_leaves_record (nm : Numerics K) (ray : Ray K) (hitRecord : HitRecord K) :
    (∀ sphere : Sphere K, (HitTest_Sphere nm sphere ray hitRecord false).1 = false →
      (HitTest_Sphere nm sphere ray hitRecord false).2 = hitRecord) ∧
    (∀ plane : Plane K, (HitTest_Plane plane ray hitRecord false).1 = false →
      (HitTest_Plane plane ray hitRecord false).2 = hitRecord) ∧
    (∀ triangle : Triangle K, (HitTest_Triangle nm triangle ray hitRecord false).1 = false →
      (HitTest_Triangle nm triangle ray hitRecord false).2 = hitRecord) ∧
    (∀ mesh : TriangleMesh K, mesh.Valid →
      ∃ result, HitTest_TriangleMesh nm mesh ray hitRecord false = some result ∧
        (result.1 = false → result.2 = hitRecord)) := by
  refine ⟨fun sphere h => HitTest_Sphere_miss_snd nm sphere ray hitRecord false h,
    fun plane h => HitTest_Plane_miss_snd plane ray hitRecord false h,
    fun triangle h => HitTest_Triangle_miss_snd nm triangle ray hitRecord false h, ?_⟩
  intro mesh hvalid
  obtain ⟨result, hresult⟩ := HitTest_TriangleMesh_isSome nm mesh ray hitRecord false hvalid
  exact ⟨result, hresult, HitTest_TriangleMesh_miss_snd nm mesh ray hitRecord false result hresult⟩

/-- C6, concrete instance: the back-face-culled scenario triangle is missed by
the ray from `(0,0.3,-5)` and the fresh record stays as it was. -/
theorem closest_hit_miss_leaves_record_witness :
    (HitTest_Triangle ratNumerics (scenarioTriangle TriangleCullMode.BackFaceCulling)
      scenarioRayFromNegZ (HitRecord.fresh ratNumerics) false).1 = false ∧
    (HitTest_Triangle ratNumerics (scenarioTriangle TriangleCullMode.BackFaceCulling)
      scenarioRayFromNegZ (HitRecord.fresh ratNumerics) false).2 = HitRecord.fresh ratNumerics :=
  ⟨by decide!, (closest_hit_miss_leaves_record ratNumerics scenarioRayFromNegZ
    (HitRecord.fresh ratNumerics)).2.2.1 (scenarioTriangle TriangleCullMode.BackFaceCulling)
    (by decide!)⟩

/-! ## Candidates: every closest-hit test is a closer-wins update -/

theorem closerWins_false (candidate : Bool × HitRecord K) (hitRecord : HitRecord K)
    (h : candidate.1 = false) : closerWins candidate hitRecord = (false, hitRecord) := by
  simp [closerWins, h]

theorem HitTest_Sphere_eq_closerWins (nm : Numerics K) (sphere : Sphere K) (ray : Ray K)
    (hitRecord : HitRecord K) :
    HitTest_Sphere nm sphere ray hitRecord false =
      closerWins (sphereCandidate nm ray sphere) hitRecord := by
  simp only [sphereCandidate, HitTest_Sphere, HitTest_Sphere_commit_closest, closerWins,
    probeRecord]
  split_ifs <;> simp_all

theorem sphereCandidate_isHitOf (nm : Numerics K) (sphere : Sphere K) (ray : Ray K)
    (h : (sphereCandidate nm ray sphere).1 = true) :
    (sphereCandidate nm ray sphere).2.IsHitOf ray := by
  revert h
  simp only [sphereCandidate, HitTest_Sphere, HitTest_Sphere_commit_closest, probeRecord,
    HitRecord.IsHitOf]
  split_ifs <;> simp_all

theorem HitTest_Plane_eq_closerWins (nm : Numerics K) (plane : Plane K) (ray : Ray K)
    (hitRecord : HitRecord K) :
    HitTest_Plane plane ray hitRecord false =
      closerWins (planeCandidate nm ray plane) hitRecord := by
  simp only [planeCandidate, HitTest_Plane, closerWins, probeRecord]
  split_ifs <;> simp_all

theorem HitTest_Plane_isHitOf (plane : Plane K) (ray : Ray K) (hitRecord : HitRecord K)
    (h : (HitTest_Plane plane ray hitRecord false).1 = true) :
    (HitTest_Plane plane ray hitRecord false).2.IsHitOf ray := by
  revert h
  simp only [HitTest_Plane, HitRecord.IsHitOf]
  split_ifs <;> simp_all

theorem planeCandidate_isHitOf (nm : Numerics K) (plane : Plane K) (ray : Ray K)
    (h : (planeCandidate nm ray plane).1 = true) :
    (planeCandidate nm ray plane).2.IsHitOf ray :=
  HitTest_Plane_isHitOf plane ray (probeRecord nm ray) h

theorem HitTest_Triangle_hit (nm : Numerics K) (triangle : Triangle K) (ray : Ray K)
    (hitRecord : HitRecord K) (ignoreHitRecord : Bool)
    (hhit : (HitTest_Triangle nm triangle ray hitRecord ignoreHitRecord).1 = true) :
    (HitTest_Plane triangle.supportingPlane ray (HitRecord.fresh nm) false).1 = true ∧
    (HitTest_Plane triangle.supportingPlane ray (HitRecord.fresh nm) false).2.t
      ≤ hitRecord.t ∧
    ((HitTest_Triangle nm triangle ray hitRecord ignoreHitRecord).2 =
        (HitTest_Plane triangle.supportingPlane ray (HitRecord.fresh nm) false).2 ∨
      (HitTest_Triangle nm triangle ray hitRecord ignoreHitRecord).2 =
        { (HitTest_Plane triangle.supportingPlane ray (HitRecord.fresh nm) false).2 with
          normal := (HitTest_Plane triangle.supportingPlane ray (HitRecord.fresh nm)
              false).2.normal.neg }) := by
  revert hhit
  simp only [HitTest_Triangle]
  generalize HitTest_Plane triangle.supportingPlane ray (HitRecord.fresh nm) false = planeTest
  split_ifs with h1 h2 h3 h4 h5 h6 h7 h8
  · simp
  · simp
  · simp
  · simp
  · simp
  · simp
  · simp
  · intro _
    exact ⟨by simpa using h3, not_lt.mp h4, Or.inr rfl⟩
  · intro _
    exact ⟨by simpa using h3, not_lt.mp h4, Or.inl rfl⟩

theorem HitTest_Triangle_snd (nm : Numerics K) (triangle : Triangle K) (ray : Ray K)
    (hitRecord : HitRecord K) (ignoreHitRecord : Bool) :
    (HitTest_Triangle nm triangle ray hitRecord ignoreHitRecord).2 = hitRecord ∨
    (HitTest_Triangle nm triangle ray hitRecord ignoreHitRecord).2.IsHitOf ray := by
  by_cases hhit : (HitTest_Triangle nm triangle ray hitRecord ignoreHitRecord).1 = true
  · right
    obtain ⟨hplane, _, hrec⟩ := HitTest_Triangle_hit nm triangle ray hitRecord ignoreHitRecord hhit
    have hof := HitTest_Plane_isHitOf _ ray (HitRecord.fresh nm) hplane
    rcases hrec with hrec | hrec
    · rw [hrec]; exact hof
    · rw [hrec]; exact hof
  · left
    exact HitTest_Triangle_miss_snd nm triangle ray hitRecord ignoreHitRecord (by simpa using hhit)

theorem scan_invariant (nm : Numerics K) (mesh : TriangleMesh K) (ray : Ray K)
    (ignoreHitRecord : Bool) (l : List Nat) (temp result : HitRecord K)
    (htemp : temp.didHit = true → temp.IsHitOf ray)
    (hscan : HitTest_TriangleMesh.scan nm mesh ray ignoreHitRecord l temp = some result) :
    result.didHit = true → result.IsHitOf ray := by
  induction l generalizing temp with
  | nil =>
    simp only [HitTest_TriangleMesh.scan] at hscan
    cases hscan
    exact htemp
  | cons i rest ih =>
    cases htri : mesh.triangleAt i with
    | none => simp [HitTest_TriangleMesh.scan, htri] at hscan
    | some triangle =>
      simp only [HitTest_TriangleMesh.scan, htri] at hscan
      refine ih _ ?_ hscan
      rcases HitTest_Triangle_snd nm triangle ray temp ignoreHitRecord with h | h
      · rw [h]; exact htemp
      · exact fun _ => h

theorem HitTest_TriangleMesh_eq_closerWins (nm : Numerics K) (mesh : TriangleMesh K)
    (ray : Ray K) (hitRecord : HitRecord K) (hvalid : mesh.Valid) :
    HitTest_TriangleMesh nm mesh ray hitRecord false =
        some (closerWins (meshCandidate nm ray mesh) hitRecord) ∧
    ((meshCandidate nm ray mesh).1 = true → (meshCandidate nm ray mesh).2.IsHitOf ray) := by
  obtain ⟨temp, htemp⟩ := scan_isSome nm mesh ray false hvalid
    (List.range mesh.transformedNormals.length) (fun i hi => List.mem_range.mp hi)
    (HitRecord.fresh nm)
  have hinv := scan_invariant nm mesh ray false _ _ temp (by simp [HitRecord.fresh]) htemp
  have hcand : meshCandidate nm ray mesh =
      if SlabTest_TriangleMesh mesh ray = true ∧ temp.didHit = true then
        (true, { temp with materialIndex := mesh.materialIndex })
      else (false, probeRecord nm ray) := by
    unfold meshCandidate
    rw [HitTest_TriangleMesh_of_scan nm mesh ray _ false temp htemp]
    by_cases hc : SlabTest_TriangleMesh mesh ray = true ∧ temp.didHit = true
    · have hlt : temp.t < (probeRecord nm ray).t := (hinv hc.2).2.2.1
      rw [if_pos hc, if_pos ⟨hc.1, hc.2, hlt⟩]
      simp
    · have hc' : ¬ (SlabTest_TriangleMesh mesh ray = true ∧ temp.didHit = true ∧
          temp.t < (probeRecord nm ray).t) := fun h => hc ⟨h.1, h.2.1⟩
      rw [if_neg hc, if_neg hc']
      simp
  constructor
  · rw [HitTest_TriangleMesh_of_scan nm mesh ray hitRecord false temp htemp, hcand]
    by_cases hc : SlabTest_TriangleMesh mesh ray = true ∧ temp.didHit = true
    · rw [if_pos hc]
      by_cases hlt : temp.t < hitRecord.t
      · simp [closerWins, hc, hlt]
      · simp [closerWins, hc, hlt]
    · rw [if_neg hc, closerWins_false _ _ rfl]
      have hc' : ¬ (SlabTest_TriangleMesh mesh ray = true ∧ temp.didHit = true ∧
          temp.t < hitRecord.t) := fun h => hc ⟨h.1, h.2.1⟩
      rw [if_neg hc']
  · rw [hcand]
    by_cases hc : SlabTest_TriangleMesh mesh ray = true ∧ temp.didHit = true
    · rw [if_pos hc]
      intro _
      exact hinv hc.2
    · rw [if_neg hc]
      intro h
      exact absurd h (by simp)

/-! ## The closer-wins fold -/

theorem closerWins_fst (candidate : Bool × HitRecord K) (hitRecord : HitRecord K) :
    (closerWins candidate hitRecord).1 = true ↔
      candidate.1 = true ∧ candidate.2.t < hitRecord.t := by
  unfold closerWins
  split_ifs with h
  · simpa using h
  · simpa using h

theorem closerWins_snd (candidate : Bool × HitRecord K) (hitRecord : HitRecord K) :
    (closerWins candidate hitRecord).2 =
      if candidate.1 = true ∧ candidate.2.t < hitRecord.t then candidate.2 else hitRecord := by
  unfold closerWins
  split_ifs <;> rfl

theorem runCandidates_cons (candidate : Bool × HitRecord K)
    (candidates : List (Bool × HitRecord K)) (hitRecord : HitRecord K) :
    runCandidates (candidate :: candidates) hitRecord =
      runCandidates candidates (closerWins candidate hitRecord).2 := rfl

theorem runCandidates_append (as bs : List (Bool × HitRecord K)) (hitRecord : HitRecord K) :
    runCandidates (as ++ bs) hitRecord = runCandidates bs (runCandidates as hitRecord) := by
  simp [runCandidates, List.foldl_append]

theorem runCandidates_t_le (candidates : List (Bool × HitRecord K)) (hitRecord : HitRecord K) :
    (runCandidates candidates hitRecord).t ≤ hitRecord.t := by
  induction candidates generalizing hitRecord with
  | nil => exact le_refl _
  | cons c rest ih =>
    rw [runCandidates_cons]
    refine le_trans (ih _) ?_
    rw [closerWins_snd]
    split_ifs with h
    · exact le_of_lt h.2
    · exact le_refl _

theorem runCandidates_le_of_mem (candidates : List (Bool × HitRecord K))
    (hitRecord : HitRecord K) (c : Bool × HitRecord K) (hc : c ∈ candidates)
    (hvalid : c.1 = true) : (runCandidates candidates hitRecord).t ≤ c.2.t := by
  induction candidates generalizing hitRecord with
  | nil => cases hc
  | cons d rest ih =>
    rw [runCandidates_cons]
    rcases List.mem_cons.mp hc with rfl | hmem
    · refine le_trans (runCandidates_t_le rest _) ?_
      rw [closerWins_snd]
      split_ifs with h
      · exact le_refl _
      · exact not_lt.mp (fun hlt => h ⟨hvalid, hlt⟩)
    · exact ih _ hmem

theorem runCandidates_cases (candidates : List (Bool × HitRecord K))
    (hitRecord : HitRecord K) :
    runCandidates candidates hitRecord = hitRecord ∨
    ∃ c ∈ candidates, c.1 = true ∧ c.2.t < hitRecord.t ∧
      runCandidates candidates hitRecord = c.2 := by
  induction candidates generalizing hitRecord with
  | nil => exact Or.inl rfl
  | cons d rest ih =>
    rw [runCandidates_cons, closerWins_snd]
    split_ifs with h
    · rcases ih d.2 with heq | ⟨c, hc, hv, hlt, heq⟩
      · exact Or.inr ⟨d, List.mem_cons_self _ _, h.1, h.2, heq⟩
      · exact Or.inr ⟨c, List.mem_cons_of_mem _ hc, hv, lt_trans hlt h.2, heq⟩
    · rcases ih hitRecord with heq | ⟨c, hc, hv, hlt, heq⟩
      · exact Or.inl heq
      · exact Or.inr ⟨c, List.mem_cons_of_mem _ hc, hv, hlt, heq⟩

theorem runCandidates_eq_self (candidates : List (Bool × HitRecord K))
    (hitRecord : HitRecord K)
    (h : ∀ c ∈ candidates, c.1 = true → hitRecord.t ≤ c.2.t) :
    runCandidates candidates hitRecord = hitRecord := by
  rcases runCandidates_cases candidates hitRecord with heq | ⟨c, hc, hv, hlt, _⟩
  · exact heq
  · exact absurd hlt (not_lt.mpr (h c hc hv))

theorem runCandidates_idempotent (candidates : List (Bool × HitRecord K))
    (hitRecord : HitRecord K) :
    runCandidates candidates (runCandidates candidates hitRecord) =
      runCandidates candidates hitRecord :=
  runCandidates_eq_self candidates _
    (fun c hc hv => runCandidates_le_of_mem candidates hitRecord c hc hv)

theorem runCandidates_order_independent (ray : Ray K)
    (as bs : List (Bool × HitRecord K)) (hitRecord : HitRecord K)
    (hgood : ∀ c ∈ as, c.1 = true → c.2.IsHitOf ray)
    (hmem : ∀ c, c ∈ as ↔ c ∈ bs) :
    (runCandidates as hitRecord).t = (runCandidates bs hitRecord).t ∧
    (runCandidates as hitRecord).didHit = (runCandidates bs hitRecord).didHit ∧
    (runCandidates as hitRecord).origin = (runCandidates bs hitRecord).origin ∧
    ((∀ c ∈ as, ∀ d ∈ as, c.1 = true → d.1 = true → c.2.t = d.2.t → c.2 = d.2) →
      runCandidates as hitRecord = runCandidates bs hitRecord) := by
  rcases runCandidates_cases as hitRecord with ha | ⟨c, hc, hcv, hclt, ha⟩
  · rcases runCandidates_cases bs hitRecord with hb | ⟨d, hd, hdv, hdlt, _⟩
    · rw [ha, hb]
      exact ⟨rfl, rfl, rfl, fun _ => rfl⟩
    · have := runCandidates_le_of_mem as hitRecord d ((hmem d).mpr hd) hdv
      rw [ha] at this
      exact absurd hdlt (not_lt.mpr this)
  · rcases runCandidates_cases bs hitRecord with hb | ⟨d, hd, hdv, _, hb⟩
    · have := runCandidates_le_of_mem bs hitRecord c ((hmem c).mp hc) hcv
      rw [hb] at this
      exact absurd hclt (not_lt.mpr this)
    · have h1 := runCandidates_le_of_mem as hitRecord d ((hmem d).mpr hd) hdv
      have h2 := runCandidates_le_of_mem bs hitRecord c ((hmem c).mp hc) hcv
      rw [ha] at h1
      rw [hb] at h2
      have ht : c.2.t = d.2.t := le_antisymm h1 h2
      have hcg := hgood c hc hcv
      have hdg := hgood d ((hmem d).mpr hd) hdv
      rw [ha, hb]
      refine ⟨ht, ?_, ?_, fun hties => hties c hc d ((hmem d).mpr hd) hcv hdv ht⟩
      · rw [hcg.1, hdg.1]
      · rw [hcg.2.2.2, hdg.2.2.2, ht]

/-! ## Scene::GetClosestHit as a closer-wins fold -/

theorem foldl_spheres_eq (nm : Numerics K) (ray : Ray K) (spheres : List (Sphere K))
    (hitRecord : HitRecord K) :
    spheres.foldl (fun closestHit sphere => (HitTest_Sphere nm sphere ray closestHit false).2)
        hitRecord =
      runCandidates (spheres.map (sphereCandidate nm ray)) hitRecord := by
  induction spheres generalizing hitRecord with
  | nil => rfl
  | cons s rest ih =>
    rw [List.foldl_cons, List.map_cons, runCandidates_cons, ih, HitTest_Sphere_eq_closerWins]

theorem foldl_planes_eq (nm : Numerics K) (ray : Ray K) (planes : List (Plane K))
    (hitRecord : HitRecord K) :
    planes.foldl (fun closestHit plane => (HitTest_Plane plane ray closestHit false).2)
        hitRecord =
      runCandidates (planes.map (planeCandidate nm ray)) hitRecord := by
  induction planes generalizing hitRecord with
  | nil => rfl
  | cons p rest ih =>
    rw [List.foldl_cons, List.map_cons, runCandidates_cons, ih, HitTest_Plane_eq_closerWins nm]

theorem meshes_eq (nm : Numerics K) (ray : Ray K) (meshes : List (TriangleMesh K))
    (hitRecord : HitRecord K) (hvalid : ∀ mesh ∈ meshes, mesh.Valid) :
    Scene.GetClosestHit.meshes nm ray meshes hitRecord =
      some (runCandidates (meshes.map (meshCandidate nm ray)) hitRecord) := by
  induction meshes generalizing hitRecord with
  | nil => rfl
  | cons m rest ih =>
    have hm := (HitTest_TriangleMesh_eq_closerWins nm m ray hitRecord
      (hvalid m (List.mem_cons_self _ _))).1
    simp only [Scene.GetClosestHit.meshes, hm, List.map_cons, runCandidates_cons]
    exact ih _ (fun mesh hmesh => hvalid mesh (List.mem_cons_of_mem _ hmesh))

theorem GetClosestHit_eq_runCandidates (nm : Numerics K) (scene : Scene K) (ray : Ray K)
    (hitRecord : HitRecord K) (hvalid : scene.Valid) :
    Scene.GetClosestHit nm scene ray hitRecord =
      some (runCandidates (scene.candidates nm ray) hitRecord) := by
  unfold Scene.GetClosestHit Scene.candidates
  simp only [foldl_spheres_eq, foldl_planes_eq nm, runCandidates_append]
  exact meshes_eq nm ray _ _ hvalid

theorem candidates_good (nm : Numerics K) (scene : Scene K) (ray : Ray K)
    (hvalid : scene.Valid) :
    ∀ c ∈ scene.candidates nm ray, c.1 = true → c.2.IsHitOf ray := by
  intro c hc hv
  simp only [Scene.candidates, List.mem_append, List.mem_map] at hc
  rcases hc with ⟨s, _, rfl⟩ | ⟨p, _, rfl⟩ | ⟨m, hm, rfl⟩
  · exact sphereCandidate_isHitOf nm s ray hv
  · exact planeCandidate_isHitOf nm p ray hv
  · exact (HitTest_TriangleMesh_eq_closerWins nm m ray (HitRecord.fresh nm) (hvalid m hm)).2 hv

theorem hitAloneAt_iff (nm : Numerics K) (scene : Scene K) (ray : Ray K) (t : K)
    (hvalid : scene.Valid) :
    scene.HitAloneAt nm ray t ↔
      ∃ c ∈ scene.candidates nm ray, c.1 = true ∧ c.2.t < nm.FLT_MAX ∧ c.2.t = t := by
  have hcw : ∀ c : Bool × HitRecord K,
      ((closerWins c (HitRecord.fresh nm)).1 = true ∧
        (closerWins c (HitRecord.fresh nm)).2.t = t) ↔
      (c.1 = true ∧ c.2.t < nm.FLT_MAX ∧ c.2.t = t) := by
    intro c
    rw [closerWins_fst, closerWins_snd]
    constructor
    · rintro ⟨h, ht⟩
      rw [if_pos h] at ht
      exact ⟨h.1, h.2, ht⟩
    · rintro ⟨h1, h2, h3⟩
      have h : c.1 = true ∧ c.2.t < (HitRecord.fresh nm).t := ⟨h1, h2⟩
      rw [if_pos h]
      exact ⟨h, h3⟩
  unfold Scene.HitAloneAt
  simp only [Scene.candidates, List.mem_append, List.mem_map]
  constructor
  · rintro (⟨s, hs, h⟩ | ⟨p, hp, h⟩ | ⟨m, hm, result, hres, h⟩)
    · rw [HitTest_Sphere_eq_closerWins] at h
      exact ⟨_, Or.inl ⟨s, hs, rfl⟩, (hcw _).mp h⟩
    · rw [HitTest_Plane_eq_closerWins nm] at h
      exact ⟨_, Or.inr (Or.inl ⟨p, hp, rfl⟩), (hcw _).mp h⟩
    · rw [(HitTest_TriangleMesh_eq_closerWins nm m ray _ (hvalid m hm)).1] at hres
      cases hres
      exact ⟨_, Or.inr (Or.inr ⟨m, hm, rfl⟩), (hcw _).mp h⟩
  · rintro ⟨c, (⟨s, hs, rfl⟩ | ⟨p, hp, rfl⟩ | ⟨m, hm, rfl⟩), h⟩
    · left
      refine ⟨s, hs, ?_⟩
      rw [HitTest_Sphere_eq_closerWins]
      exact (hcw _).mpr h
    · right; left
      refine ⟨p, hp, ?_⟩
      rw [HitTest_Plane_eq_closerWins nm]
      exact (hcw _).mpr h
    · right; right
      exact ⟨m, hm, _, (HitTest_TriangleMesh_eq_closerWins nm m ray _ (hvalid m hm)).1,
        (hcw _).mpr h⟩

/-! ## Scene::GetClosestHit -/

/-- C7: for a scene whose mesh accesses are in bounds, `Scene::GetClosestHit`
started from a fresh record returns a record whose `didHit` is true exactly
when some sphere, plane or triangle mesh of the scene is hit when tested alone
against a fresh record, and in that case its `t` is the minimum of the `t`
values of those individual hits (attained, and a lower bound). -/
theorem GetClosestHit_globally_nearest (nm : Numerics K) (scene : Scene K) (ray : Ray K)
    (hvalid : scene.Valid) :
    ∃ closestHit, Scene.GetClosestHit nm scene ray (HitRecord.fresh nm) = some closestHit ∧
      (closestHit.didHit = true ↔ ∃ t, scene.HitAloneAt nm ray t) ∧
      (closestHit.didHit = true →
        scene.HitAloneAt nm ray closestHit.t ∧
        ∀ t, scene.HitAloneAt nm ray t → closestHit.t ≤ t) := by
  refine ⟨_, GetClosestHit_eq_runCandidates nm scene ray _ hvalid, ?_⟩
  have hbound : ∀ t, scene.HitAloneAt nm ray t →
      (runCandidates (scene.candidates nm ray) (HitRecord.fresh nm)).t ≤ t ∧ t < nm.FLT_MAX := by
    intro t ht
    obtain ⟨c, hc, hv, hlt, rfl⟩ := (hitAloneAt_iff nm scene ray t hvalid).mp ht
    exact ⟨runCandidates_le_of_mem _ _ c hc hv, hlt⟩
  rcases runCandidates_cases (scene.candidates nm ray) (HitRecord.fresh nm) with
    heq | ⟨c, hc, hv, hlt, heq⟩
  · have hnone : ¬ ∃ t, scene.HitAloneAt nm ray t := by
      rintro ⟨t, ht⟩
      have := hbound t ht
      rw [heq] at this
      exact absurd (lt_of_le_of_lt this.1 this.2) (lt_irrefl _)
    have hmiss : (runCandidates (scene.candidates nm ray) (HitRecord.fresh nm)).didHit
        = false := by rw [heq]; rfl
    refine ⟨⟨fun h => ?_, fun h => absurd h hnone⟩, fun h => ?_⟩
    · rw [hmiss] at h; cases h
    · rw [hmiss] at h; cases h
  · have hgood := candidates_good nm scene ray hvalid c hc hv
    have halone : scene.HitAloneAt nm ray c.2.t :=
      (hitAloneAt_iff nm scene ray _ hvalid).mpr ⟨c, hc, hv, hlt, rfl⟩
    have hhit : (runCandidates (scene.candidates nm ray) (HitRecord.fresh nm)).didHit
        = true := by rw [heq]; exact hgood.1
    refine ⟨⟨fun _ => ⟨_, halone⟩, fun _ => hhit⟩, fun _ => ⟨?_, fun t ht => (hbound t ht).1⟩⟩
    rw [heq]
    exact halone

/-- C7, concrete scenarios: in the scene with a sphere hit at `t = 5`, a plane hit
at `t = 9/2` and a one-triangle mesh hit at `t = 3`, the closest hit is the
mesh's, at `t = 3`, which is the least `t` of a primitive hit alone. For the
ray along the `z` axis (two zero direction components) the sphere beside the
axis (discriminant `-8`) and the plane parallel to the ray are missed, the
plane `z = -1` is met at `t = 6` and the mesh passes the slab pretest; the
closest hit is the nearer triangle of the mesh, at `t = 4`. -/
theorem GetClosestHit_globally_nearest_witness :
    scenarioScene.Valid ∧
    Scene.GetClosestHit ratNumerics scenarioScene sceneRay (HitRecord.fresh ratNumerics) =
      some { t := 3, didHit := true, materialIndex := 4, origin := ⟨0, 3 / 10, 0⟩,
             normal := ⟨0, 0, 1⟩ } ∧
    scenarioScene.HitAloneAt ratNumerics sceneRay 3 ∧
    (∀ t, scenarioScene.HitAloneAt ratNumerics sceneRay t → 3 ≤ t) ∧
    (axisAlignedScene TriangleCullMode.BackFaceCulling).Valid ∧
    sphereDiscriminant sphereBesideAxis axisAlignedRay = -8 ∧
    SlabTest_TriangleMesh (twoTriangleMesh TriangleCullMode.BackFaceCulling) axisAlignedRay =
      true ∧
    Scene.GetClosestHit ratNumerics (axisAlignedScene TriangleCullMode.BackFaceCulling)
        axisAlignedRay (HitRecord.fresh ratNumerics) =
      some { t := 4, didHit := true, materialIndex := 4, origin := ⟨0, 1 / 4, 1⟩,
             normal := ⟨0, 0, 1⟩ } ∧
    (axisAlignedScene TriangleCullMode.BackFaceCulling).HitAloneAt ratNumerics axisAlignedRay
      4 ∧
    ∀ t, (axisAlignedScene TriangleCullMode.BackFaceCulling).HitAloneAt ratNumerics
      axisAlignedRay t → 4 ≤ t := by
  have hvalid : scenarioScene.Valid := by
    unfold Scene.Valid TriangleMesh.Valid
    decide!
  have hrun : Scene.GetClosestHit ratNumerics scenarioScene sceneRay
      (HitRecord.fresh ratNumerics) =
      some { t := 3, didHit := true, materialIndex := 4, origin := ⟨0, 3 / 10, 0⟩,
             normal := ⟨0, 0, 1⟩ } := by decide!
  obtain ⟨closestHit, hsome, _, hmin⟩ :=
    GetClosestHit_globally_nearest ratNumerics scenarioScene sceneRay hvalid
  rw [hrun] at hsome
  cases hsome
  have hvalidAxis : (axisAlignedScene TriangleCullMode.BackFaceCulling).Valid := by
    unfold Scene.Valid TriangleMesh.Valid
    decide!
  have hrunAxis : Scene.GetClosestHit ratNumerics
      (axisAlignedScene TriangleCullMode.BackFaceCulling) axisAlignedRay
      (HitRecord.fresh ratNumerics) =
      some { t := 4, didHit := true, materialIndex := 4, origin := ⟨0, 1 / 4, 1⟩,
             normal := ⟨0, 0, 1⟩ } := by decide!
  obtain ⟨closestAxis, hsomeAxis, _, hminAxis⟩ :=
    GetClosestHit_globally_nearest ratNumerics (axisAlignedScene TriangleCullMode.BackFaceCulling)
      axisAlignedRay hvalidAxis
  rw [hrunAxis] at hsomeAxis
  cases hsomeAxis
  exact ⟨hvalid, hrun, (hmin rfl).1, (hmin rfl).2, hvalidAxis, by decide!, by decide!, hrunAxis,
    (hminAxis rfl).1, (hminAxis rfl).2⟩

theorem runCandidates_first (candidates : List (Bool × HitRecord K)) (hitRecord : HitRecord K) :
    (runCandidates candidates hitRecord = hitRecord ∧
      ∀ c ∈ candidates, c.1 = true → hitRecord.t ≤ c.2.t) ∨
    ∃ (i : Nat) (c : Bool × HitRecord K), candidates[i]? = some c ∧ c.1 = true ∧
      c.2.t < hitRecord.t ∧ runCandidates candidates hitRecord = c.2 ∧
      (∀ d ∈ candidates, d.1 = true → c.2.t ≤ d.2.t) ∧
      (∀ (j : Nat) (d : Bool × HitRecord K), j < i → candidates[j]? = some d →
        d.1 = true → c.2.t < d.2.t) := by
  induction candidates generalizing hitRecord with
  | nil => exact Or.inl ⟨rfl, fun c hc => absurd hc (List.not_mem_nil c)⟩
  | cons c0 rest ih =>
    rw [runCandidates_cons, closerWins_snd]
    by_cases hwin : c0.1 = true ∧ c0.2.t < hitRecord.t
    · rw [if_pos hwin]
      right
      rcases ih c0.2 with ⟨heq, hle⟩ | ⟨i, c, hi, hc, hlt, heq, hmin, hfirst⟩
      · refine ⟨0, c0, List.getElem?_cons_zero, hwin.1, hwin.2, heq, ?_, ?_⟩
        · intro d hd hdv
          rcases List.mem_cons.mp hd with rfl | hd
          · exact le_refl _
          · exact hle d hd hdv
        · intro j d hj
          exact absurd hj (Nat.not_lt_zero j)
      · refine ⟨i + 1, c, by rw [List.getElem?_cons_succ]; exact hi, hc, lt_trans hlt hwin.2, heq, ?_, ?_⟩
        · intro d hd hdv
          rcases List.mem_cons.mp hd with rfl | hd
          · exact le_of_lt hlt
          · exact hmin d hd hdv
        · intro j d hj hjd hdv
          cases j with
          | zero =>
            simp only [List.getElem?_cons_zero, Option.some.injEq] at hjd
            rw [← hjd]
            exact hlt
          | succ k =>
            simp only [List.getElem?_cons_succ] at hjd
            exact hfirst k d (by omega) hjd hdv
    · rw [if_neg hwin]
      have hc0 : c0.1 = true → hitRecord.t ≤ c0.2.t := fun h =>
        not_lt.mp (fun hlt => hwin ⟨h, hlt⟩)
      rcases ih hitRecord with ⟨heq, hle⟩ | ⟨i, c, hi, hc, hlt, heq, hmin, hfirst⟩
      · left
        refine ⟨heq, ?_⟩
        intro d hd hdv
        rcases List.mem_cons.mp hd with rfl | hd
        · exact hc0 hdv
        · exact hle d hd hdv
      · right
        refine ⟨i + 1, c, by rw [List.getElem?_cons_succ]; exact hi, hc, hlt, heq, ?_, ?_⟩
        · intro d hd hdv
          rcases List.mem_cons.mp hd with rfl | hd
          · exact le_of_lt (lt_of_lt_of_le hlt (hc0 hdv))
          · exact hmin d hd hdv
        · intro j d hj hjd hdv
          cases j with
          | zero =>
            simp only [List.getElem?_cons_zero, Option.some.injEq] at hjd
            rw [← hjd] at hdv ⊢
            exact lt_of_lt_of_le hlt (hc0 hdv)
          | succ k =>
            simp only [List.getElem?_cons_succ] at hjd
            exact hfirst k d (by omega) hjd hdv

theorem testsAgainst_eq_map (nm : Numerics K) (scene : Scene K) (ray : Ray K)
    (hitRecord : HitRecord K) (hvalid : scene.Valid) :
    scene.testsAgainst nm ray hitRecord =
      (scene.candidates nm ray).map (fun c => closerWins c hitRecord) := by
  simp only [Scene.testsAgainst, Scene.candidates, List.map_append, List.map_map]
  congr 1
  · apply List.map_congr_left
    intro sphere _
    exact HitTest_Sphere_eq_closerWins nm sphere ray hitRecord
  · congr 1
    · apply List.map_congr_left
      intro plane _
      exact HitTest_Plane_eq_closerWins nm plane ray hitRecord
    · apply List.map_congr_left
      intro mesh hmesh
      simp only [Function.comp_apply]
      rw [(HitTest_TriangleMesh_eq_closerWins nm mesh ray hitRecord (hvalid mesh hmesh)).1]
      rfl

theorem GetClosestHit_firstClosestWins (nm : Numerics K) (scene : Scene K) (ray : Ray K)
    (hitRecord : HitRecord K) (hvalid : scene.Valid) :
    scene.FirstClosestWins nm ray hitRecord
      (runCandidates (scene.candidates nm ray) hitRecord) := by
  unfold Scene.FirstClosestWins
  rw [testsAgainst_eq_map nm scene ray hitRecord hvalid]
  rcases runCandidates_first (scene.candidates nm ray) hitRecord with
    ⟨heq, hle⟩ | ⟨i, c, hi, hc, hlt, heq, hmin, hfirst⟩
  · left
    refine ⟨heq, ?_⟩
    intro r hr
    obtain ⟨c, hc, rfl⟩ := List.mem_map.mp hr
    cases hfst : (closerWins c hitRecord).1
    · rfl
    · have := (closerWins_fst c hitRecord).mp hfst
      exact absurd this.2 (not_lt.mpr (hle c hc this.1))
  · right
    have hwin : c.1 = true ∧ c.2.t < hitRecord.t := ⟨hc, hlt⟩
    have hsnd : (closerWins c hitRecord).2 = c.2 := by rw [closerWins_snd, if_pos hwin]
    refine ⟨i, closerWins c hitRecord, ?_, (closerWins_fst c hitRecord).mpr hwin, ?_, ?_, ?_⟩
    · rw [List.getElem?_map, hi]
      rfl
    · rw [heq, hsnd]
    · intro other hother hov
      obtain ⟨d, hd, rfl⟩ := List.mem_map.mp hother
      have hdw := (closerWins_fst d hitRecord).mp hov
      rw [hsnd, closerWins_snd, if_pos hdw]
      exact hmin d hd hdw.1
    · intro j other hj hjo hov
      rw [List.getElem?_map] at hjo
      cases hjd : (scene.candidates nm ray)[j]? with
      | none => rw [hjd] at hjo; cases hjo
      | some d =>
        rw [hjd] at hjo
        simp only [Option.map_some', Option.some.injEq] at hjo
        subst hjo
        have hdw := (closerWins_fst d hitRecord).mp hov
        rw [hsnd, closerWins_snd, if_pos hdw]
        exact hfirst j d hj hjd hdw.1

/-- C8, as the specification states it, fails: the two planes of `twoPlaneScene`
are hit at the same `t`; with the planes in one order the record carries the
normal and material of the first, in the other order those of the second. -/
theorem GetClosestHit_order_matters_on_ties :
    twoPlaneScene.m_SphereGeometries = twoPlaneSceneSwapped.m_SphereGeometries ∧
    twoPlaneScene.m_PlaneGeometries.Perm twoPlaneSceneSwapped.m_PlaneGeometries ∧
    twoPlaneScene.m_TriangleMeshGeometries = twoPlaneSceneSwapped.m_TriangleMeshGeometries ∧
    Scene.GetClosestHit ratNumerics twoPlaneScene sceneRay (HitRecord.fresh ratNumerics) =
      some { t := 9 / 2, didHit := true, materialIndex := 2, origin := ⟨1, 4 / 5, -1⟩,
             normal := ⟨0, 0, 1⟩ } ∧
    Scene.GetClosestHit ratNumerics twoPlaneSceneSwapped sceneRay (HitRecord.fresh ratNumerics) =
      some { t := 9 / 2, didHit := true, materialIndex := 3, origin := ⟨1, 4 / 5, -1⟩,
             normal := ⟨0, 0, -1⟩ } ∧
    Scene.GetClosestHit ratNumerics twoPlaneScene sceneRay (HitRecord.fresh ratNumerics) ≠
      Scene.GetClosestHit ratNumerics twoPlaneSceneSwapped sceneRay
        (HitRecord.fresh ratNumerics) :=
  ⟨rfl, List.Perm.swap _ _ _, rfl, by decide!, by decide!, by decide!⟩

/-- C8 (amended): for scenes whose mesh accesses are in bounds, permuting the
spheres, the planes and the triangle meshes leaves `t`, `didHit` and `origin`
of the record produced by `Scene::GetClosestHit` unchanged. Each of the two
records is the caller's record when no primitive tested alone against it is
hit, and otherwise the record (with its `materialIndex` and `normal`) written
by the first primitive, in the iteration order of its scene, among those
whose hit has the smallest `t`; so the whole record is unchanged as well when
any two candidates hit at the same `t` write the same record. -/
theorem GetClosestHit_order_independent (nm : Numerics K) (scene permuted : Scene K)
    (ray : Ray K) (hitRecord : HitRecord K) (hvalid : scene.Valid)
    (hspheres : scene.m_SphereGeometries.Perm permuted.m_SphereGeometries)
    (hplanes : scene.m_PlaneGeometries.Perm permuted.m_PlaneGeometries)
    (hmeshes : scene.m_TriangleMeshGeometries.Perm permuted.m_TriangleMeshGeometries) :
    ∃ first second,
      Scene.GetClosestHit nm scene ray hitRecord = some first ∧
      Scene.GetClosestHit nm permuted ray hitRecord = some second ∧
      first.t = second.t ∧ first.didHit = second.didHit ∧ first.origin = second.origin ∧
      ((∀ c ∈ scene.candidates nm ray, ∀ d ∈ scene.candidates nm ray,
          c.1 = true → d.1 = true → c.2.t = d.2.t → c.2 = d.2) → first = second) ∧
      scene.FirstClosestWins nm ray hitRecord first ∧
      permuted.FirstClosestWins nm ray hitRecord second := by
  have hvalid' : permuted.Valid := fun mesh hmesh => hvalid mesh (hmeshes.mem_iff.mpr hmesh)
  have hperm : (scene.candidates nm ray).Perm (permuted.candidates nm ray) :=
    List.Perm.append (hspheres.map _) (List.Perm.append (hplanes.map _) (hmeshes.map _))
  obtain ⟨ht, hd, ho, hall⟩ := runCandidates_order_independent ray _ _ hitRecord
    (candidates_good nm scene ray hvalid) (fun _ => hperm.mem_iff)
  exact ⟨_, _, GetClosestHit_eq_runCandidates nm scene ray hitRecord hvalid,
    GetClosestHit_eq_runCandidates nm permuted ray hitRecord hvalid', ht, hd, ho, hall,
    GetClosestHit_firstClosestWins nm scene ray hitRecord hvalid,
    GetClosestHit_firstClosestWins nm permuted ray hitRecord hvalid'⟩

/-- C8 (amended), concrete instance: swapping the two coincident planes keeps
`t = 9/2`, `didHit` and the hit point; in each order the record is the one of
the plane that comes first (material 2, then material 3). -/
theorem GetClosestHit_order_independent_witness :
    ∃ first second,
      Scene.GetClosestHit ratNumerics twoPlaneScene sceneRay (HitRecord.fresh ratNumerics) =
        some first ∧
      Scene.GetClosestHit ratNumerics twoPlaneSceneSwapped sceneRay
        (HitRecord.fresh ratNumerics) = some second ∧
      first.t = second.t ∧ first.didHit = second.didHit ∧ first.origin = second.origin ∧
      first.materialIndex = 2 ∧ second.materialIndex = 3 ∧
      twoPlaneScene.FirstClosestWins ratNumerics sceneRay (HitRecord.fresh ratNumerics) first ∧
      twoPlaneSceneSwapped.FirstClosestWins ratNumerics sceneRay (HitRecord.fresh ratNumerics)
        second := by
  obtain ⟨first, second, h1, h2, h3, h4, h5, _, h7, h8⟩ :=
    GetClosestHit_order_independent ratNumerics twoPlaneScene twoPlaneSceneSwapped sceneRay
      (HitRecord.fresh ratNumerics) (by unfold Scene.Valid TriangleMesh.Valid; decide!)
      (List.Perm.refl _) (List.Perm.swap _ _ _) (List.Perm.refl _)
  have hrun1 : Scene.GetClosestHit ratNumerics twoPlaneScene sceneRay
      (HitRecord.fresh ratNumerics) =
      some { t := 9 / 2, didHit := true, materialIndex := 2, origin := ⟨1, 4 / 5, -1⟩,
             normal := ⟨0, 0, 1⟩ } := by decide!
  have hrun2 : Scene.GetClosestHit ratNumerics twoPlaneSceneSwapped sceneRay
      (HitRecord.fresh ratNumerics) =
      some { t := 9 / 2, didHit := true, materialIndex := 3, origin := ⟨1, 4 / 5, -1⟩,
             normal := ⟨0, 0, -1⟩ } := by decide!
  have hm1 : first.materialIndex = 2 := by
    rw [hrun1] at h1
    cases h1
    rfl
  have hm2 : second.materialIndex = 3 := by
    rw [hrun2] at h2
    cases h2
    rfl
  exact ⟨first, second, h1, h2, h3, h4, h5, hm1, hm2, h7, h8⟩

/-- C9: for a scene whose mesh accesses are in bounds, calling
`Scene::GetClosestHit` again with the same ray on the record produced by a
first call leaves that record unchanged. -/
theorem GetClosestHit_idempotent (nm : Numerics K) (scene : Scene K) (ray : Ray K)
    (hitRecord : HitRecord K) (hvalid : scene.Valid) :
    ∃ closestHit, Scene.GetClosestHit nm scene ray hitRecord = some closestHit ∧
      Scene.GetClosestHit nm scene ray closestHit = some closestHit := by
  refine ⟨_, GetClosestHit_eq_runCandidates nm scene ray hitRecord hvalid, ?_⟩
  rw [GetClosestHit_eq_runCandidates nm scene ray _ hvalid, runCandidates_idempotent]

/-- C9, concrete instances: in the scenario scene the record of the first call
(`t = 3`, the mesh's material) is a fixed point of the second call; so is
the record (`t = 4`) of the ray along the `z` axis in the scene with the
two-triangle mesh. -/
theorem GetClosestHit_idempotent_witness :
    scenarioScene.Valid ∧
    (∃ closestHit,
      Scene.GetClosestHit ratNumerics scenarioScene sceneRay (HitRecord.fresh ratNumerics) =
        some closestHit ∧
      Scene.GetClosestHit ratNumerics scenarioScene sceneRay closestHit = some closestHit ∧
      closestHit.t = 3) ∧
    (axisAlignedScene TriangleCullMode.BackFaceCulling).Valid ∧
    ∃ closestHit,
      Scene.GetClosestHit ratNumerics (axisAlignedScene TriangleCullMode.BackFaceCulling)
        axisAlignedRay (HitRecord.fresh ratNumerics) = some closestHit ∧
      Scene.GetClosestHit ratNumerics (axisAlignedScene TriangleCullMode.BackFaceCulling)
        axisAlignedRay closestHit = some closestHit ∧
      closestHit.t = 4 := by
  have hvalid : scenarioScene.Valid := by
    unfold Scene.Valid TriangleMesh.Valid
    decide!
  have hvalidAxis : (axisAlignedScene TriangleCullMode.BackFaceCulling).Valid := by
    unfold Scene.Valid TriangleMesh.Valid
    decide!
  refine ⟨hvalid, ?_, hvalidAxis, ?_⟩
  · obtain ⟨closestHit, h1, h2⟩ := GetClosestHit_idempotent ratNumerics scenarioScene sceneRay
      (HitRecord.fresh ratNumerics) hvalid
    have hrun : Scene.GetClosestHit ratNumerics scenarioScene sceneRay
        (HitRecord.fresh ratNumerics) =
        some { t := 3, didHit := true, materialIndex := 4, origin := ⟨0, 3 / 10, 0⟩,
               normal := ⟨0, 0, 1⟩ } := by decide!
    refine ⟨closestHit, h1, h2, ?_⟩
    rw [hrun] at h1
    cases h1
    rfl
  · obtain ⟨closestHit, h1, h2⟩ := GetClosestHit_idempotent ratNumerics
      (axisAlignedScene TriangleCullMode.BackFaceCulling) axisAlignedRay
      (HitRecord.fresh ratNumerics) hvalidAxis
    have hrun : Scene.GetClosestHit ratNumerics
        (axisAlignedScene TriangleCullMode.BackFaceCulling) axisAlignedRay
        (HitRecord.fresh ratNumerics) =
        some { t := 4, didHit := true, materialIndex := 4, origin := ⟨0, 1 / 4, 1⟩,
               normal := ⟨0, 0, 1⟩ } := by decide!
    refine ⟨closestHit, h1, h2, ?_⟩
    rw [hrun] at h1
    cases h1
    rfl

/-! ## The closer-wins overwrite rule -/

theorem closerWins_changes (ray : Ray K) (candidate : Bool × HitRecord K)
    (hitRecord : HitRecord K) (hgood : candidate.1 = true → candidate.2.IsHitOf ray)
    (hchange : (closerWins candidate hitRecord).2 ≠ hitRecord) :
    (closerWins candidate hitRecord).2.t < hitRecord.t ∧
    ray.min < (closerWins candidate hitRecord).2.t ∧
    (closerWins candidate hitRecord).2.t < ray.max := by
  rw [closerWins_snd] at hchange ⊢
  split_ifs at hchange ⊢ with h
  · exact ⟨h.2, (hgood h.1).2.1, (hgood h.1).2.2.1⟩
  · exact absurd rfl hchange

/-- The closer-wins overwrite rule holds for spheres, planes and triangle
meshes: when the closest-hit test changes the record, the new `t` is strictly
smaller than the old one and strictly inside the bounds of the ray. -/
theorem closer_wins_sphere_plane_mesh (nm : Numerics K) (ray : Ray K) (hitRecord : HitRecord K) :
    (∀ sphere : Sphere K, (HitTest_Sphere nm sphere ray hitRecord false).2 ≠ hitRecord →
      (HitTest_Sphere nm sphere ray hitRecord false).2.t < hitRecord.t ∧
      ray.min < (HitTest_Sphere nm sphere ray hitRecord false).2.t ∧
      (HitTest_Sphere nm sphere ray hitRecord false).2.t < ray.max) ∧
    (∀ plane : Plane K, (HitTest_Plane plane ray hitRecord false).2 ≠ hitRecord →
      (HitTest_Plane plane ray hitRecord false).2.t < hitRecord.t ∧
      ray.min < (HitTest_Plane plane ray hitRecord false).2.t ∧
      (HitTest_Plane plane ray hitRecord false).2.t < ray.max) ∧
    (∀ mesh : TriangleMesh K, mesh.Valid →
      ∃ result, HitTest_TriangleMesh nm mesh ray hitRecord false = some result ∧
        (result.2 ≠ hitRecord →
          result.2.t < hitRecord.t ∧ ray.min < result.2.t ∧ result.2.t < ray.max)) := by
  refine ⟨fun sphere h => ?_, fun plane h => ?_, fun mesh hvalid => ?_⟩
  · rw [HitTest_Sphere_eq_closerWins] at h ⊢
    exact closerWins_changes ray _ _ (sphereCandidate_isHitOf nm sphere ray) h
  · rw [HitTest_Plane_eq_closerWins nm] at h ⊢
    exact closerWins_changes ray _ _ (planeCandidate_isHitOf nm plane ray) h
  · have hm := HitTest_TriangleMesh_eq_closerWins nm mesh ray hitRecord hvalid
    exact ⟨_, hm.1, closerWins_changes ray _ _ hm.2⟩

/-- C10, evaluated at the failing input: the record left by an earlier hit at
`t = 5` (material 7, normal `(0,1,0)`) is overwritten by the closest-hit
`HitTest_Triangle` of the scenario triangle, which the ray also meets at
`t = 5`: the record changes and its new `t` is not strictly smaller. -/
theorem HitTest_Triangle_overwrites_on_tie :
    HitTest_Triangle ratNumerics (scenarioTriangle TriangleCullMode.NoCulling)
        scenarioRayFromPosZ earlierHitAtFive false
      = (true, { t := 5, didHit := true, materialIndex := 2, origin := ⟨0, 3 / 10, 0⟩,
                 normal := ⟨0, 0, 1⟩ }) ∧
    (HitTest_Triangle ratNumerics (scenarioTriangle TriangleCullMode.NoCulling)
        scenarioRayFromPosZ earlierHitAtFive false).2 ≠ earlierHitAtFive ∧
    ¬ (HitTest_Triangle ratNumerics (scenarioTriangle TriangleCullMode.NoCulling)
        scenarioRayFromPosZ earlierHitAtFive false).2.t < earlierHitAtFive.t := by
  decide!

/-! ## Reflectance functions -/

theorem dot_sq_le (a b : Vector3 K) :
    Vector3.Dot a b ^ 2 ≤ a.SqrMagnitude * b.SqrMagnitude := by
  simp only [Vector3.Dot, Vector3.SqrMagnitude]
  nlinarith [sq_nonneg (a.x * b.y - a.y * b.x), sq_nonneg (a.y * b.z - a.z * b.y),
    sq_nonneg (a.z * b.x - a.x * b.z)]

theorem dot_le_one_of_unit (a b : Vector3 K) (ha : a.SqrMagnitude = 1)
    (hb : b.SqrMagnitude = 1) : Vector3.Dot a b ≤ 1 := by
  have h := dot_sq_le a b
  rw [ha, hb] at h
  nlinarith [sq_nonneg (Vector3.Dot a b - 1)]

theorem clamped_dot_range (a b : Vector3 K) (ha : a.SqrMagnitude = 1)
    (hb : b.SqrMagnitude = 1) :
    0 ≤ max (Vector3.Dot a b) 0 ∧ max (Vector3.Dot a b) 0 ≤ 1 :=
  ⟨le_max_right _ _, max_le (dot_le_one_of_unit a b ha hb) zero_le_one⟩

theorem ggx_inner_bounds (n h : Vector3 K) (r : K) (hr0 : 0 < r) (hr1 : r ≤ 1)
    (hn : n.SqrMagnitude = 1) (hh : h.SqrMagnitude = 1) :
    0 < Square (Square r) ∧
    Square (Square r) ≤
      Square (max (Vector3.Dot n h) 0) * (Square (Square r) - 1) + 1 := by
  obtain ⟨hc0, hc1⟩ := clamped_dot_range n h hn hh
  generalize max (Vector3.Dot n h) 0 = c at hc0 hc1
  simp only [Square]
  have hr2 : 0 < r * r := mul_pos hr0 hr0
  have hA : 0 < r * r * (r * r) := mul_pos hr2 hr2
  have hr2' : r * r ≤ 1 := by nlinarith
  have hA1 : r * r * (r * r) ≤ 1 := by nlinarith
  have hcc : c * c ≤ 1 := by nlinarith
  have hcc0 : 0 ≤ c * c := mul_nonneg hc0 hc0
  refine ⟨hA, ?_⟩
  nlinarith [mul_nonneg (sub_nonneg.mpr hcc) (sub_nonneg.mpr hA1)]

theorem ggx_peak_value (PI : K) (n h : Vector3 K) (r : K) (hPI : 0 < PI) (hr0 : 0 < r)
    (hdot : Vector3.Dot n h = 1) :
    BRDF.NormalDistribution_GGX PI n h r = 1 / (PI * r ^ 4) := by
  have hr4 : r ^ 4 ≠ 0 := pow_ne_zero 4 (ne_of_gt hr0)
  simp only [BRDF.NormalDistribution_GGX, BRDF.NormalDistribution_GGX.denominator, Square, hdot]
  rw [max_eq_left (zero_le_one : (0 : K) ≤ 1)]
  field_simp
  ring

/-- C18: for a roughness `r` in `(0,1]`, `PI > 0` and unit vectors `n`, `h`, the
denominator of `NormalDistribution_GGX` is strictly positive; when
`Dot(n,h) = 1` the value is `1 / (PI * r^4)`; no unit `h` gives a larger value
(the value at `h = n` is that peak); and for every bound the peak exceeds the
bound for all small enough roughness. -/
theorem NormalDistribution_GGX_peak (PI : K) (n h : Vector3 K) (r : K) (hPI : 0 < PI)
    (hr0 : 0 < r) (hr1 : r ≤ 1) (hn : n.SqrMagnitude = 1) (hh : h.SqrMagnitude = 1) :
    0 < BRDF.NormalDistribution_GGX.denominator PI n h r ∧
    (Vector3.Dot n h = 1 → BRDF.NormalDistribution_GGX PI n h r = 1 / (PI * r ^ 4)) ∧
    BRDF.NormalDistribution_GGX PI n h r ≤ 1 / (PI * r ^ 4) ∧
    BRDF.NormalDistribution_GGX PI n n r = 1 / (PI * r ^ 4) ∧
    ∀ bound : K, ∃ r0, 0 < r0 ∧ ∀ s, 0 < s → s ≤ r0 →
      bound < BRDF.NormalDistribution_GGX PI n n s := by
  obtain ⟨hA, hinner⟩ := ggx_inner_bounds n h r hr0 hr1 hn hh
  have hnn : Vector3.Dot n n = 1 := by
    simpa [Vector3.Dot, Vector3.SqrMagnitude] using hn
  have hden : 0 < BRDF.NormalDistribution_GGX.denominator PI n h r := by
    simp only [BRDF.NormalDistribution_GGX.denominator]
    exact mul_pos hPI (pow_pos (lt_of_lt_of_le hA hinner) 2)
  refine ⟨hden, fun hdot => ggx_peak_value PI n h r hPI hr0 hdot, ?_,
    ggx_peak_value PI n n r hPI hr0 hnn, ?_⟩
  · have hr4 : 0 < PI * r ^ 4 := mul_pos hPI (pow_pos hr0 4)
    simp only [BRDF.NormalDistribution_GGX]
    rw [div_le_div_iff₀ hden hr4]
    simp only [BRDF.NormalDistribution_GGX.denominator]
    generalize Square (max (Vector3.Dot n h) 0) * (Square (Square r) - 1) + 1 = inner
      at hinner
    have hA' : Square (Square r) = r ^ 4 := by simp only [Square]; ring
    rw [hA'] at hinner hA ⊢
    have hsq : r ^ 4 * r ^ 4 ≤ inner * inner :=
      mul_le_mul hinner hinner (le_of_lt hA) (le_trans (le_of_lt hA) hinner)
    nlinarith [mul_le_mul_of_nonneg_left hsq (le_of_lt hPI)]
  · intro bound
    refine ⟨1 / (PI * |bound| + 1), by positivity, fun s hs0 hs1 => ?_⟩
    rw [ggx_peak_value PI n n s hPI hs0 hnn]
    have hq : 0 < PI * |bound| + 1 := by positivity
    have hs4 : 0 < PI * s ^ 4 := mul_pos hPI (pow_pos hs0 4)
    have hsle : s ≤ 1 := le_trans hs1 (by rw [div_le_one hq]; linarith [mul_nonneg (le_of_lt hPI) (abs_nonneg bound)])
    have hs4le : s ^ 4 ≤ s := by
      have h2 : s ^ 2 ≤ 1 := by nlinarith
      nlinarith [mul_nonneg (le_of_lt hs0) (sub_nonneg.mpr h2), sq_nonneg s, pow_pos hs0 3]
    have hsq : s * (PI * |bound| + 1) ≤ 1 := by
      have := mul_le_mul_of_nonneg_right hs1 (le_of_lt hq)
      rwa [div_mul_cancel₀ _ (ne_of_gt hq)] at this
    rw [lt_div_iff₀ hs4]
    have hb : bound ≤ |bound| := le_abs_self bound
    have hbs : |bound| * (PI * s ^ 4) ≤ |bound| * (PI * s) :=
      mul_le_mul_of_nonneg_left (mul_le_mul_of_nonneg_left hs4le (le_of_lt hPI)) (abs_nonneg _)
    nlinarith [mul_le_mul_of_nonneg_right hb (le_of_lt hs4), abs_nonneg bound]

/-- C18, concrete instance: roughness `1/2`, `n = h = (0,0,1)`: the value is the
peak `1 / (PI * (1/2)^4)`. -/
theorem NormalDistribution_GGX_peak_witness :
    BRDF.NormalDistribution_GGX ratPI ⟨0, 0, 1⟩ ⟨0, 0, 1⟩ (1 / 2) = 1 / (ratPI * (1 / 2) ^ 4) ∧
    0 < BRDF.NormalDistribution_GGX.denominator ratPI (⟨0, 0, 1⟩ : Vector3 ℚ) ⟨0, 0, 1⟩ (1 / 2) :=
  have h := NormalDistribution_GGX_peak ratPI (⟨0, 0, 1⟩ : Vector3 ℚ) ⟨0, 0, 1⟩ (1 / 2)
    (by decide!) (by decide!) (by decide!) (by decide!) (by decide!)
  ⟨h.2.1 (by decide!), h.1⟩

theorem schlick_channel_range (f u : K) (hf1 : f ≤ 1) (hu0 : 0 ≤ u)
    (hu1 : u ≤ 1) : f ≤ f + (1 - f) * u ^ 5 ∧ f + (1 - f) * u ^ 5 ≤ 1 := by
  have hp0 : 0 ≤ u ^ 5 := pow_nonneg hu0 5
  have hp1 : u ^ 5 ≤ 1 := pow_le_one₀ hu0 hu1
  have h1f : 0 ≤ 1 - f := sub_nonneg.mpr hf1
  constructor
  · nlinarith [mul_nonneg h1f hp0]
  · nlinarith [mul_nonneg h1f (sub_nonneg.mpr hp1)]

/-- C19: for a base reflectivity `f0` with every channel in `[0,1]` and vectors
`h`, `v` with `Dot(h,v) ≤ 1`, every channel `c` of `FresnelFunction_Schlick`
is `f0_c + (1 - f0_c) * (1 - max(Dot(h,v),0))^5` and lies in `[f0_c, 1]`; the
result is `f0` when `Dot(h,v) = 1` and `(1,1,1)` when `Dot(h,v) ≤ 0`. -/
theorem FresnelFunction_Schlick_range (h v : Vector3 K) (f0 : ColorRGB K)
    (hr : 0 ≤ f0.r ∧ f0.r ≤ 1) (hg : 0 ≤ f0.g ∧ f0.g ≤ 1) (hb : 0 ≤ f0.b ∧ f0.b ≤ 1)
    (hdot : Vector3.Dot h v ≤ 1) :
    BRDF.FresnelFunction_Schlick h v f0 =
      ⟨f0.r + (1 - f0.r) * (1 - max (Vector3.Dot h v) 0) ^ 5,
       f0.g + (1 - f0.g) * (1 - max (Vector3.Dot h v) 0) ^ 5,
       f0.b + (1 - f0.b) * (1 - max (Vector3.Dot h v) 0) ^ 5⟩ ∧
    (f0.r ≤ (BRDF.FresnelFunction_Schlick h v f0).r ∧
      (BRDF.FresnelFunction_Schlick h v f0).r ≤ 1) ∧
    (f0.g ≤ (BRDF.FresnelFunction_Schlick h v f0).g ∧
      (BRDF.FresnelFunction_Schlick h v f0).g ≤ 1) ∧
    (f0.b ≤ (BRDF.FresnelFunction_Schlick h v f0).b ∧
      (BRDF.FresnelFunction_Schlick h v f0).b ≤ 1) ∧
    (Vector3.Dot h v = 1 → BRDF.FresnelFunction_Schlick h v f0 = f0) ∧
    (Vector3.Dot h v ≤ 0 → BRDF.FresnelFunction_Schlick h v f0 = ⟨1, 1, 1⟩) := by
  have hu0 : 0 ≤ 1 - max (Vector3.Dot h v) 0 :=
    sub_nonneg.mpr (max_le hdot zero_le_one)
  have hu1 : 1 - max (Vector3.Dot h v) 0 ≤ 1 := by
    have := le_max_right (Vector3.Dot h v) 0
    linarith
  have hform : BRDF.FresnelFunction_Schlick h v f0 =
      ⟨f0.r + (1 - f0.r) * (1 - max (Vector3.Dot h v) 0) ^ 5,
       f0.g + (1 - f0.g) * (1 - max (Vector3.Dot h v) 0) ^ 5,
       f0.b + (1 - f0.b) * (1 - max (Vector3.Dot h v) 0) ^ 5⟩ := by
    simp [BRDF.FresnelFunction_Schlick, ColorRGB.add, ColorRGB.sub, ColorRGB.scale]
  refine ⟨hform, ?_, ?_, ?_, ?_, ?_⟩
  · rw [hform]; exact schlick_channel_range _ _ hr.2 hu0 hu1
  · rw [hform]; exact schlick_channel_range _ _ hg.2 hu0 hu1
  · rw [hform]; exact schlick_channel_range _ _ hb.2 hu0 hu1
  · intro h1
    rw [hform, h1, max_eq_left (zero_le_one : (0 : K) ≤ 1)]
    simp
  · intro h0
    rw [hform, max_eq_right h0]
    simp

/-- C19, concrete instance: `f0 = (0.04, 0.04, 0.04)`, `h = v = (0,0,1)`
(`Dot = 1`) gives `f0`; `h = (0,0,1)`, `v = (0,0,-1)` gives `(1,1,1)`. -/
theorem FresnelFunction_Schlick_range_witness :
    BRDF.FresnelFunction_Schlick (⟨0, 0, 1⟩ : Vector3 ℚ) ⟨0, 0, 1⟩ ⟨1 / 25, 1 / 25, 1 / 25⟩ =
      ⟨1 / 25, 1 / 25, 1 / 25⟩ ∧
    BRDF.FresnelFunction_Schlick (⟨0, 0, 1⟩ : Vector3 ℚ) ⟨0, 0, -1⟩ ⟨1 / 25, 1 / 25, 1 / 25⟩ =
      ⟨1, 1, 1⟩ :=
  ⟨(FresnelFunction_Schlick_range (⟨0, 0, 1⟩ : Vector3 ℚ) ⟨0, 0, 1⟩ ⟨1 / 25, 1 / 25, 1 / 25⟩
      (by decide!) (by decide!) (by decide!) (by decide!)).2.2.2.2.1 (by decide!),
   (FresnelFunction_Schlick_range (⟨0, 0, 1⟩ : Vector3 ℚ) ⟨0, 0, -1⟩ ⟨1 / 25, 1 / 25, 1 / 25⟩
      (by decide!) (by decide!) (by decide!) (by decide!)).2.2.2.2.2 (by decide!)⟩

theorem schlickGGX_k_range (r : K) (hr0 : 0 ≤ r) (hr1 : r ≤ 1) :
    0 < BRDF.GeometryFunction_SchlickGGX.k r ∧ BRDF.GeometryFunction_SchlickGGX.k r ≤ 1 / 2 := by
  simp only [BRDF.GeometryFunction_SchlickGGX.k, Square]
  have hrr0 : 0 ≤ r * r := mul_nonneg hr0 hr0
  have hrr1 : r * r ≤ 1 := by nlinarith
  constructor
  · positivity
  · rw [div_le_iff₀ (by norm_num : (0 : K) < 8)]
    nlinarith

theorem schlickGGX_denominator_pos (n x : Vector3 K) (r : K) (hr0 : 0 ≤ r) (hr1 : r ≤ 1) :
    0 < BRDF.GeometryFunction_SchlickGGX.denominator n x r := by
  obtain ⟨hk0, hk1⟩ := schlickGGX_k_range r hr0 hr1
  simp only [BRDF.GeometryFunction_SchlickGGX.denominator]
  have hc : 0 ≤ max (Vector3.Dot n x) 0 := le_max_right _ _
  nlinarith [mul_nonneg hc (by linarith : 0 ≤ 1 - BRDF.GeometryFunction_SchlickGGX.k r)]

theorem schlickGGX_nonneg (n x : Vector3 K) (r : K) (hr0 : 0 ≤ r) (hr1 : r ≤ 1) :
    0 ≤ BRDF.GeometryFunction_SchlickGGX n x r :=
  div_nonneg (le_max_right _ _) (le_of_lt (schlickGGX_denominator_pos n x r hr0 hr1))

theorem schlickGGX_le_one (n x : Vector3 K) (r : K) (hr0 : 0 ≤ r) (hr1 : r ≤ 1)
    (hn : n.SqrMagnitude = 1) (hx : x.SqrMagnitude = 1) :
    BRDF.GeometryFunction_SchlickGGX n x r ≤ 1 := by
  obtain ⟨hk0, _⟩ := schlickGGX_k_range r hr0 hr1
  obtain ⟨hc0, hc1⟩ := clamped_dot_range n x hn hx
  have hden := schlickGGX_denominator_pos n x r hr0 hr1
  simp only [BRDF.GeometryFunction_SchlickGGX]
  rw [div_le_one hden]
  simp only [BRDF.GeometryFunction_SchlickGGX.denominator]
  nlinarith [mul_nonneg (le_of_lt hk0) (sub_nonneg.mpr hc1)]

theorem schlickGGX_mono (n x y : Vector3 K) (r : K) (hr0 : 0 ≤ r) (hr1 : r ≤ 1)
    (hxy : Vector3.Dot n x ≤ Vector3.Dot n y) :
    BRDF.GeometryFunction_SchlickGGX n x r ≤ BRDF.GeometryFunction_SchlickGGX n y r := by
  obtain ⟨hk0, _⟩ := schlickGGX_k_range r hr0 hr1
  have hdx := schlickGGX_denominator_pos n x r hr0 hr1
  have hdy := schlickGGX_denominator_pos n y r hr0 hr1
  have hc : max (Vector3.Dot n x) 0 ≤ max (Vector3.Dot n y) 0 := max_le_max hxy (le_refl 0)
  simp only [BRDF.GeometryFunction_SchlickGGX]
  rw [div_le_div_iff₀ hdx hdy]
  simp only [BRDF.GeometryFunction_SchlickGGX.denominator]
  nlinarith [mul_le_mul_of_nonneg_right hc (le_of_lt hk0)]

/-- C20: for a roughness `r` in `[0,1]` and unit vectors `n`, `x`, `v`, `l`:
`GeometryFunction_SchlickGGX(n, x, r)` is the quotient of `max(Dot(n,x), 0)`
by `max(Dot(n,x), 0) * (1 - k) + k` with `k = (r^2 + 1)^2 / 8`, that
denominator is strictly positive, the value lies in `[0,1]`, is `0` when
`Dot(n,x) ≤ 0`, `1` when `Dot(n,x) = 1`, and does not decrease when
`Dot(n,x)` grows; `GeometryFunction_Smith` is the product of the two terms
for `v` and `l`, lies in `[0,1]` and is symmetric in `v` and `l`. -/
theorem GeometryFunction_SchlickGGX_range (n x v l : Vector3 K) (r : K) (hr0 : 0 ≤ r)
    (hr1 : r ≤ 1) (hn : n.SqrMagnitude = 1) (hx : x.SqrMagnitude = 1)
    (hv : v.SqrMagnitude = 1) (hl : l.SqrMagnitude = 1) :
    BRDF.GeometryFunction_SchlickGGX n x r =
      max (Vector3.Dot n x) 0 /
        (max (Vector3.Dot n x) 0 * (1 - (r ^ 2 + 1) ^ 2 / 8) + (r ^ 2 + 1) ^ 2 / 8) ∧
    0 < max (Vector3.Dot n x) 0 * (1 - (r ^ 2 + 1) ^ 2 / 8) + (r ^ 2 + 1) ^ 2 / 8 ∧
    BRDF.GeometryFunction_SchlickGGX.k r = (r ^ 2 + 1) ^ 2 / 8 ∧
    BRDF.GeometryFunction_SchlickGGX.denominator n x r =
      max (Vector3.Dot n x) 0 * (1 - (r ^ 2 + 1) ^ 2 / 8) + (r ^ 2 + 1) ^ 2 / 8 ∧
    0 ≤ BRDF.GeometryFunction_SchlickGGX n x r ∧
    BRDF.GeometryFunction_SchlickGGX n x r ≤ 1 ∧
    (Vector3.Dot n x ≤ 0 → BRDF.GeometryFunction_SchlickGGX n x r = 0) ∧
    (Vector3.Dot n x = 1 → BRDF.GeometryFunction_SchlickGGX n x r = 1) ∧
    (∀ y : Vector3 K, Vector3.Dot n x ≤ Vector3.Dot n y →
      BRDF.GeometryFunction_SchlickGGX n x r ≤ BRDF.GeometryFunction_SchlickGGX n y r) ∧
    BRDF.GeometryFunction_Smith n v l r =
      (max (Vector3.Dot n v) 0 /
        (max (Vector3.Dot n v) 0 * (1 - (r ^ 2 + 1) ^ 2 / 8) + (r ^ 2 + 1) ^ 2 / 8)) *
      (max (Vector3.Dot n l) 0 /
        (max (Vector3.Dot n l) 0 * (1 - (r ^ 2 + 1) ^ 2 / 8) + (r ^ 2 + 1) ^ 2 / 8)) ∧
    BRDF.GeometryFunction_Smith n v l r =
      BRDF.GeometryFunction_SchlickGGX n v r * BRDF.GeometryFunction_SchlickGGX n l r ∧
    0 ≤ BRDF.GeometryFunction_Smith n v l r ∧
    BRDF.GeometryFunction_Smith n v l r ≤ 1 ∧
    BRDF.GeometryFunction_Smith n v l r = BRDF.GeometryFunction_Smith n l v r := by
  have hk : BRDF.GeometryFunction_SchlickGGX.k r = (r ^ 2 + 1) ^ 2 / 8 := by
    simp only [BRDF.GeometryFunction_SchlickGGX.k, Square]
    ring
  have hdenEq : ∀ y : Vector3 K, BRDF.GeometryFunction_SchlickGGX.denominator n y r =
      max (Vector3.Dot n y) 0 * (1 - (r ^ 2 + 1) ^ 2 / 8) + (r ^ 2 + 1) ^ 2 / 8 := by
    intro y
    simp only [BRDF.GeometryFunction_SchlickGGX.denominator, hk]
  have hform : ∀ y : Vector3 K, BRDF.GeometryFunction_SchlickGGX n y r =
      max (Vector3.Dot n y) 0 /
        (max (Vector3.Dot n y) 0 * (1 - (r ^ 2 + 1) ^ 2 / 8) + (r ^ 2 + 1) ^ 2 / 8) := by
    intro y
    simp only [BRDF.GeometryFunction_SchlickGGX, hdenEq]
  have hden := schlickGGX_denominator_pos n x r hr0 hr1
  refine ⟨hform x, ?_, hk, hdenEq x, schlickGGX_nonneg n x r hr0 hr1,
    schlickGGX_le_one n x r hr0 hr1 hn hx, ?_, ?_,
    fun y hxy => schlickGGX_mono n x y r hr0 hr1 hxy, ?_, rfl, ?_, ?_, ?_⟩
  · rw [← hdenEq x]
    exact hden
  · intro h0
    simp [BRDF.GeometryFunction_SchlickGGX, max_eq_right h0]
  · intro h1
    have hd1 : BRDF.GeometryFunction_SchlickGGX.denominator n x r = 1 := by
      simp only [BRDF.GeometryFunction_SchlickGGX.denominator, h1,
        max_eq_left (zero_le_one : (0 : K) ≤ 1)]
      ring
    simp [BRDF.GeometryFunction_SchlickGGX, hd1, h1]
  · simp only [BRDF.GeometryFunction_Smith, hform]
  · exact mul_nonneg (schlickGGX_nonneg n v r hr0 hr1) (schlickGGX_nonneg n l r hr0 hr1)
  · exact mul_le_one₀ (schlickGGX_le_one n v r hr0 hr1 hn hv) (schlickGGX_nonneg n l r hr0 hr1)
      (schlickGGX_le_one n l r hr0 hr1 hn hl)
  · simp only [BRDF.GeometryFunction_Smith]
    exact mul_comm _ _

/-- C20, concrete instance: roughness `1` gives `k = 1/2`; with `n = (0,0,1)` the
term is `1` for `x = n` and `(3/5) / ((3/5) * (1/2) + 1/2) = 3/4` for the unit
vector `x = (0, 4/5, 3/5)`, the Smith term of the two is `3/4`, the same with
`v` and `l` swapped. -/
theorem GeometryFunction_SchlickGGX_range_witness :
    BRDF.GeometryFunction_SchlickGGX.k (1 : ℚ) = 1 / 2 ∧
    BRDF.GeometryFunction_SchlickGGX (⟨0, 0, 1⟩ : Vector3 ℚ) ⟨0, 0, 1⟩ 1 = 1 ∧
    BRDF.GeometryFunction_SchlickGGX (⟨0, 0, 1⟩ : Vector3 ℚ) ⟨0, 4 / 5, 3 / 5⟩ 1 = 3 / 4 ∧
    BRDF.GeometryFunction_SchlickGGX (⟨0, 0, 1⟩ : Vector3 ℚ) ⟨0, 4 / 5, 3 / 5⟩ 1 ≤ 1 ∧
    BRDF.GeometryFunction_Smith (⟨0, 0, 1⟩ : Vector3 ℚ) ⟨0, 4 / 5, 3 / 5⟩ ⟨0, 0, 1⟩ 1 = 3 / 4 ∧
    BRDF.GeometryFunction_Smith (⟨0, 0, 1⟩ : Vector3 ℚ) ⟨0, 4 / 5, 3 / 5⟩ ⟨0, 0, 1⟩ 1 =
      BRDF.GeometryFunction_Smith (⟨0, 0, 1⟩ : Vector3 ℚ) ⟨0, 0, 1⟩ ⟨0, 4 / 5, 3 / 5⟩ 1 :=
  have h1 := GeometryFunction_SchlickGGX_range (⟨0, 0, 1⟩ : Vector3 ℚ) ⟨0, 0, 1⟩
    ⟨0, 4 / 5, 3 / 5⟩ ⟨0, 0, 1⟩ 1 (by decide!) (by decide!) (by decide!) (by decide!)
    (by decide!) (by decide!)
  have h2 := GeometryFunction_SchlickGGX_range (⟨0, 0, 1⟩ : Vector3 ℚ) ⟨0, 4 / 5, 3 / 5⟩
    ⟨0, 4 / 5, 3 / 5⟩ ⟨0, 0, 1⟩ 1 (by decide!) (by decide!) (by decide!) (by decide!)
    (by decide!) (by decide!)
  ⟨by rw [h1.2.2.1]; norm_num, h1.2.2.2.2.2.2.2.1 (by decide!), by decide!, h2.2.2.2.2.2.1,
    by decide!, h1.2.2.2.2.2.2.2.2.2.2.2.2.2⟩

/-! ## Renderer: pixel indexing -/

theorem bufferIndex_eq (m_Width pixelIndex : Nat) (h32 : pixelIndex < 2 ^ 32) :
    RenderPixel.bufferIndex m_Width pixelIndex = pixelIndex := by
  have hsum : pixelIndex % m_Width + pixelIndex / m_Width * m_Width = pixelIndex := by
    rw [Nat.mul_comm]
    exact Nat.mod_add_div pixelIndex m_Width
  have hle : pixelIndex / m_Width * m_Width ≤ pixelIndex := by omega
  simp only [RenderPixel.bufferIndex, RenderPixel.px, RenderPixel.py]
  rw [Nat.mod_eq_of_lt (lt_of_le_of_lt hle h32), hsum, Nat.mod_eq_of_lt h32]

theorem writeBuffer_comm (m_Width : Nat) (pixelValue : Nat → Nat) (buffer : List Nat)
    (i j : Nat) (hi : i < 2 ^ 32) (hj : j < 2 ^ 32) :
    RenderPixel.writeBuffer m_Width pixelValue
        (RenderPixel.writeBuffer m_Width pixelValue buffer i) j =
      RenderPixel.writeBuffer m_Width pixelValue
        (RenderPixel.writeBuffer m_Width pixelValue buffer j) i := by
  simp only [RenderPixel.writeBuffer, bufferIndex_eq _ _ hi, bufferIndex_eq _ _ hj]
  by_cases hij : i = j
  · subst hij; rfl
  · exact List.set_comm _ _ _ hij

/-- C16: for a width `W > 0`, a height `H > 0` and a pixel index `i < W * H`
(a `uint32_t`), `RenderPixel` computes `px = i mod W < W` and
`py = i div W < H` and writes the buffer cell `px + py * W = i` and no other;
distinct pixel indices write distinct cells, and running `RenderPixel` over
the indices `0 .. W*H - 1` in any order gives the same buffer. -/
theorem RenderPixel_writes_own_cell (W H i : Nat) (hW : 0 < W) (hH : 0 < H)
    (hi : i < W * H) (h32 : W * H ≤ 2 ^ 32) :
    RenderPixel.px W i = i % W ∧ RenderPixel.px W i < W ∧
    RenderPixel.py W i = i / W ∧ RenderPixel.py W i < H ∧
    RenderPixel.bufferIndex W i = RenderPixel.px W i + RenderPixel.py W i * W ∧
    RenderPixel.bufferIndex W i = i ∧
    (∀ (pixelValue : Nat → Nat) (buffer : List Nat), buffer.length = W * H →
      (RenderPixel.writeBuffer W pixelValue buffer i)[i]? = some (pixelValue i) ∧
      ∀ cell, cell ≠ i → (RenderPixel.writeBuffer W pixelValue buffer i)[cell]? = buffer[cell]?) ∧
    (∀ j, j < W * H → j ≠ i → RenderPixel.bufferIndex W j ≠ RenderPixel.bufferIndex W i) ∧
    (∀ (pixelValue : Nat → Nat) (buffer order : List Nat),
      order.Perm (List.range (W * H)) →
      Render.pixels W pixelValue buffer order =
        Render.pixels W pixelValue buffer (List.range (W * H))) := by
  have _ := hH
  have hi32 : i < 2 ^ 32 := lt_of_lt_of_le hi h32
  have hidx := bufferIndex_eq W i hi32
  refine ⟨rfl, Nat.mod_lt _ hW, rfl, ?_, ?_, hidx, ?_, ?_, ?_⟩
  · exact Nat.div_lt_of_lt_mul hi
  · rw [hidx]
    simp only [RenderPixel.px, RenderPixel.py]
    rw [Nat.mul_comm]
    exact (Nat.mod_add_div i W).symm
  · intro pixelValue buffer hlen
    simp only [RenderPixel.writeBuffer, hidx]
    refine ⟨List.getElem?_set_self (by rw [hlen]; exact hi), fun cell hne => ?_⟩
    exact List.getElem?_set_ne (Ne.symm hne)
  · intro j hj hne
    rw [hidx, bufferIndex_eq W j (lt_of_lt_of_le hj h32)]
    exact hne
  · intro pixelValue buffer order hperm
    refine List.Perm.foldl_eq' hperm (fun x hx y hy z => ?_) buffer
    have hx' : x < 2 ^ 32 := lt_of_lt_of_le (List.mem_range.mp (hperm.mem_iff.mp hx)) h32
    have hy' : y < 2 ^ 32 := lt_of_lt_of_le (List.mem_range.mp (hperm.mem_iff.mp hy)) h32
    exact writeBuffer_comm W pixelValue z x y hx' hy'

/-- C16, concrete instance: a `3 x 2` buffer; pixel index `4` has `px = 1`,
`py = 1` and writes cell `4`; filling the buffer in the order `5,3,1,0,2,4`
gives the same buffer as the order `0,...,5`. -/
theorem RenderPixel_writes_own_cell_witness :
    RenderPixel.px 3 4 = 1 ∧ RenderPixel.py 3 4 = 1 ∧ RenderPixel.bufferIndex 3 4 = 4 ∧
    Render.pixels 3 (fun i => 10 + i) [0, 0, 0, 0, 0, 0] [5, 3, 1, 0, 2, 4] =
      [10, 11, 12, 13, 14, 15] :=
  have h := RenderPixel_writes_own_cell 3 2 4 (by decide) (by decide) (by decide) (by decide)
  ⟨by decide, by decide, h.2.2.2.2.2.1, by
    rw [h.2.2.2.2.2.2.2.2 (fun i => 10 + i) [0, 0, 0, 0, 0, 0] [5, 3, 1, 0, 2, 4] (by decide)]
    decide⟩

/-! ## Degenerate inputs: NaN and infinities -/

theorem FloatValue.lt_finite (a b : K) :
    (FloatValue.finite a).lt (FloatValue.finite b) = decide (a < b) := rfl

theorem FloatValue.sub_nan (a : K) :
    (FloatValue.finite a).sub FloatValue.nan = FloatValue.nan := rfl

theorem FloatValue.add_nan (a : K) :
    (FloatValue.finite a).add FloatValue.nan = FloatValue.nan := rfl

theorem FloatValue.nan_lt (b : FloatValue K) : FloatValue.nan.lt b = false := by
  cases b <;> rfl

theorem FloatValue.lt_nan (a : FloatValue K) : a.lt FloatValue.nan = false := by
  cases a <;> rfl

theorem HitTest_Sphere_commitIeee_finite (nm : Numerics K) (sphere : Sphere K) (ray : Ray K)
    (hitRecord : HitRecord K) (ignoreHitRecord : Bool) (t : K) :
    HitTest_Sphere.commitIeee nm sphere ray hitRecord ignoreHitRecord (FloatValue.finite t) =
      HitTest_Sphere.commit nm sphere ray hitRecord ignoreHitRecord t := by
  simp [HitTest_Sphere.commitIeee, HitTest_Sphere.commit, FloatValue.gt, FloatValue.lt,
    FloatValue.toFinite]

theorem HitTest_Sphere_ieee_of_neg (nm : Numerics K) (sphere : Sphere K) (ray : Ray K)
    (hitRecord : HitRecord K) (ignoreHitRecord : Bool)
    (hneg : sphereDiscriminant sphere ray < 0) :
    HitTest_Sphere.ieee nm sphere ray hitRecord ignoreHitRecord = (false, hitRecord) := by
  have hneg' : Square sphere.radius - ((sphere.origin.sub ray.origin).SqrMagnitude -
      Square (Vector3.Dot (sphere.origin.sub ray.origin) ray.direction)) < 0 := hneg
  have hsqrt : FloatValue.sqrt nm (FloatValue.finite (Square sphere.radius -
      ((sphere.origin.sub ray.origin).SqrMagnitude -
        Square (Vector3.Dot (sphere.origin.sub ray.origin) ray.direction)))) =
      FloatValue.nan := by
    simp only [FloatValue.sqrt]
    rw [if_pos hneg']
  simp only [HitTest_Sphere.ieee, hsqrt, FloatValue.sub_nan, FloatValue.add_nan,
    FloatValue.gt, FloatValue.nan_lt, FloatValue.lt_nan]
  simp [HitTest_Sphere.commitIeee, FloatValue.gt, FloatValue.nan_lt, FloatValue.lt_nan]

/-- The line-by-line embedding on floats that may be non-finite agrees with
`HitTest_Sphere` on every input. -/
theorem HitTest_Sphere_ieee_eq (nm : Numerics K) (sphere : Sphere K) (ray : Ray K)
    (hitRecord : HitRecord K) (ignoreHitRecord : Bool) :
    HitTest_Sphere.ieee nm sphere ray hitRecord ignoreHitRecord =
      HitTest_Sphere nm sphere ray hitRecord ignoreHitRecord := by
  by_cases hneg : sphereDiscriminant sphere ray < 0
  · rw [HitTest_Sphere_ieee_of_neg nm sphere ray hitRecord ignoreHitRecord hneg,
      HitTest_Sphere_of_neg nm sphere ray hitRecord ignoreHitRecord hneg]
  · have hnot : ¬ Square sphere.radius - ((sphere.origin.sub ray.origin).SqrMagnitude -
        Square (Vector3.Dot (sphere.origin.sub ray.origin) ray.direction)) < 0 := hneg
    simp only [HitTest_Sphere.ieee, HitTest_Sphere, FloatValue.sqrt, if_neg hnot,
      FloatValue.sub, FloatValue.add, FloatValue.neg, FloatValue.gt, FloatValue.lt,
      HitTest_Sphere_commitIeee_finite, decide_eq_true_eq, ← sub_eq_add_neg]

/-- C11: when the radius squared minus the squared perpendicular distance from
the sphere centre to the line of the ray is negative, `HitTest_Sphere` (with
the square root of a negative number being NaN) returns false and leaves the
record unchanged, for either value of `ignoreHitRecord`. -/
theorem HitTest_Sphere_no_real_root (nm : Numerics K) (sphere : Sphere K) (ray : Ray K)
    (hitRecord : HitRecord K) (ignoreHitRecord : Bool)
    (hneg : sphereDiscriminant sphere ray < 0) :
    HitTest_Sphere.ieee nm sphere ray hitRecord ignoreHitRecord = (false, hitRecord) := by
  have hneg' : Square sphere.radius - ((sphere.origin.sub ray.origin).SqrMagnitude -
      Square (Vector3.Dot (sphere.origin.sub ray.origin) ray.direction)) < 0 := hneg
  have hsqrt : FloatValue.sqrt nm (FloatValue.finite (Square sphere.radius -
      ((sphere.origin.sub ray.origin).SqrMagnitude -
        Square (Vector3.Dot (sphere.origin.sub ray.origin) ray.direction)))) =
      FloatValue.nan := by
    simp only [FloatValue.sqrt]
    rw [if_pos hneg']
  simp only [HitTest_Sphere.ieee, hsqrt, FloatValue.sub_nan, FloatValue.add_nan,
    FloatValue.gt, FloatValue.nan_lt, FloatValue.lt_nan]
  simp [HitTest_Sphere.commitIeee, FloatValue.gt, FloatValue.nan_lt, FloatValue.lt_nan]

/-- C11, concrete instance: the ray from `(0,5,-5)` with direction `(0,0,1)`
passes the unit sphere at distance 5 (discriminant `-24`): a miss, the fresh
record is unchanged. -/
theorem HitTest_Sphere_no_real_root_witness :
    sphereDiscriminant scenarioSphere missingSphereRay = -24 ∧
    HitTest_Sphere.ieee ratNumerics scenarioSphere missingSphereRay
      (HitRecord.fresh ratNumerics) false = (false, HitRecord.fresh ratNumerics) :=
  ⟨by decide!, HitTest_Sphere_no_real_root ratNumerics scenarioSphere missingSphereRay
    (HitRecord.fresh ratNumerics) false (by decide!)⟩

theorem HitTest_Plane_ieee_of_parallel (negativeZero : Bool) (plane : Plane K) (ray : Ray K)
    (hitRecord : HitRecord K) (ignoreHitRecord : Bool)
    (hpar : Vector3.Dot ray.direction plane.normal = 0) :
    HitTest_Plane.ieee negativeZero plane ray hitRecord ignoreHitRecord = (false, hitRecord) := by
  simp only [HitTest_Plane.ieee, FloatValue.divFinite, hpar, ne_eq, not_true_eq_false, if_false]
  by_cases hnum : Vector3.Dot (plane.origin.sub ray.origin) plane.normal = 0
  · simp [hnum, FloatValue.gt, FloatValue.lt]
  · rw [if_neg hnum]
    split_ifs <;> simp_all [FloatValue.gt, FloatValue.lt]

/-- The line-by-line embedding on floats that may be non-finite agrees with
`HitTest_Plane` on every input, for both signs of a zero dot product. -/
theorem HitTest_Plane_ieee_eq (negativeZero : Bool) (plane : Plane K) (ray : Ray K)
    (hitRecord : HitRecord K) (ignoreHitRecord : Bool) :
    HitTest_Plane.ieee negativeZero plane ray hitRecord ignoreHitRecord =
      HitTest_Plane plane ray hitRecord ignoreHitRecord := by
  by_cases hden : Vector3.Dot ray.direction plane.normal = 0
  · rw [HitTest_Plane_ieee_of_parallel negativeZero plane ray hitRecord ignoreHitRecord hden,
      HitTest_Plane_of_parallel plane ray hitRecord ignoreHitRecord hden]
  · simp [HitTest_Plane.ieee, HitTest_Plane, FloatValue.divFinite, hden, FloatValue.gt,
      FloatValue.lt, FloatValue.toFinite]

/-- C12: for a ray with `Dot(ray.direction, plane.normal) = 0`, `HitTest_Plane`
(with the quotient by zero being an infinity or NaN) returns false and leaves
the record unchanged, whatever the sign of the zero and the value of
`ignoreHitRecord`: no hit is reported and no non-finite `t` reaches the record. -/
theorem HitTest_Plane_parallel_miss (negativeZero : Bool) (plane : Plane K) (ray : Ray K)
    (hitRecord : HitRecord K) (ignoreHitRecord : Bool)
    (hpar : Vector3.Dot ray.direction plane.normal = 0) :
    HitTest_Plane.ieee negativeZero plane ray hitRecord ignoreHitRecord = (false, hitRecord) := by
  simp only [HitTest_Plane.ieee, FloatValue.divFinite, hpar, ne_eq, not_true_eq_false, if_false]
  by_cases hnum : Vector3.Dot (plane.origin.sub ray.origin) plane.normal = 0
  · simp [hnum, FloatValue.gt, FloatValue.lt]
  · rw [if_neg hnum]
    split_ifs <;> simp_all [FloatValue.gt, FloatValue.lt]

/-- C12, concrete instance: the ray from `(0,5,0)` with direction `(1,0,0)` is
parallel to the plane `y = 0`: a miss, the fresh record is unchanged. -/
theorem HitTest_Plane_parallel_miss_witness :
    Vector3.Dot parallelPlaneRay.direction scenarioPlane.normal = 0 ∧
    HitTest_Plane.ieee false scenarioPlane parallelPlaneRay (HitRecord.fresh ratNumerics) false =
      (false, HitRecord.fresh ratNumerics) :=
  ⟨by decide!, HitTest_Plane_parallel_miss false scenarioPlane parallelPlaneRay
    (HitRecord.fresh ratNumerics) false (by decide!)⟩

/-! ## The triangle scan of a mesh -/

theorem HitTest_Plane_hit_lt (plane : Plane K) (ray : Ray K) (hitRecord : HitRecord K)
    (h : (HitTest_Plane plane ray hitRecord false).1 = true) :
    (HitTest_Plane plane ray hitRecord false).2.t < hitRecord.t := by
  revert h
  simp only [HitTest_Plane]
  split_ifs with hc <;> simp_all

theorem HitTest_Triangle_eq_tieWins (nm : Numerics K) (triangle : Triangle K) (ray : Ray K)
    (hitRecord : HitRecord K) (ignoreHitRecord : Bool) :
    HitTest_Triangle nm triangle ray hitRecord ignoreHitRecord =
      tieWins (triangleCandidate nm ray ignoreHitRecord triangle) hitRecord := by
  have hlt := HitTest_Plane_hit_lt triangle.supportingPlane ray (HitRecord.fresh nm)
  simp only [tieWins, triangleCandidate, HitTest_Triangle]
  generalize HitTest_Plane triangle.supportingPlane ray (HitRecord.fresh nm) false = planeTest
    at hlt
  by_cases h1 : AreEqual nm (Vector3.Dot triangle.normal ray.direction) 0 = true
  · simp [h1]
  by_cases h2 : HitTest_Triangle.culled
      (HitTest_Triangle.effectiveCullMode triangle.cullMode ignoreHitRecord)
      (Vector3.Dot triangle.normal ray.direction) = true
  · simp [h1, h2]
  by_cases h3 : planeTest.1 = true
  swap
  · simp [h1, h2, h3]
  have hfresh : ¬ planeTest.2.t > (HitRecord.fresh nm).t := not_lt.mpr (le_of_lt (hlt h3))
  by_cases h5 : HitTest_Triangle.outsideEdge triangle.v0 triangle.v1 planeTest.2.origin
      triangle.normal = true
  · simp [h1, h2, h3, h5]
  by_cases h6 : HitTest_Triangle.outsideEdge triangle.v1 triangle.v2 planeTest.2.origin
      triangle.normal = true
  · simp [h1, h2, h3, h5, h6]
  by_cases h7 : HitTest_Triangle.outsideEdge triangle.v2 triangle.v0 planeTest.2.origin
      triangle.normal = true
  · simp [h1, h2, h3, h5, h6, h7]
  by_cases h4 : planeTest.2.t > hitRecord.t
  · have h4' : ¬ planeTest.2.t ≤ hitRecord.t := not_le.mpr h4
    simp only [h1, h2, h3, h5, h6, h7, hfresh, h4, if_true, Bool.not_true, if_false]
    split_ifs <;> simp_all
  · have h4' : planeTest.2.t ≤ hitRecord.t := not_lt.mp h4
    simp only [h1, h2, h3, h5, h6, h7, hfresh, h4, if_true, Bool.not_true, if_false]
    split_ifs <;> simp_all

theorem tieWins_snd (candidate : Bool × HitRecord K) (hitRecord : HitRecord K) :
    (tieWins candidate hitRecord).2 =
      if candidate.1 = true ∧ candidate.2.t ≤ hitRecord.t then candidate.2 else hitRecord := by
  unfold tieWins
  split_ifs <;> rfl

theorem scan_cases (nm : Numerics K) (mesh : TriangleMesh K) (ray : Ray K)
    (ignoreHitRecord : Bool) (l : List Nat) (temp result : HitRecord K)
    (hscan : HitTest_TriangleMesh.scan nm mesh ray ignoreHitRecord l temp = some result) :
    (result = temp ∨ ∃ i ∈ l, ∃ triangle, mesh.triangleAt i = some triangle ∧
        (triangleCandidate nm ray ignoreHitRecord triangle).1 = true ∧
        (triangleCandidate nm ray ignoreHitRecord triangle).2.t ≤ temp.t ∧
        result = (triangleCandidate nm ray ignoreHitRecord triangle).2) ∧
    result.t ≤ temp.t ∧
    (∀ i ∈ l, ∀ triangle, mesh.triangleAt i = some triangle →
        (triangleCandidate nm ray ignoreHitRecord triangle).1 = true →
        result.t ≤ (triangleCandidate nm ray ignoreHitRecord triangle).2.t) := by
  induction l generalizing temp with
  | nil =>
    simp only [HitTest_TriangleMesh.scan] at hscan
    cases hscan
    exact ⟨Or.inl rfl, le_refl _, fun i hi => absurd hi (List.not_mem_nil i)⟩
  | cons i rest ih =>
    cases htri : mesh.triangleAt i with
    | none => simp [HitTest_TriangleMesh.scan, htri] at hscan
    | some triangle =>
      simp only [HitTest_TriangleMesh.scan, htri] at hscan
      rw [HitTest_Triangle_eq_tieWins, tieWins_snd] at hscan
      by_cases hc : (triangleCandidate nm ray ignoreHitRecord triangle).1 = true ∧
          (triangleCandidate nm ray ignoreHitRecord triangle).2.t ≤ temp.t
      · rw [if_pos hc] at hscan
        obtain ⟨hcase, hle, hmin⟩ := ih _ hscan
        refine ⟨?_, le_trans hle hc.2, ?_⟩
        · rcases hcase with heq | ⟨j, hj, tri, hjt, hv, hlt, heq⟩
          · exact Or.inr ⟨i, List.mem_cons_self _ _, triangle, htri, hc.1, hc.2, heq⟩
          · exact Or.inr ⟨j, List.mem_cons_of_mem _ hj, tri, hjt, hv, le_trans hlt hc.2, heq⟩
        · intro j hj tri hjt hv
          rcases List.mem_cons.mp hj with rfl | hj'
          · rw [htri] at hjt
            cases hjt
            exact hle
          · exact hmin j hj' tri hjt hv
      · rw [if_neg hc] at hscan
        obtain ⟨hcase, hle, hmin⟩ := ih _ hscan
        refine ⟨?_, hle, ?_⟩
        · rcases hcase with heq | ⟨j, hj, tri, hjt, hv, hlt, heq⟩
          · exact Or.inl heq
          · exact Or.inr ⟨j, List.mem_cons_of_mem _ hj, tri, hjt, hv, hlt, heq⟩
        · intro j hj tri hjt hv
          rcases List.mem_cons.mp hj with rfl | hj'
          · rw [htri] at hjt
            cases hjt
            exact le_trans hle (le_of_lt (not_le.mp (fun hle' => hc ⟨hv, hle'⟩)))
          · exact hmin j hj' tri hjt hv

theorem triangleCandidate_lt_max (nm : Numerics K) (ray : Ray K) (ignoreHitRecord : Bool)
    (triangle : Triangle K)
    (h : (triangleCandidate nm ray ignoreHitRecord triangle).1 = true) :
    (triangleCandidate nm ray ignoreHitRecord triangle).2.t < nm.FLT_MAX ∧
    (triangleCandidate nm ray ignoreHitRecord triangle).2.IsHitOf ray := by
  obtain ⟨hplane, _, hrec⟩ := HitTest_Triangle_hit nm triangle ray (HitRecord.fresh nm)
    ignoreHitRecord h
  have hlt := HitTest_Plane_hit_lt _ ray (HitRecord.fresh nm) hplane
  have hof := HitTest_Plane_isHitOf _ ray (HitRecord.fresh nm) hplane
  unfold triangleCandidate
  rcases hrec with hrec | hrec
  · rw [hrec]; exact ⟨hlt, hof⟩
  · rw [hrec]; exact ⟨hlt, hof⟩

theorem mesh_adopts_closest_of_slab (nm : Numerics K) (mesh : TriangleMesh K)
    (ray : Ray K) (hitRecord : HitRecord K) (hvalid : mesh.Valid)
    (hslab : SlabTest_TriangleMesh mesh ray = true) :
    ∃ result, HitTest_TriangleMesh nm mesh ray hitRecord false = some result ∧
      (result.1 = true ↔
        ∃ closest, mesh.TriangleHitAlone nm ray closest ∧
          (∀ other, mesh.TriangleHitAlone nm ray other → closest.t ≤ other.t) ∧
          closest.t < hitRecord.t) ∧
      (result.1 = true →
        ∃ closest, mesh.TriangleHitAlone nm ray closest ∧
          (∀ other, mesh.TriangleHitAlone nm ray other → closest.t ≤ other.t) ∧
          result.2 = { closest with materialIndex := mesh.materialIndex } ∧
          result.2.didHit = true) := by
  obtain ⟨temp, htemp⟩ := scan_isSome nm mesh ray false hvalid
    (List.range mesh.transformedNormals.length) (fun i hi => List.mem_range.mp hi)
    (HitRecord.fresh nm)
  obtain ⟨hcase, _, hmin⟩ := scan_cases nm mesh ray false _ _ temp htemp
  have hbound : ∀ other, mesh.TriangleHitAlone nm ray other →
      temp.t ≤ other.t ∧ other.t < nm.FLT_MAX := by
    rintro other ⟨i, tri, hi, htri, hhit⟩
    have hv : (triangleCandidate nm ray false tri).1 = true := by
      unfold triangleCandidate; rw [hhit]
    have h2 : (triangleCandidate nm ray false tri).2 = other := by
      unfold triangleCandidate; rw [hhit]
    have := hmin i (List.mem_range.mpr hi) tri htri hv
    have hlt := (triangleCandidate_lt_max nm ray false tri hv).1
    rw [h2] at this hlt
    exact ⟨this, hlt⟩
  refine ⟨_, HitTest_TriangleMesh_of_scan nm mesh ray hitRecord false temp htemp, ?_⟩
  rcases hcase with heq | ⟨i, hi, tri, htri, hv, _, heq⟩
  · have hnone : ∀ other, ¬ mesh.TriangleHitAlone nm ray other := by
      intro other hother
      have := hbound other hother
      rw [heq] at this
      exact absurd (lt_of_le_of_lt this.1 this.2) (lt_irrefl _)
    have hdid : temp.didHit = false := by rw [heq]; rfl
    have hc : ¬ (SlabTest_TriangleMesh mesh ray = true ∧ temp.didHit = true ∧
        temp.t < hitRecord.t) := by
      rintro ⟨_, h, _⟩
      rw [hdid] at h
      cases h
    rw [if_neg hc]
    refine ⟨⟨fun h => ?_, fun ⟨c, hcl, _⟩ => absurd hcl (hnone c)⟩, fun h => ?_⟩
    · cases h
    · cases h
  · have halone : mesh.TriangleHitAlone nm ray temp :=
      ⟨i, tri, List.mem_range.mp hi, htri, by
        rw [heq]
        exact Prod.ext hv rfl⟩
    have hdid : temp.didHit = true := by
      rw [heq]
      exact (triangleCandidate_lt_max nm ray false tri hv).2.1
    by_cases hlt : temp.t < hitRecord.t
    · rw [if_pos ⟨hslab, hdid, hlt⟩]
      refine ⟨⟨fun _ => ⟨temp, halone, fun other ho => (hbound other ho).1, hlt⟩, fun _ => rfl⟩,
        fun _ => ⟨temp, halone, fun other ho => (hbound other ho).1, ?_, hdid⟩⟩
      simp
    · have hc : ¬ (SlabTest_TriangleMesh mesh ray = true ∧ temp.didHit = true ∧
          temp.t < hitRecord.t) := fun h => hlt h.2.2
      rw [if_neg hc]
      refine ⟨⟨fun h => ?_, ?_⟩, fun h => ?_⟩
      · cases h
      · rintro ⟨c, hcl, _, hclt⟩
        exact absurd (lt_of_le_of_lt (hbound c hcl).1 hclt) hlt
      · cases h

/-! ## Orientation of the reported normal -/

theorem HitTest_Plane_hit_normal (plane : Plane K) (ray : Ray K) (hitRecord : HitRecord K)
    (h : (HitTest_Plane plane ray hitRecord false).1 = true) :
    (HitTest_Plane plane ray hitRecord false).2.normal = plane.normal := by
  revert h
  simp only [HitTest_Plane]
  split_ifs with hc <;> simp_all

theorem HitTest_Triangle_hit_normal (nm : Numerics K) (triangle : Triangle K) (ray : Ray K)
    (hitRecord : HitRecord K) (ignoreHitRecord : Bool)
    (h : (HitTest_Triangle nm triangle ray hitRecord ignoreHitRecord).1 = true) :
    ((HitTest_Triangle nm triangle ray hitRecord ignoreHitRecord).2.normal = triangle.normal ∧
        Vector3.Dot triangle.normal ray.direction ≤ 0) ∨
    ((HitTest_Triangle nm triangle ray hitRecord ignoreHitRecord).2.normal =
        triangle.normal.neg ∧ 0 < Vector3.Dot triangle.normal ray.direction) := by
  have hnormal := HitTest_Plane_hit_normal triangle.supportingPlane ray (HitRecord.fresh nm)
  revert h
  simp only [HitTest_Triangle]
  generalize HitTest_Plane triangle.supportingPlane ray (HitRecord.fresh nm) false = planeTest
    at hnormal
  split_ifs with h1 h2 h3 h4 h5 h6 h7 h8
  · simp
  · simp
  · simp
  · simp
  · simp
  · simp
  · simp
  · intro _
    have hn : planeTest.2.normal = triangle.normal := hnormal (by simpa using h3)
    right
    refine ⟨by simp [hn], ?_⟩
    rw [hn] at h8
    simpa using h8
  · intro _
    have hn : planeTest.2.normal = triangle.normal := hnormal (by simpa using h3)
    left
    refine ⟨hn, ?_⟩
    rw [hn] at h8
    simpa using h8

theorem sqrMagnitude_neg (a : Vector3 K) : a.neg.SqrMagnitude = a.SqrMagnitude := by
  simp [Vector3.neg, Vector3.SqrMagnitude]

theorem dot_neg_left (a b : Vector3 K) : Vector3.Dot a.neg b = -Vector3.Dot a b := by
  simp only [Vector3.neg, Vector3.Dot]
  ring

theorem HitTest_Triangle_normal_faces_ray (nm : Numerics K) (triangle : Triangle K) (ray : Ray K)
    (hitRecord : HitRecord K) (ignoreHitRecord : Bool)
    (h : (HitTest_Triangle nm triangle ray hitRecord ignoreHitRecord).1 = true) :
    (HitTest_Triangle nm triangle ray hitRecord ignoreHitRecord).2.normal.SqrMagnitude =
        triangle.normal.SqrMagnitude ∧
    Vector3.Dot (HitTest_Triangle nm triangle ray hitRecord ignoreHitRecord).2.normal
        ray.direction ≤ 0 := by
  rcases HitTest_Triangle_hit_normal nm triangle ray hitRecord ignoreHitRecord h with
    ⟨hn, hd⟩ | ⟨hn, hd⟩
  · rw [hn]; exact ⟨rfl, hd⟩
  · rw [hn, sqrMagnitude_neg, dot_neg_left]
    exact ⟨rfl, by linarith⟩

omit [LinearOrderedField K] in
theorem triangleAt_eq_some (mesh : TriangleMesh K) (i : Nat) (triangle : Triangle K)
    (h : mesh.triangleAt i = some triangle) :
    ∃ i0 i1 i2, mesh.indices[i * 3]? = some i0 ∧ mesh.indices[i * 3 + 1]? = some i1 ∧
      mesh.indices[i * 3 + 2]? = some i2 ∧
      mesh.transformedNormals[i]? = some triangle.normal ∧
      mesh.positionAt i0 = some triangle.v0 ∧ mesh.positionAt i1 = some triangle.v1 ∧
      mesh.positionAt i2 = some triangle.v2 ∧ triangle.cullMode = mesh.cullMode := by
  dsimp only [TriangleMesh.triangleAt] at h
  split at h
  · next i0 i1 i2 normal h0 h1 h2 hn =>
    split at h
    · next v0 v1 v2 hv0 hv1 hv2 =>
      cases h
      exact ⟨i0, i1, i2, h0, h1, h2, hn, hv0, hv1, hv2, rfl⟩
    · cases h
  · cases h

omit [LinearOrderedField K] in
theorem triangleAt_normal_mem (mesh : TriangleMesh K) (i : Nat) (triangle : Triangle K)
    (h : mesh.triangleAt i = some triangle) : triangle.normal ∈ mesh.transformedNormals := by
  obtain ⟨_, _, _, _, _, _, hn, _⟩ := triangleAt_eq_some mesh i triangle h
  exact List.getElem?_mem hn

theorem HitTest_Sphere_hit_cases (nm : Numerics K) (sphere : Sphere K) (ray : Ray K)
    (hitRecord : HitRecord K) (tAdjacent tDelta : K)
    (htA : tAdjacent = Vector3.Dot (sphere.origin.sub ray.origin) ray.direction)
    (htD : tDelta = nm.sqrt (sphereDiscriminant sphere ray)) (hD0 : 0 ≤ tDelta)
    (h : (HitTest_Sphere nm sphere ray hitRecord false).1 = true) :
    ((ray.min < tAdjacent - tDelta ∧ (HitTest_Sphere nm sphere ray hitRecord false).2.t =
        tAdjacent - tDelta) ∨
      (¬ ray.min < tAdjacent - tDelta ∧ (HitTest_Sphere nm sphere ray hitRecord false).2.t =
        tAdjacent + tDelta)) ∧
    (HitTest_Sphere nm sphere ray hitRecord false).2.normal =
      ((ray.origin.add (ray.direction.scale
        (HitTest_Sphere nm sphere ray hitRecord false).2.t)).sub sphere.origin).Normalized nm := by
  have hcode : HitTest_Sphere nm sphere ray hitRecord false =
      if tAdjacent - tDelta > ray.min ∧ tAdjacent - tDelta < ray.max then
        HitTest_Sphere.commit nm sphere ray hitRecord false (tAdjacent - tDelta)
      else if tAdjacent + tDelta < ray.min ∨ tAdjacent - tDelta > ray.max then (false, hitRecord)
      else HitTest_Sphere.commit nm sphere ray hitRecord false (tAdjacent + tDelta) := by
    subst htA htD
    exact HitTest_Sphere_of_nonneg nm sphere ray hitRecord false
      (HitTest_Sphere_hit_nonneg nm sphere ray hitRecord false h)
  rw [hcode] at h ⊢
  simp only [HitTest_Sphere_commit_closest] at h ⊢
  by_cases h0 : tAdjacent - tDelta > ray.min ∧ tAdjacent - tDelta < ray.max
  · rw [if_pos h0] at h ⊢
    by_cases hc : ray.min < tAdjacent - tDelta ∧ tAdjacent - tDelta < ray.max ∧
        tAdjacent - tDelta < hitRecord.t
    · rw [if_pos hc]
      exact ⟨Or.inl ⟨hc.1, rfl⟩, rfl⟩
    · rw [if_neg hc] at h
      cases h
  · rw [if_neg h0] at h ⊢
    by_cases h1 : tAdjacent + tDelta < ray.min ∨ tAdjacent - tDelta > ray.max
    · rw [if_pos h1] at h
      cases h
    · rw [if_neg h1] at h ⊢
      by_cases hc : ray.min < tAdjacent + tDelta ∧ tAdjacent + tDelta < ray.max ∧
          tAdjacent + tDelta < hitRecord.t
      · rw [if_pos hc]
        refine ⟨Or.inr ⟨fun hmin => ?_, rfl⟩, rfl⟩
        have hmax : ¬ tAdjacent - tDelta < ray.max := fun hlt => h0 ⟨hmin, hlt⟩
        have := hc.2.1
        linarith [not_lt.mp hmax]
      · rw [if_neg hc] at h
        cases h

theorem sqrMagnitude_divide (a : Vector3 K) (s : K) :
    (a.divide s).SqrMagnitude = a.SqrMagnitude / (s * s) := by
  simp only [Vector3.divide, Vector3.SqrMagnitude]
  by_cases hs : s = 0
  · simp [hs]
  · field_simp

theorem dot_divide_left (a b : Vector3 K) (s : K) :
    Vector3.Dot (a.divide s) b = Vector3.Dot a b / s := by
  simp only [Vector3.divide, Vector3.Dot]
  ring

theorem dot_hitPoint (o d c : Vector3 K) (t : K) :
    Vector3.Dot ((o.add (d.scale t)).sub c) d = t * d.SqrMagnitude - Vector3.Dot (c.sub o) d := by
  simp only [Vector3.Dot, Vector3.add, Vector3.sub, Vector3.scale, Vector3.SqrMagnitude]
  ring

theorem HitTest_Sphere_normal (nm : Numerics K) (sphere : Sphere K) (ray : Ray K)
    (hitRecord : HitRecord K) (hr : 0 < sphere.radius) (hd : ray.direction.SqrMagnitude = 1)
    (hs0 : 0 ≤ nm.sqrt (sphereDiscriminant sphere ray))
    (hsq : nm.sqrt (sphereDiscriminant sphere ray) * nm.sqrt (sphereDiscriminant sphere ray) =
      sphereDiscriminant sphere ray)
    (hsr : nm.sqrt (Square sphere.radius) = sphere.radius)
    (h : (HitTest_Sphere nm sphere ray hitRecord false).1 = true) :
    (HitTest_Sphere nm sphere ray hitRecord false).2.normal.SqrMagnitude = 1 ∧
    (ray.min < Vector3.Dot (sphere.origin.sub ray.origin) ray.direction -
        nm.sqrt (sphereDiscriminant sphere ray) →
      Vector3.Dot (HitTest_Sphere nm sphere ray hitRecord false).2.normal ray.direction ≤ 0) ∧
    (¬ ray.min < Vector3.Dot (sphere.origin.sub ray.origin) ray.direction -
        nm.sqrt (sphereDiscriminant sphere ray) →
      0 ≤ Vector3.Dot (HitTest_Sphere nm sphere ray hitRecord false).2.normal ray.direction) := by
  obtain ⟨hcases, hnormal⟩ := HitTest_Sphere_hit_cases nm sphere ray hitRecord _ _ rfl rfl hs0 h
  have hroot : OnSphere sphere ray (HitTest_Sphere nm sphere ray hitRecord false).2.t := by
    rw [onSphere_iff_root nm sphere ray _ hd hsq]
    rcases hcases with ⟨_, ht⟩ | ⟨_, ht⟩
    · exact Or.inl ht
    · exact Or.inr ht
  have hmag : ((ray.origin.add (ray.direction.scale
      (HitTest_Sphere nm sphere ray hitRecord false).2.t)).sub sphere.origin).Magnitude nm =
      sphere.radius := by
    unfold Vector3.Magnitude
    rw [show ((ray.origin.add (ray.direction.scale
      (HitTest_Sphere nm sphere ray hitRecord false).2.t)).sub sphere.origin).SqrMagnitude =
      Square sphere.radius from hroot, hsr]
  have hdot : Vector3.Dot (HitTest_Sphere nm sphere ray hitRecord false).2.normal ray.direction =
      ((HitTest_Sphere nm sphere ray hitRecord false).2.t -
        Vector3.Dot (sphere.origin.sub ray.origin) ray.direction) / sphere.radius := by
    rw [hnormal]
    unfold Vector3.Normalized
    rw [hmag, dot_divide_left, dot_hitPoint, hd, mul_one]
  refine ⟨?_, ?_, ?_⟩
  · rw [hnormal]
    unfold Vector3.Normalized
    rw [hmag, sqrMagnitude_divide,
      show ((ray.origin.add (ray.direction.scale
        (HitTest_Sphere nm sphere ray hitRecord false).2.t)).sub sphere.origin).SqrMagnitude =
        Square sphere.radius from hroot]
    simp only [Square]
    exact div_self (ne_of_gt (mul_pos hr hr))
  · intro hmin
    rw [hdot]
    rcases hcases with ⟨_, ht⟩ | ⟨hn, _⟩
    · rw [ht]
      apply div_nonpos_of_nonpos_of_nonneg _ (le_of_lt hr)
      linarith
    · exact absurd hmin hn
  · intro hmin
    rw [hdot]
    rcases hcases with ⟨hn, _⟩ | ⟨_, ht⟩
    · exact absurd hn hmin
    · rw [ht]
      apply div_nonneg _ (le_of_lt hr)
      linarith

/-- C15, as the specification states it, fails: the scenario plane (unit
normal `(0,1,0)`) hit from below by a ray with unit direction `(0,1,0)`
reports the normal `(0,1,0)`, and the unit sphere hit from its centre by a ray
with unit direction `(0,0,1)` reports the normal `(0,0,1)`: both have
`Dot(normal, direction) = 1 > 0`. -/
theorem hit_normal_can_face_away :
    scenarioPlane.normal.SqrMagnitude = 1 ∧ rayFromBelowPlane.direction.SqrMagnitude = 1 ∧
    (HitTest_Plane scenarioPlane rayFromBelowPlane (HitRecord.fresh ratNumerics) false).1 = true ∧
    ¬ Vector3.Dot (HitTest_Plane scenarioPlane rayFromBelowPlane (HitRecord.fresh ratNumerics)
        false).2.normal rayFromBelowPlane.direction ≤ 0 ∧
    0 < scenarioSphere.radius ∧ rayFromSphereCentre.direction.SqrMagnitude = 1 ∧
    (HitTest_Sphere ratNumerics scenarioSphere rayFromSphereCentre (HitRecord.fresh ratNumerics)
        false).1 = true ∧
    ¬ Vector3.Dot (HitTest_Sphere ratNumerics scenarioSphere rayFromSphereCentre
        (HitRecord.fresh ratNumerics) false).2.normal rayFromSphereCentre.direction ≤ 0 := by
  decide!

/-- C15 (amended): when a closest-hit test returns true the reported normal is
a unit vector (for a unit triangle, mesh or plane normal; for a sphere with
radius `> 0`, a unit ray direction and an exact square root). It faces the
incoming ray, `Dot(normal, direction) ≤ 0`, for `HitTest_Triangle` and
`HitTest_TriangleMesh`. For `HitTest_Plane` it is the plane's normal, so it
faces the ray exactly when `Dot(plane.normal, direction) ≤ 0`. For
`HitTest_Sphere` it is the outward normal: it faces the ray when the near root
lies beyond `ray.min` and points along the ray (`Dot ≥ 0`) otherwise. -/
theorem hit_normal_orientation (nm : Numerics K) (ray : Ray K) (hitRecord : HitRecord K) :
    (∀ triangle : Triangle K, triangle.normal.SqrMagnitude = 1 →
      (HitTest_Triangle nm triangle ray hitRecord false).1 = true →
      (HitTest_Triangle nm triangle ray hitRecord false).2.normal.SqrMagnitude = 1 ∧
      Vector3.Dot (HitTest_Triangle nm triangle ray hitRecord false).2.normal
        ray.direction ≤ 0) ∧
    (∀ mesh : TriangleMesh K, mesh.Valid →
      (∀ normal ∈ mesh.transformedNormals, normal.SqrMagnitude = 1) →
      ∃ result, HitTest_TriangleMesh nm mesh ray hitRecord false = some result ∧
        (result.1 = true → result.2.normal.SqrMagnitude = 1 ∧
          Vector3.Dot result.2.normal ray.direction ≤ 0)) ∧
    (∀ plane : Plane K, plane.normal.SqrMagnitude = 1 →
      (HitTest_Plane plane ray hitRecord false).1 = true →
      (HitTest_Plane plane ray hitRecord false).2.normal = plane.normal ∧
      (HitTest_Plane plane ray hitRecord false).2.normal.SqrMagnitude = 1 ∧
      (Vector3.Dot (HitTest_Plane plane ray hitRecord false).2.normal ray.direction ≤ 0 ↔
        Vector3.Dot plane.normal ray.direction ≤ 0)) ∧
    (∀ sphere : Sphere K, 0 < sphere.radius → ray.direction.SqrMagnitude = 1 →
      0 ≤ nm.sqrt (sphereDiscriminant sphere ray) →
      nm.sqrt (sphereDiscriminant sphere ray) * nm.sqrt (sphereDiscriminant sphere ray) =
        sphereDiscriminant sphere ray →
      nm.sqrt (Square sphere.radius) = sphere.radius →
      (HitTest_Sphere nm sphere ray hitRecord false).1 = true →
      (HitTest_Sphere nm sphere ray hitRecord false).2.normal.SqrMagnitude = 1 ∧
      (ray.min < Vector3.Dot (sphere.origin.sub ray.origin) ray.direction -
          nm.sqrt (sphereDiscriminant sphere ray) →
        Vector3.Dot (HitTest_Sphere nm sphere ray hitRecord false).2.normal ray.direction ≤ 0) ∧
      (¬ ray.min < Vector3.Dot (sphere.origin.sub ray.origin) ray.direction -
          nm.sqrt (sphereDiscriminant sphere ray) →
        0 ≤ Vector3.Dot (HitTest_Sphere nm sphere ray hitRecord false).2.normal
          ray.direction)) := by
  refine ⟨fun triangle hunit hhit => ?_, fun mesh hvalid hunit => ?_, fun plane hunit hhit => ?_,
    fun sphere hr hd hs0 hsq hsr hhit =>
      HitTest_Sphere_normal nm sphere ray hitRecord hr hd hs0 hsq hsr hhit⟩
  · have := HitTest_Triangle_normal_faces_ray nm triangle ray hitRecord false hhit
    exact ⟨this.1.trans hunit, this.2⟩
  · obtain ⟨temp, htemp⟩ := scan_isSome nm mesh ray false hvalid
      (List.range mesh.transformedNormals.length) (fun i hi => List.mem_range.mp hi)
      (HitRecord.fresh nm)
    obtain ⟨hcase, _, _⟩ := scan_cases nm mesh ray false _ _ temp htemp
    refine ⟨_, HitTest_TriangleMesh_of_scan nm mesh ray hitRecord false temp htemp, ?_⟩
    by_cases hc : SlabTest_TriangleMesh mesh ray = true ∧ temp.didHit = true ∧
        temp.t < hitRecord.t
    · rw [if_pos hc]
      intro _
      rcases hcase with heq | ⟨i, _, tri, htri, hv, _, heq⟩
      · have hdid := hc.2.1
        rw [heq] at hdid
        cases hdid
      · have := HitTest_Triangle_normal_faces_ray nm tri ray (HitRecord.fresh nm) false hv
        have hn : temp.normal = (HitTest_Triangle nm tri ray (HitRecord.fresh nm) false).2.normal := by
          rw [heq]; rfl
        simp only [Bool.false_eq_true, if_false]
        rw [hn]
        exact ⟨this.1.trans (hunit _ (triangleAt_normal_mem mesh i tri htri)), this.2⟩
    · rw [if_neg hc]
      intro h
      cases h
  · have hn := HitTest_Plane_hit_normal plane ray hitRecord hhit
    rw [hn]
    exact ⟨rfl, hunit, Iff.rfl⟩

/-- C15 (amended), concrete instance: the scenario triangle without culling,
hit on its back by the ray from `(0,0.3,-5)`, reports the flipped unit normal
`(0,0,-1)`, which faces the ray. -/
theorem hit_normal_orientation_witness :
    (HitTest_Triangle ratNumerics (scenarioTriangle TriangleCullMode.NoCulling)
      scenarioRayFromNegZ (HitRecord.fresh ratNumerics) false).2.normal = ⟨0, 0, -1⟩ ∧
    Vector3.Dot (HitTest_Triangle ratNumerics (scenarioTriangle TriangleCullMode.NoCulling)
      scenarioRayFromNegZ (HitRecord.fresh ratNumerics) false).2.normal
      scenarioRayFromNegZ.direction ≤ 0 :=
  ⟨by decide!, ((hit_normal_orientation ratNumerics scenarioRayFromNegZ
    (HitRecord.fresh ratNumerics)).1 (scenarioTriangle TriangleCullMode.NoCulling)
    (by decide!) (by decide!)).2⟩

/-! ## The slab pretest -/

theorem slab_axis (lo hi o d t : K) (hd : d ≠ 0) (hlo : lo ≤ o + d * t) (hhi : o + d * t ≤ hi) :
    min ((lo - o) / d) ((hi - o) / d) ≤ t ∧ t ≤ max ((lo - o) / d) ((hi - o) / d) := by
  rcases lt_or_gt_of_ne hd with hneg | hpos
  · have h1 : (hi - o) / d ≤ t := by
      rw [div_le_iff_of_neg hneg]
      linarith
    have h2 : t ≤ (lo - o) / d := by
      rw [le_div_iff_of_neg hneg]
      linarith
    exact ⟨le_trans (min_le_right _ _) h1, le_trans h2 (le_max_left _ _)⟩
  · have h1 : (lo - o) / d ≤ t := by
      rw [div_le_iff₀ hpos]
      linarith
    have h2 : t ≤ (hi - o) / d := by
      rw [le_div_iff₀ hpos]
      linarith
    exact ⟨le_trans (min_le_left _ _) h1, le_trans h2 (le_max_right _ _)⟩

theorem SlabTest_of_point_in_box (mesh : TriangleMesh K) (ray : Ray K) (t : K) (ht : 0 < t)
    (hx : ray.direction.x ≠ 0) (hy : ray.direction.y ≠ 0) (hz : ray.direction.z ≠ 0)
    (hbx : mesh.transformedMinAABB.x ≤ (ray.origin.add (ray.direction.scale t)).x ∧
      (ray.origin.add (ray.direction.scale t)).x ≤ mesh.transformedMaxAABB.x)
    (hby : mesh.transformedMinAABB.y ≤ (ray.origin.add (ray.direction.scale t)).y ∧
      (ray.origin.add (ray.direction.scale t)).y ≤ mesh.transformedMaxAABB.y)
    (hbz : mesh.transformedMinAABB.z ≤ (ray.origin.add (ray.direction.scale t)).z ∧
      (ray.origin.add (ray.direction.scale t)).z ≤ mesh.transformedMaxAABB.z) :
    SlabTest_TriangleMesh mesh ray = true := by
  simp only [Vector3.add, Vector3.scale] at hbx hby hbz
  obtain ⟨hx1, hx2⟩ := slab_axis _ _ _ _ t hx hbx.1 hbx.2
  obtain ⟨hy1, hy2⟩ := slab_axis _ _ _ _ t hy hby.1 hby.2
  obtain ⟨hz1, hz2⟩ := slab_axis _ _ _ _ t hz hbz.1 hbz.2
  rw [SlabTest_TriangleMesh_eq_exact mesh ray hx hy hz]
  simp only [SlabTest_TriangleMesh.exact, decide_eq_true_eq]
  have hmin : max (max (min ((mesh.transformedMinAABB.x - ray.origin.x) / ray.direction.x)
      ((mesh.transformedMaxAABB.x - ray.origin.x) / ray.direction.x))
      (min ((mesh.transformedMinAABB.y - ray.origin.y) / ray.direction.y)
      ((mesh.transformedMaxAABB.y - ray.origin.y) / ray.direction.y)))
      (min ((mesh.transformedMinAABB.z - ray.origin.z) / ray.direction.z)
      ((mesh.transformedMaxAABB.z - ray.origin.z) / ray.direction.z)) ≤ t :=
    max_le (max_le hx1 hy1) hz1
  have hmax : t ≤ min (min (max ((mesh.transformedMinAABB.x - ray.origin.x) / ray.direction.x)
      ((mesh.transformedMaxAABB.x - ray.origin.x) / ray.direction.x))
      (max ((mesh.transformedMinAABB.y - ray.origin.y) / ray.direction.y)
      ((mesh.transformedMaxAABB.y - ray.origin.y) / ray.direction.y)))
      (max ((mesh.transformedMinAABB.z - ray.origin.z) / ray.direction.z)
      ((mesh.transformedMaxAABB.z - ray.origin.z) / ray.direction.z)) :=
    le_min (le_min hx2 hy2) hz2
  exact ⟨lt_of_lt_of_le ht hmax, le_trans hmin hmax⟩

theorem dot_scale_right (a b : Vector3 K) (c : K) :
    Vector3.Dot a (b.scale c) = c * Vector3.Dot a b := by
  simp only [Vector3.Dot, Vector3.scale]
  ring

theorem winding_decomposition (e1 e2 q : Vector3 K) :
    (Vector3.Cross e1 e2).SqrMagnitude * q.x =
        Vector3.Dot (Vector3.Cross q e2) (Vector3.Cross e1 e2) * e1.x +
        Vector3.Dot (Vector3.Cross e1 q) (Vector3.Cross e1 e2) * e2.x +
        Vector3.Dot q (Vector3.Cross e1 e2) * (Vector3.Cross e1 e2).x ∧
    (Vector3.Cross e1 e2).SqrMagnitude * q.y =
        Vector3.Dot (Vector3.Cross q e2) (Vector3.Cross e1 e2) * e1.y +
        Vector3.Dot (Vector3.Cross e1 q) (Vector3.Cross e1 e2) * e2.y +
        Vector3.Dot q (Vector3.Cross e1 e2) * (Vector3.Cross e1 e2).y ∧
    (Vector3.Cross e1 e2).SqrMagnitude * q.z =
        Vector3.Dot (Vector3.Cross q e2) (Vector3.Cross e1 e2) * e1.z +
        Vector3.Dot (Vector3.Cross e1 q) (Vector3.Cross e1 e2) * e2.z +
        Vector3.Dot q (Vector3.Cross e1 e2) * (Vector3.Cross e1 e2).z := by
  simp only [Vector3.Dot, Vector3.Cross, Vector3.SqrMagnitude]
  refine ⟨by ring, by ring, by ring⟩

theorem edge_identities (v0 v1 v2 p : Vector3 K) :
    Vector3.Dot (Vector3.Cross (v2.sub v1) (p.sub v1))
        (Vector3.Cross (v1.sub v0) (v2.sub v0)) =
      (Vector3.Cross (v1.sub v0) (v2.sub v0)).SqrMagnitude -
        Vector3.Dot (Vector3.Cross (p.sub v0) (v2.sub v0))
          (Vector3.Cross (v1.sub v0) (v2.sub v0)) -
        Vector3.Dot (Vector3.Cross (v1.sub v0) (p.sub v0))
          (Vector3.Cross (v1.sub v0) (v2.sub v0)) ∧
    Vector3.Dot (Vector3.Cross (v0.sub v2) (p.sub v2))
        (Vector3.Cross (v1.sub v0) (v2.sub v0)) =
      Vector3.Dot (Vector3.Cross (p.sub v0) (v2.sub v0))
        (Vector3.Cross (v1.sub v0) (v2.sub v0)) := by
  simp only [Vector3.Dot, Vector3.Cross, Vector3.SqrMagnitude, Vector3.sub]
  refine ⟨by ring, by ring⟩

theorem convex_coordinate (s a b lo hi p x0 x1 x2 : K) (hs : 0 < s) (ha : 0 ≤ a)
    (hb : 0 ≤ b) (hab : 0 ≤ s - a - b) (hq : s * (p - x0) = a * (x1 - x0) + b * (x2 - x0))
    (h0 : lo ≤ x0 ∧ x0 ≤ hi) (h1 : lo ≤ x1 ∧ x1 ≤ hi) (h2 : lo ≤ x2 ∧ x2 ≤ hi) :
    lo ≤ p ∧ p ≤ hi := by
  have hlo : 0 ≤ s * (p - lo) := by
    have : s * (p - lo) = (s - a - b) * (x0 - lo) + a * (x1 - lo) + b * (x2 - lo) := by
      linear_combination hq
    rw [this]
    exact add_nonneg (add_nonneg (mul_nonneg hab (sub_nonneg.mpr h0.1))
      (mul_nonneg ha (sub_nonneg.mpr h1.1))) (mul_nonneg hb (sub_nonneg.mpr h2.1))
  have hhi : 0 ≤ s * (hi - p) := by
    have : s * (hi - p) = (s - a - b) * (hi - x0) + a * (hi - x1) + b * (hi - x2) := by
      linear_combination -hq
    rw [this]
    exact add_nonneg (add_nonneg (mul_nonneg hab (sub_nonneg.mpr h0.2))
      (mul_nonneg ha (sub_nonneg.mpr h1.2))) (mul_nonneg hb (sub_nonneg.mpr h2.2))
  exact ⟨sub_nonneg.mp (nonneg_of_mul_nonneg_right hlo hs),
    sub_nonneg.mp (nonneg_of_mul_nonneg_right hhi hs)⟩

theorem sqrMagnitude_nonneg (a : Vector3 K) : 0 ≤ a.SqrMagnitude := by
  simp only [Vector3.SqrMagnitude]
  nlinarith [mul_self_nonneg a.x, mul_self_nonneg a.y, mul_self_nonneg a.z]

theorem inside_triangle_in_box (v0 v1 v2 p n lo hi : Vector3 K) (c : K) (hc : 0 < c)
    (hn : n = (Vector3.Cross (v1.sub v0) (v2.sub v0)).scale c)
    (hN : (Vector3.Cross (v1.sub v0) (v2.sub v0)).SqrMagnitude ≠ 0)
    (hplane : Vector3.Dot (p.sub v0) n = 0)
    (h1 : ¬ HitTest_Triangle.outsideEdge v0 v1 p n = true)
    (h2 : ¬ HitTest_Triangle.outsideEdge v1 v2 p n = true)
    (h3 : ¬ HitTest_Triangle.outsideEdge v2 v0 p n = true)
    (hv0 : (lo.x ≤ v0.x ∧ v0.x ≤ hi.x) ∧ (lo.y ≤ v0.y ∧ v0.y ≤ hi.y) ∧ (lo.z ≤ v0.z ∧ v0.z ≤ hi.z))
    (hv1 : (lo.x ≤ v1.x ∧ v1.x ≤ hi.x) ∧ (lo.y ≤ v1.y ∧ v1.y ≤ hi.y) ∧ (lo.z ≤ v1.z ∧ v1.z ≤ hi.z))
    (hv2 : (lo.x ≤ v2.x ∧ v2.x ≤ hi.x) ∧ (lo.y ≤ v2.y ∧ v2.y ≤ hi.y) ∧
      (lo.z ≤ v2.z ∧ v2.z ≤ hi.z)) :
    (lo.x ≤ p.x ∧ p.x ≤ hi.x) ∧ (lo.y ≤ p.y ∧ p.y ≤ hi.y) ∧ (lo.z ≤ p.z ∧ p.z ≤ hi.z) := by
  have hS : 0 < (Vector3.Cross (v1.sub v0) (v2.sub v0)).SqrMagnitude :=
    lt_of_le_of_ne (sqrMagnitude_nonneg _) (Ne.symm hN)
  obtain ⟨hid2, hid3⟩ := edge_identities v0 v1 v2 p
  obtain ⟨hdx, hdy, hdz⟩ := winding_decomposition (v1.sub v0) (v2.sub v0) (p.sub v0)
  simp only [HitTest_Triangle.outsideEdge, decide_eq_true_eq, not_lt] at h1 h2 h3
  rw [hn, dot_scale_right] at hplane h1 h2 h3
  have hQN : Vector3.Dot (p.sub v0) (Vector3.Cross (v1.sub v0) (v2.sub v0)) = 0 := by
    rcases mul_eq_zero.mp hplane with h | h
    · exact absurd h (ne_of_gt hc)
    · exact h
  have hB : 0 ≤ Vector3.Dot (Vector3.Cross (v1.sub v0) (p.sub v0))
      (Vector3.Cross (v1.sub v0) (v2.sub v0)) := nonneg_of_mul_nonneg_right h1 hc
  have hAB := nonneg_of_mul_nonneg_right h2 hc
  rw [hid2] at hAB
  have hA := nonneg_of_mul_nonneg_right h3 hc
  rw [hid3] at hA
  rw [hQN, zero_mul, add_zero] at hdx hdy hdz
  simp only [Vector3.sub] at hdx hdy hdz
  exact ⟨convex_coordinate _ _ _ _ _ _ _ _ _ hS hA hB hAB hdx hv0.1 hv1.1 hv2.1,
    convex_coordinate _ _ _ _ _ _ _ _ _ hS hA hB hAB hdy hv0.2.1 hv1.2.1 hv2.2.1,
    convex_coordinate _ _ _ _ _ _ _ _ _ hS hA hB hAB hdz hv0.2.2 hv1.2.2 hv2.2.2⟩

theorem HitTest_Triangle_hit_inside (nm : Numerics K) (triangle : Triangle K) (ray : Ray K)
    (hitRecord : HitRecord K) (ignoreHitRecord : Bool)
    (hhit : (HitTest_Triangle nm triangle ray hitRecord ignoreHitRecord).1 = true) :
    (HitTest_Plane triangle.supportingPlane ray (HitRecord.fresh nm) false).1 = true ∧
    ¬ HitTest_Triangle.outsideEdge triangle.v0 triangle.v1
      (HitTest_Plane triangle.supportingPlane ray (HitRecord.fresh nm) false).2.origin
      triangle.normal = true ∧
    ¬ HitTest_Triangle.outsideEdge triangle.v1 triangle.v2
      (HitTest_Plane triangle.supportingPlane ray (HitRecord.fresh nm) false).2.origin
      triangle.normal = true ∧
    ¬ HitTest_Triangle.outsideEdge triangle.v2 triangle.v0
      (HitTest_Plane triangle.supportingPlane ray (HitRecord.fresh nm) false).2.origin
      triangle.normal = true := by
  revert hhit
  simp only [HitTest_Triangle]
  generalize HitTest_Plane triangle.supportingPlane ray (HitRecord.fresh nm) false = planeTest
  split_ifs with h1 h2 h3 h4 h5 h6 h7 h8
  · simp
  · simp
  · simp
  · simp
  · simp
  · simp
  · simp
  · intro _
    exact ⟨by simpa using h3, h5, h6, h7⟩
  · intro _
    exact ⟨by simpa using h3, h5, h6, h7⟩

theorem HitTest_Plane_hit_t (plane : Plane K) (ray : Ray K) (hitRecord : HitRecord K)
    (h : (HitTest_Plane plane ray hitRecord false).1 = true) :
    (HitTest_Plane plane ray hitRecord false).2.t =
      Vector3.Dot (plane.origin.sub ray.origin) plane.normal /
        Vector3.Dot ray.direction plane.normal := by
  revert h
  simp only [HitTest_Plane]
  split_ifs with hc <;> simp_all

theorem point_on_plane (o d p n : Vector3 K) (t : K) (hden : Vector3.Dot d n ≠ 0)
    (ht : t = Vector3.Dot (p.sub o) n / Vector3.Dot d n) :
    Vector3.Dot ((o.add (d.scale t)).sub p) n = 0 := by
  have hmul : t * Vector3.Dot d n = Vector3.Dot (p.sub o) n := by
    rw [ht]
    exact div_mul_cancel₀ _ hden
  simp only [Vector3.Dot, Vector3.add, Vector3.sub, Vector3.scale] at hmul ⊢
  linear_combination hmul

theorem sqrMagnitude_eq_zero (a : Vector3 K) (h : a.SqrMagnitude = 0) :
    a.x = 0 ∧ a.y = 0 ∧ a.z = 0 := by
  simp only [Vector3.SqrMagnitude] at h
  have hx := mul_self_nonneg a.x
  have hy := mul_self_nonneg a.y
  have hz := mul_self_nonneg a.z
  exact ⟨mul_self_eq_zero.mp (by linarith), mul_self_eq_zero.mp (by linarith),
    mul_self_eq_zero.mp (by linarith)⟩

omit [LinearOrderedField K] in
theorem positionAt_mem (mesh : TriangleMesh K) (i : Int) (v : Vector3 K)
    (h : mesh.positionAt i = some v) : v ∈ mesh.transformedPositions := by
  unfold TriangleMesh.positionAt at h
  split_ifs at h
  exact List.getElem?_mem h

theorem triangle_hit_passes_slab (nm : Numerics K) (mesh : TriangleMesh K) (ray : Ray K)
    (i : Nat) (triangle : Triangle K) (hitRecord : HitRecord K) (ignoreHitRecord : Bool)
    (htri : mesh.triangleAt i = some triangle) (hbox : mesh.BoxContainsVertices)
    (hnormals : mesh.HasWindingNormals) (hmin : 0 ≤ ray.min)
    (hx : ray.direction.x ≠ 0) (hy : ray.direction.y ≠ 0) (hz : ray.direction.z ≠ 0)
    (hhit : (HitTest_Triangle nm triangle ray hitRecord ignoreHitRecord).1 = true) :
    SlabTest_TriangleMesh mesh ray = true := by
  obtain ⟨hplane, he1, he2, he3⟩ := HitTest_Triangle_hit_inside nm triangle ray hitRecord
    ignoreHitRecord hhit
  obtain ⟨_, htmin, _, horigin⟩ := HitTest_Plane_isHitOf _ ray (HitRecord.fresh nm) hplane
  have ht := HitTest_Plane_hit_t _ ray (HitRecord.fresh nm) hplane
  obtain ⟨c, hc, hn⟩ := hnormals i triangle htri
  obtain ⟨i0, i1, i2, _, _, _, _, hv0, hv1, hv2, _⟩ := triangleAt_eq_some mesh i triangle htri
  generalize (HitTest_Plane triangle.supportingPlane ray (HitRecord.fresh nm) false).2 = temp
    at he1 he2 he3 htmin horigin ht
  have hpos : 0 < temp.t := lt_of_le_of_lt hmin htmin
  have hden : Vector3.Dot ray.direction triangle.normal ≠ 0 := by
    intro h0
    have : temp.t = 0 := by
      rw [ht]
      show _ / Vector3.Dot ray.direction triangle.normal = 0
      rw [h0, div_zero]
    exact absurd hpos (by rw [this]; exact lt_irrefl _)
  have hN : (Vector3.Cross (triangle.v1.sub triangle.v0)
      (triangle.v2.sub triangle.v0)).SqrMagnitude ≠ 0 := by
    intro h0
    obtain ⟨h1, h2, h3⟩ := sqrMagnitude_eq_zero _ h0
    apply hden
    rw [hn, dot_scale_right]
    simp only [Vector3.Dot, h1, h2, h3]
    ring
  have hon : Vector3.Dot (temp.origin.sub triangle.v0) triangle.normal = 0 := by
    rw [horigin]
    exact point_on_plane ray.origin ray.direction triangle.v0 triangle.normal temp.t hden ht
  have hin := inside_triangle_in_box triangle.v0 triangle.v1 triangle.v2 temp.origin
    triangle.normal mesh.transformedMinAABB mesh.transformedMaxAABB c hc hn hN hon he1 he2 he3
    (hbox _ (positionAt_mem mesh i0 _ hv0)) (hbox _ (positionAt_mem mesh i1 _ hv1))
    (hbox _ (positionAt_mem mesh i2 _ hv2))
  rw [horigin] at hin
  exact SlabTest_of_point_in_box mesh ray temp.t hpos hx hy hz hin.1 hin.2.1 hin.2.2

theorem scan_all_miss (nm : Numerics K) (mesh : TriangleMesh K) (ray : Ray K)
    (ignoreHitRecord : Bool) (l : List Nat) (temp result : HitRecord K)
    (hmiss : ∀ i ∈ l, ∀ triangle, mesh.triangleAt i = some triangle →
      ∀ hitRecord, (HitTest_Triangle nm triangle ray hitRecord ignoreHitRecord).1 = false)
    (hscan : HitTest_TriangleMesh.scan nm mesh ray ignoreHitRecord l temp = some result) :
    result = temp := by
  induction l generalizing temp with
  | nil =>
    simp only [HitTest_TriangleMesh.scan] at hscan
    cases hscan
    rfl
  | cons i rest ih =>
    cases htri : mesh.triangleAt i with
    | none => simp [HitTest_TriangleMesh.scan, htri] at hscan
    | some triangle =>
      simp only [HitTest_TriangleMesh.scan, htri] at hscan
      rw [HitTest_Triangle_miss_snd nm triangle ray temp ignoreHitRecord
        (hmiss i (List.mem_cons_self _ _) triangle htri temp)] at hscan
      exact ih temp (fun j hj => hmiss j (List.mem_cons_of_mem _ hj)) hscan

theorem withoutSlabTest_of_scan (nm : Numerics K) (mesh : TriangleMesh K) (ray : Ray K)
    (hitRecord : HitRecord K) (ignoreHitRecord : Bool) (temp : HitRecord K)
    (hscan : HitTest_TriangleMesh.scan nm mesh ray ignoreHitRecord
      (List.range mesh.transformedNormals.length) (HitRecord.fresh nm) = some temp) :
    HitTest_TriangleMesh.withoutSlabTest nm mesh ray hitRecord ignoreHitRecord =
      some (if temp.didHit = true ∧ temp.t < hitRecord.t
        then (true, if ignoreHitRecord then hitRecord
          else { temp with materialIndex := mesh.materialIndex })
        else (false, hitRecord)) := by
  unfold HitTest_TriangleMesh.withoutSlabTest
  rw [hscan]
  by_cases hc : temp.didHit = true ∧ temp.t < hitRecord.t
  · cases ignoreHitRecord <;> simp [hc]
  · simp [hc]

/-- C13: for a mesh whose element accesses are in bounds, whose cached box
contains all its transformed vertices and whose cached normals are positive
multiples of the winding normals (in particular the unit winding normals of
non-degenerate triangles), and for a ray with `ray.min ≥ 0` and no zero
direction component: if `SlabTest_TriangleMesh` returns false then
`HitTest_Triangle` misses every triangle of the mesh, and
`HitTest_TriangleMesh` returns the boolean and the record of the triangle scan
run without the pretest. -/
theorem SlabTest_conservative_reject (nm : Numerics K) (mesh : TriangleMesh K) (ray : Ray K)
    (hvalid : mesh.Valid) (hbox : mesh.BoxContainsVertices)
    (hnormals : mesh.HasWindingNormals) (hmin : 0 ≤ ray.min)
    (hx : ray.direction.x ≠ 0) (hy : ray.direction.y ≠ 0) (hz : ray.direction.z ≠ 0) :
    (SlabTest_TriangleMesh mesh ray = false →
      ∀ normalIndex triangle, mesh.triangleAt normalIndex = some triangle →
        ∀ hitRecord ignoreHitRecord,
          (HitTest_Triangle nm triangle ray hitRecord ignoreHitRecord).1 = false) ∧
    (∀ hitRecord ignoreHitRecord,
      HitTest_TriangleMesh nm mesh ray hitRecord ignoreHitRecord =
        HitTest_TriangleMesh.withoutSlabTest nm mesh ray hitRecord ignoreHitRecord) := by
  have hmiss : SlabTest_TriangleMesh mesh ray = false →
      ∀ normalIndex triangle, mesh.triangleAt normalIndex = some triangle →
        ∀ hitRecord ignoreHitRecord,
          (HitTest_Triangle nm triangle ray hitRecord ignoreHitRecord).1 = false := by
    intro hslab i triangle htri hitRecord ignoreHitRecord
    by_contra hne
    have hhit : (HitTest_Triangle nm triangle ray hitRecord ignoreHitRecord).1 = true := by
      simpa using hne
    have := triangle_hit_passes_slab nm mesh ray i triangle hitRecord ignoreHitRecord htri hbox
      hnormals hmin hx hy hz hhit
    rw [hslab] at this
    cases this
  refine ⟨hmiss, fun hitRecord ignoreHitRecord => ?_⟩
  obtain ⟨temp, htemp⟩ := scan_isSome nm mesh ray ignoreHitRecord hvalid
    (List.range mesh.transformedNormals.length) (fun i hi => List.mem_range.mp hi)
    (HitRecord.fresh nm)
  rw [HitTest_TriangleMesh_of_scan nm mesh ray hitRecord ignoreHitRecord temp htemp,
    withoutSlabTest_of_scan nm mesh ray hitRecord ignoreHitRecord temp htemp]
  by_cases hslab : SlabTest_TriangleMesh mesh ray = true
  · simp [hslab]
  · have hslab' : SlabTest_TriangleMesh mesh ray = false := by simpa using hslab
    have hfresh : temp = HitRecord.fresh nm :=
      scan_all_miss nm mesh ray ignoreHitRecord _ _ temp
        (fun i _ triangle htri hitRecord =>
          hmiss hslab' i triangle htri hitRecord ignoreHitRecord) htemp
    have hdid : temp.didHit = false := by rw [hfresh]; rfl
    simp [hslab', hdid]

theorem scenarioMesh_hasWindingNormals (cullMode : TriangleCullMode) :
    (scenarioMesh cullMode).HasWindingNormals := by
  intro i triangle htri
  obtain ⟨i0, i1, i2, h0, h1, h2, hn, hv0, hv1, hv2, _⟩ :=
    triangleAt_eq_some (scenarioMesh cullMode) i triangle htri
  rcases i with _ | i
  · simp only [scenarioMesh, Nat.zero_mul, Nat.zero_add, List.getElem?_cons_zero,
      List.getElem?_cons_succ, Option.some.injEq] at h0 h1 h2 hn
    subst h0 h1 h2
    simp only [TriangleMesh.positionAt, scenarioMesh] at hv0 hv1 hv2
    simp at hv0 hv1 hv2
    refine ⟨1 / 2, by norm_num, ?_⟩
    rw [← hn, ← hv0, ← hv1, ← hv2]
    decide!
  · simp [scenarioMesh] at hn

/-- C13, concrete instance: the ray that leaves the scenario mesh behind fails
the slab test, misses the triangle of the mesh, and the mesh test agrees with
the scan run without the pretest. -/
theorem SlabTest_conservative_reject_witness :
    SlabTest_TriangleMesh (scenarioMesh TriangleCullMode.NoCulling) rayAwayFromMesh = false ∧
    (HitTest_Triangle ratNumerics (scenarioTriangle TriangleCullMode.NoCulling) rayAwayFromMesh
      (HitRecord.fresh ratNumerics) false).1 = false ∧
    HitTest_TriangleMesh ratNumerics (scenarioMesh TriangleCullMode.NoCulling) rayAwayFromMesh
        (HitRecord.fresh ratNumerics) false =
      HitTest_TriangleMesh.withoutSlabTest ratNumerics (scenarioMesh TriangleCullMode.NoCulling)
        rayAwayFromMesh (HitRecord.fresh ratNumerics) false := by
  have h := SlabTest_conservative_reject ratNumerics (scenarioMesh TriangleCullMode.NoCulling)
    rayAwayFromMesh (by unfold TriangleMesh.Valid; decide!)
    (by unfold TriangleMesh.BoxContainsVertices; decide!)
    (scenarioMesh_hasWindingNormals TriangleCullMode.NoCulling)
    (by decide!) (by decide!) (by decide!) (by decide!)
  exact ⟨by decide!, by decide!, h.2 _ _⟩

/-! ## RenderPixel: the ObservedArea mode -/

theorem lightLoop_observedArea (nm : Numerics K) (scene : Scene K)
    (Shade : Nat → HitRecord K → Vector3 K → Vector3 K → ColorRGB K) (shadowsEnabled : Bool)
    (rayDirection : Vector3 K) (closestHit : HitRecord K) (lights : List (Light K))
    (finalColor : ColorRGB K) :
    RenderPixel.lightLoop nm scene Shade shadowsEnabled LightingMode.ObservedArea rayDirection
        closestHit lights finalColor =
      (observedAreaSum nm scene shadowsEnabled closestHit lights).map
        (fun total => finalColor.add ⟨total, total, total⟩) := by
  induction lights generalizing finalColor with
  | nil => simp [RenderPixel.lightLoop, observedAreaSum, ColorRGB.add]
  | cons light rest ih =>
    simp only [RenderPixel.lightLoop, observedAreaSum]
    cases hskip : RenderPixel.lightSkipped nm scene shadowsEnabled closestHit light with
    | none => simp
    | some skipped =>
      cases skipped with
      | true =>
        simp only [ih]
        cases observedAreaSum nm scene shadowsEnabled closestHit rest <;> simp
      | false =>
        simp only [ih]
        cases observedAreaSum nm scene shadowsEnabled closestHit rest with
        | none => simp
        | some total =>
          simp only [Option.map_some', ColorRGB.add, add_assoc]

/-- The part of the ObservedArea claim that holds on the code: the accumulated
colour has three equal channels, the sum over the lights not skipped of
`max(Dot(hit.normal, directionToLight), 0)`, where `directionToLight` is the
normalised result of `GetDirectionToLight`; for a point light that is the
normalised vector from the hit point to the light; without a hit the colour
is black. -/
theorem RenderPixel_observedArea (nm : Numerics K) (scene : Scene K)
    (Shade : Nat → HitRecord K → Vector3 K → Vector3 K → ColorRGB K) (shadowsEnabled : Bool)
    (viewRay : Ray K) (closestHit : HitRecord K)
    (hclosest : Scene.GetClosestHit nm scene viewRay (HitRecord.fresh nm) = some closestHit) :
    (closestHit.didHit = true →
      RenderPixel.finalColor nm scene Shade shadowsEnabled LightingMode.ObservedArea viewRay =
        (observedAreaSum nm scene shadowsEnabled closestHit scene.m_Lights).map
          (fun total => ⟨total, total, total⟩)) ∧
    (closestHit.didHit = false → ∀ mode,
      RenderPixel.finalColor nm scene Shade shadowsEnabled mode viewRay =
        some ColorRGB.black) ∧
    (∀ light : Light K, light.type = LightType.Point →
      RenderPixel.directionToLight nm light closestHit =
        (light.origin.sub closestHit.origin).Normalized nm) := by
  refine ⟨fun hhit => ?_, fun hmiss mode => ?_, fun light hpoint => ?_⟩
  · simp only [RenderPixel.finalColor, hclosest, hhit, if_true, lightLoop_observedArea]
    congr 1
    funext total
    simp [ColorRGB.add, ColorRGB.black]
  · simp [RenderPixel.finalColor, hclosest, hmiss]
  · simp [RenderPixel.directionToLight, GetDirectionToLight, hpoint]

/-- C17, evaluated at the failing input: the scenario sphere is hit at
`(0,0,-1)` with normal `(0,0,-1)` and lit by a directional light whose
direction is `(0,0,1)`, so the normalised direction from the hit point to the
light is `(0,0,-1)` and the clamped cosine is `1`; `RenderPixel` uses the
direction `(0,0,1)` (the negated hit point) instead and accumulates black, with
shadows enabled or not. -/
theorem RenderPixel_observedArea_directional_light :
    Scene.GetClosestHit ratNumerics (litSphereScene directionalLightAlongZ) scenarioSphereRay
        (HitRecord.fresh ratNumerics) =
      some { t := 4, didHit := true, materialIndex := 1, origin := ⟨0, 0, -1⟩,
             normal := ⟨0, 0, -1⟩ } ∧
    max (Vector3.Dot (⟨0, 0, -1⟩ : Vector3 ℚ)
      (directionalLightAlongZ.direction.neg.Normalized ratNumerics)) 0 = 1 ∧
    GetDirectionToLight directionalLightAlongZ (⟨0, 0, -1⟩ : Vector3 ℚ) = ⟨0, 0, 1⟩ ∧
    RenderPixel.finalColor ratNumerics (litSphereScene directionalLightAlongZ) blackShade false
        LightingMode.ObservedArea scenarioSphereRay = some ⟨0, 0, 0⟩ ∧
    RenderPixel.finalColor ratNumerics (litSphereScene directionalLightAlongZ) blackShade true
        LightingMode.ObservedArea scenarioSphereRay = some ⟨0, 0, 0⟩ := by
  decide!

/-- The ObservedArea mode on point lights, concrete instance: the scenario
sphere lit by the point light at `(0,0,-3)` gives `(1,1,1)` at the pixel whose
ray hits `(0,0,-1)`; the ray pointing away from the sphere gives black. -/
theorem RenderPixel_observedArea_point_light :
    RenderPixel.finalColor ratNumerics (litSphereScene pointLightInFront) blackShade true
        LightingMode.ObservedArea scenarioSphereRay = some ⟨1, 1, 1⟩ ∧
    RenderPixel.finalColor ratNumerics (litSphereScene pointLightInFront) blackShade true
        LightingMode.ObservedArea rayAwayFromSphere = some ⟨0, 0, 0⟩ := by
  decide!

/-! ## Triangle hits report a front-facing normal -/

theorem HitTest_Triangle_hit_not_degenerate (nm : Numerics K) (triangle : Triangle K)
    (ray : Ray K) (hitRecord : HitRecord K) (ignoreHitRecord : Bool)
    (h : (HitTest_Triangle nm triangle ray hitRecord ignoreHitRecord).1 = true) :
    AreEqual nm (Vector3.Dot triangle.normal ray.direction) 0 = false := by
  cases hd : AreEqual nm (Vector3.Dot triangle.normal ray.direction) 0
  · rfl
  · simp [HitTest_Triangle, hd] at h

theorem AreEqual_self (nm : Numerics K) (hε : 0 < nm.FLT_EPSILON) (a : K) :
    AreEqual nm a a = true := by
  simp [AreEqual, hε]

/-- C23: whenever `HitTest_Triangle` returns `true` (for every cull mode, both
values of `ignoreHitRecord` and every incoming record), the product
`Dot(triangle.normal, ray.direction)` is not zero, the stored normal is
`triangle.normal` when that product is negative and `-triangle.normal` when
it is positive, and in every case `Dot(record.normal, ray.direction) < 0`.
The tolerance of `AreEqual` is positive, as `FLT_EPSILON` is. -/
theorem HitTest_Triangle_front_facing_normal (nm : Numerics K) (hε : 0 < nm.FLT_EPSILON)
    (triangle : Triangle K) (ray : Ray K) (hitRecord : HitRecord K) (ignoreHitRecord : Bool)
    (h : (HitTest_Triangle nm triangle ray hitRecord ignoreHitRecord).1 = true) :
    (Vector3.Dot triangle.normal ray.direction < 0 →
      (HitTest_Triangle nm triangle ray hitRecord ignoreHitRecord).2.normal = triangle.normal) ∧
    (Vector3.Dot triangle.normal ray.direction > 0 →
      (HitTest_Triangle nm triangle ray hitRecord ignoreHitRecord).2.normal =
        triangle.normal.neg) ∧
    Vector3.Dot triangle.normal ray.direction ≠ 0 ∧
    Vector3.Dot (HitTest_Triangle nm triangle ray hitRecord ignoreHitRecord).2.normal
      ray.direction < 0 := by
  have hne : Vector3.Dot triangle.normal ray.direction ≠ 0 := by
    intro h0
    have hd := HitTest_Triangle_hit_not_degenerate nm triangle ray hitRecord ignoreHitRecord h
    rw [h0, AreEqual_self nm hε] at hd
    exact Bool.noConfusion hd
  rcases HitTest_Triangle_hit_normal nm triangle ray hitRecord ignoreHitRecord h with
    ⟨hn, hd⟩ | ⟨hn, hd⟩
  · have hlt : Vector3.Dot triangle.normal ray.direction < 0 := lt_of_le_of_ne hd hne
    refine ⟨fun _ => hn, fun hpos => absurd hpos (not_lt.mpr hd), hne, ?_⟩
    rw [hn]
    exact hlt
  · refine ⟨fun hneg => absurd hd (not_lt.mpr hneg.le), fun _ => hn, hne, ?_⟩
    rw [hn, dot_neg_left]
    linarith

/-- Witness of C23 on the scenario triangle: the ray from `z = -3` meets it
from behind under no culling, the hit reports the flipped normal. -/
theorem HitTest_Triangle_front_facing_normal_witness :
    (0 : ℚ) < ratNumerics.FLT_EPSILON ∧
    (HitTest_Triangle ratNumerics (scenarioTriangle TriangleCullMode.NoCulling)
      scenarioRayFromNegZ (HitRecord.fresh ratNumerics) false).1 = true ∧
    Vector3.Dot (HitTest_Triangle ratNumerics (scenarioTriangle TriangleCullMode.NoCulling)
      scenarioRayFromNegZ (HitRecord.fresh ratNumerics) false).2.normal
      scenarioRayFromNegZ.direction < 0 :=
  ⟨by decide!, by decide!,
    (HitTest_Triangle_front_facing_normal ratNumerics (by decide!)
      (scenarioTriangle TriangleCullMode.NoCulling) scenarioRayFromNegZ
      (HitRecord.fresh ratNumerics) false (by decide!)).2.2.2⟩

/-! ## Direction to a light -/

/-- C25 at its failing input: for the directional light that shines along
`(0,0,1)`, `GetDirectionToLight` returns `(0,0,1)` at the target `(0,0,-1)`
and `(-1,0,0)` at the target `(1,0,0)`: the negated target point, a different
vector for each target and never the direction `(0,0,-1)` to the light. For
a point light the result is `light.origin - target`. -/
theorem GetDirectionToLight_directional_depends_on_target :
    GetDirectionToLight directionalLightAlongZ (⟨0, 0, -1⟩ : Vector3 ℚ) = ⟨0, 0, 1⟩ ∧
    GetDirectionToLight directionalLightAlongZ (⟨1, 0, 0⟩ : Vector3 ℚ) = ⟨-1, 0, 0⟩ ∧
    GetDirectionToLight directionalLightAlongZ (⟨0, 0, -1⟩ : Vector3 ℚ) ≠
      GetDirectionToLight directionalLightAlongZ (⟨1, 0, 0⟩ : Vector3 ℚ) ∧
    GetDirectionToLight pointLightInFront (⟨1, 0, 0⟩ : Vector3 ℚ) =
      pointLightInFront.origin.sub ⟨1, 0, 0⟩ := by
  decide!

/-! ## Shadow rays -/

theorem lightSkipped_eq_DoesHit (nm : Numerics K) (scene : Scene K) (closestHit : HitRecord K)
    (light : Light K) :
    RenderPixel.lightSkipped nm scene true closestHit light =
      scene.DoesHit nm (RenderPixel.shadowRayTowards nm light closestHit) := rfl

/-- C24, counterexample: for the hit at `(0,0,-1)` with normal `(0,0,-1)` and
the point light at `(0,0,-3)`, the shadow ray of `RenderPixel` starts at the
hit point itself; no positive offset along the hit normal gives its origin. -/
theorem RenderPixel_shadow_ray_origin_not_offset :
    frontOfSphereHit.origin = ⟨0, 0, -1⟩ ∧ frontOfSphereHit.normal = ⟨0, 0, -1⟩ ∧
    (RenderPixel.shadowRayTowards ratNumerics pointLightInFront frontOfSphereHit).origin =
      frontOfSphereHit.origin ∧
    ¬ ∃ ε : ℚ, 0 < ε ∧
      (RenderPixel.shadowRayTowards ratNumerics pointLightInFront frontOfSphereHit).origin =
        frontOfSphereHit.origin.add (frontOfSphereHit.normal.scale ε) := by
  have horigin : frontOfSphereHit.origin = ⟨0, 0, -1⟩ := by decide!
  have hnormal : frontOfSphereHit.normal = ⟨0, 0, -1⟩ := by decide!
  refine ⟨horigin, hnormal, rfl, ?_⟩
  rintro ⟨ε, hε, h⟩
  have hz := congrArg Vector3.z h
  simp only [RenderPixel.shadowRayTowards, RenderPixel.shadowRay, horigin, hnormal, Vector3.add,
    Vector3.scale] at hz
  linarith

/-- C24, amended: for every scene, hit and light, the shadow ray of
`RenderPixel` has its origin at the hit point itself, direction the normalised
result of `GetDirectionToLight`, lower bound `0.001 > 0` and upper bound the
magnitude of that result; for a point light these are the normalised
direction from the hit point to the light and the distance to the light. With
shadows enabled the light is skipped exactly when `Scene::DoesHit` is true
for that ray: the loop then continues with the colour unchanged, and with
shadows disabled no light is skipped. -/
theorem RenderPixel_shadow_ray_construction (nm : Numerics K) (scene : Scene K)
    (Shade : Nat → HitRecord K → Vector3 K → Vector3 K → ColorRGB K) (mode : LightingMode)
    (rayDirection : Vector3 K) (closestHit : HitRecord K) (light : Light K)
    (rest : List (Light K)) (finalColor : ColorRGB K) :
    (RenderPixel.shadowRayTowards nm light closestHit).origin = closestHit.origin ∧
    (RenderPixel.shadowRayTowards nm light closestHit).direction =
      (GetDirectionToLight light closestHit.origin).Normalized nm ∧
    (RenderPixel.shadowRayTowards nm light closestHit).min = 1 / 1000 ∧
    0 < (RenderPixel.shadowRayTowards nm light closestHit).min ∧
    (RenderPixel.shadowRayTowards nm light closestHit).max =
      (GetDirectionToLight light closestHit.origin).Magnitude nm ∧
    (light.type = LightType.Point →
      (RenderPixel.shadowRayTowards nm light closestHit).direction =
        (light.origin.sub closestHit.origin).Normalized nm ∧
      (RenderPixel.shadowRayTowards nm light closestHit).max =
        (light.origin.sub closestHit.origin).Magnitude nm) ∧
    RenderPixel.lightSkipped nm scene true closestHit light =
      scene.DoesHit nm (RenderPixel.shadowRayTowards nm light closestHit) ∧
    RenderPixel.lightSkipped nm scene false closestHit light = some false ∧
    (scene.DoesHit nm (RenderPixel.shadowRayTowards nm light closestHit) = some true →
      RenderPixel.lightLoop nm scene Shade true mode rayDirection closestHit (light :: rest)
          finalColor =
        RenderPixel.lightLoop nm scene Shade true mode rayDirection closestHit rest
          finalColor) := by
  refine ⟨rfl, rfl, rfl, ?_, rfl, ?_, rfl, rfl, ?_⟩
  · show (0 : K) < 1 / 1000
    norm_num
  · intro hpoint
    simp [RenderPixel.shadowRayTowards, RenderPixel.shadowRay, RenderPixel.directionToLight,
      GetDirectionToLight, hpoint]
  · intro hhit
    rw [RenderPixel.lightLoop, lightSkipped_eq_DoesHit, hhit]

/-- Witness of C24 (amended) on the scenario sphere lit by the point light at
`(0,0,-3)`: the shadow ray from `(0,0,-1)` has direction `(0,0,-1)`, bounds
`(1/1000, 2)`, nothing occludes it and the light is not skipped. -/
theorem RenderPixel_shadow_ray_construction_witness :
    RenderPixel.shadowRayTowards ratNumerics pointLightInFront frontOfSphereHit =
      { origin := ⟨0, 0, -1⟩, direction := ⟨0, 0, -1⟩, min := 1 / 1000, max := 2 } ∧
    RenderPixel.lightSkipped ratNumerics (litSphereScene pointLightInFront) true
      frontOfSphereHit pointLightInFront = some false ∧
    (RenderPixel.shadowRayTowards ratNumerics pointLightInFront frontOfSphereHit).max =
      (pointLightInFront.origin.sub frontOfSphereHit.origin).Magnitude ratNumerics :=
  ⟨by decide!, by decide!,
    ((RenderPixel_shadow_ray_construction ratNumerics (litSphereScene pointLightInFront)
      blackShade LightingMode.Combined ⟨0, 0, 1⟩ frontOfSphereHit pointLightInFront []
      ColorRGB.black).2.2.2.2.2.1 (by decide!)).2⟩

/-! ## Any-hit against closest-hit -/

theorem HitTest_Sphere_fst_ignore (nm : Numerics K) (sphere : Sphere K) (ray : Ray K)
    (hitRecord : HitRecord K) :
    (HitTest_Sphere nm sphere ray hitRecord true).1 =
      (HitTest_Sphere nm sphere ray hitRecord false).1 := by
  simp only [HitTest_Sphere, HitTest_Sphere.commit]
  split_ifs <;> rfl

theorem HitTest_Plane_fst_ignore (plane : Plane K) (ray : Ray K) (hitRecord : HitRecord K) :
    (HitTest_Plane plane ray hitRecord true).1 = (HitTest_Plane plane ray hitRecord false).1 := by
  simp only [HitTest_Plane]
  split_ifs <;> rfl

theorem HitTest_Triangle_noCulling_ignore (nm : Numerics K) (triangle : Triangle K)
    (ray : Ray K) (hitRecord : HitRecord K)
    (hcull : triangle.cullMode = TriangleCullMode.NoCulling) :
    HitTest_Triangle nm triangle ray hitRecord true =
      HitTest_Triangle nm triangle ray hitRecord false := by
  simp [HitTest_Triangle, HitTest_Triangle.effectiveCullMode, hcull]

theorem scan_noCulling_ignore (nm : Numerics K) (mesh : TriangleMesh K) (ray : Ray K)
    (hcull : mesh.cullMode = TriangleCullMode.NoCulling) (l : List Nat) (temp : HitRecord K) :
    HitTest_TriangleMesh.scan nm mesh ray true l temp =
      HitTest_TriangleMesh.scan nm mesh ray false l temp := by
  induction l generalizing temp with
  | nil => rfl
  | cons i rest ih =>
    simp only [HitTest_TriangleMesh.scan]
    cases htri : mesh.triangleAt i with
    | none => rfl
    | some triangle =>
      obtain ⟨_, _, _, _, _, _, _, _, _, _, hc⟩ := triangleAt_eq_some mesh i triangle htri
      simp only []
      rw [HitTest_Triangle_noCulling_ignore nm triangle ray temp (hc.trans hcull)]
      exact ih _

theorem existence_mesh_noCulling (nm : Numerics K) (mesh : TriangleMesh K) (ray : Ray K)
    (hvalid : mesh.Valid) (hcull : mesh.cullMode = TriangleCullMode.NoCulling) :
    HitTest_TriangleMesh.existence nm mesh ray =
      some (closerWins (meshCandidate nm ray mesh) (HitRecord.fresh nm)).1 := by
  obtain ⟨temp, htemp⟩ := scan_isSome nm mesh ray false hvalid
    (List.range mesh.transformedNormals.length) (fun i hi => List.mem_range.mp hi)
    (HitRecord.fresh nm)
  have htemp' := htemp
  rw [← scan_noCulling_ignore nm mesh ray hcull] at htemp'
  have hfalse := (HitTest_TriangleMesh_eq_closerWins nm mesh ray (HitRecord.fresh nm) hvalid).1
  rw [HitTest_TriangleMesh_of_scan nm mesh ray _ false temp htemp] at hfalse
  unfold HitTest_TriangleMesh.existence
  rw [HitTest_TriangleMesh_of_scan nm mesh ray _ true temp htemp']
  have hfst := congrArg Prod.fst (Option.some.inj hfalse)
  rw [← hfst]
  by_cases hc : SlabTest_TriangleMesh mesh ray = true ∧ temp.didHit = true ∧
      temp.t < (HitRecord.fresh nm).t
  · simp [hc]
  · simp [hc]

theorem DoesHit_meshes_noCulling (nm : Numerics K) (ray : Ray K)
    (meshes : List (TriangleMesh K)) (hvalid : ∀ mesh ∈ meshes, mesh.Valid)
    (hcull : ∀ mesh ∈ meshes, mesh.cullMode = TriangleCullMode.NoCulling) :
    Scene.DoesHit.meshes nm ray meshes =
      some (meshes.any
        (fun mesh => (closerWins (meshCandidate nm ray mesh) (HitRecord.fresh nm)).1)) := by
  induction meshes with
  | nil => rfl
  | cons mesh rest ih =>
    have hrest := ih (fun m hm => hvalid m (List.mem_cons_of_mem _ hm))
      (fun m hm => hcull m (List.mem_cons_of_mem _ hm))
    simp only [Scene.DoesHit.meshes, List.any_cons]
    rw [existence_mesh_noCulling nm mesh ray (hvalid mesh (List.mem_cons_self _ _))
      (hcull mesh (List.mem_cons_self _ _))]
    cases hb : (closerWins (meshCandidate nm ray mesh) (HitRecord.fresh nm)).1
    · simpa using hrest
    · simp

omit [LinearOrderedField K] in
theorem any_map_apply {α β : Type} (f : α → β) (p : β → Bool) (l : List α) :
    (l.map f).any p = l.any (fun a => p (f a)) := by
  induction l with
  | nil => rfl
  | cons a rest ih => simp only [List.map_cons, List.any_cons, ih]

theorem DoesHit_eq_any_candidate (nm : Numerics K) (scene : Scene K) (ray : Ray K)
    (hvalid : scene.Valid)
    (hcull : ∀ mesh ∈ scene.m_TriangleMeshGeometries,
      mesh.cullMode = TriangleCullMode.NoCulling) :
    scene.DoesHit nm ray =
      some ((scene.candidates nm ray).any
        (fun c => (closerWins c (HitRecord.fresh nm)).1)) := by
  unfold Scene.DoesHit
  rw [DoesHit_meshes_noCulling nm ray _ hvalid hcull]
  have hs : (fun sphere => HitTest_Sphere.existence nm sphere ray) =
      (fun sphere => (closerWins (sphereCandidate nm ray sphere) (HitRecord.fresh nm)).1) := by
    funext sphere
    rw [← HitTest_Sphere_eq_closerWins, ← HitTest_Sphere_fst_ignore]
    rfl
  have hp : (fun plane => HitTest_Plane.existence nm plane ray) =
      (fun plane => (closerWins (planeCandidate nm ray plane) (HitRecord.fresh nm)).1) := by
    funext plane
    rw [← HitTest_Plane_eq_closerWins nm, ← HitTest_Plane_fst_ignore]
    rfl
  rw [hs, hp, Scene.candidates, List.any_append, List.any_append, any_map_apply, any_map_apply,
    any_map_apply]
  cases h1 : scene.m_SphereGeometries.any
      (fun sphere => (closerWins (sphereCandidate nm ray sphere) (HitRecord.fresh nm)).1)
  · cases h2 : scene.m_PlaneGeometries.any
        (fun plane => (closerWins (planeCandidate nm ray plane) (HitRecord.fresh nm)).1)
    · simp
    · simp
  · simp

theorem runCandidates_fresh_didHit (nm : Numerics K) (ray : Ray K)
    (candidates : List (Bool × HitRecord K))
    (hgood : ∀ c ∈ candidates, c.1 = true → c.2.IsHitOf ray) :
    (runCandidates candidates (HitRecord.fresh nm)).didHit = true ↔
      ∃ c ∈ candidates, (closerWins c (HitRecord.fresh nm)).1 = true := by
  rcases runCandidates_cases candidates (HitRecord.fresh nm) with heq | ⟨c, hc, hv, hlt, heq⟩
  · constructor
    · intro h
      rw [heq] at h
      exact absurd h (by simp [HitRecord.fresh])
    · rintro ⟨c, hc, h⟩
      rw [closerWins_fst] at h
      have hle := runCandidates_le_of_mem candidates (HitRecord.fresh nm) c hc h.1
      rw [heq] at hle
      exact absurd (lt_of_lt_of_le h.2 hle) (lt_irrefl _)
  · constructor
    · intro _
      exact ⟨c, hc, (closerWins_fst c _).mpr ⟨hv, hlt⟩⟩
    · intro _
      rw [heq]
      exact (hgood c hc hv).1

/-- C27: for every scene whose mesh accesses are in bounds and whose triangle
meshes all use `NoCulling` (so for every scene of spheres and planes only),
and every ray, both queries return and `Scene::DoesHit(ray)` is `true` exactly
when `Scene::GetClosestHit(ray, fresh record)` leaves `didHit = true`. -/
theorem DoesHit_iff_GetClosestHit_didHit (nm : Numerics K) (scene : Scene K) (ray : Ray K)
    (hvalid : scene.Valid)
    (hcull : ∀ mesh ∈ scene.m_TriangleMeshGeometries,
      mesh.cullMode = TriangleCullMode.NoCulling) :
    ∃ anyHit closestHit, scene.DoesHit nm ray = some anyHit ∧
      Scene.GetClosestHit nm scene ray (HitRecord.fresh nm) = some closestHit ∧
      (anyHit = true ↔ closestHit.didHit = true) := by
  refine ⟨_, _, DoesHit_eq_any_candidate nm scene ray hvalid hcull,
    GetClosestHit_eq_runCandidates nm scene ray _ hvalid, ?_⟩
  rw [runCandidates_fresh_didHit nm ray _ (candidates_good nm scene ray hvalid), List.any_eq_true]

/-- Witness of C27 on the scenario scene with its mesh under `NoCulling`: the
scenario ray is occluded and the closest hit is found. In the scene where
only the mesh can be met, the ray along the `z` axis (two zero direction
components) is occluded by the mesh and its closest hit is at `t = 4`; the
ray that passes beside everything is not occluded and nothing is hit. -/
theorem DoesHit_iff_GetClosestHit_didHit_witness :
    noCullingScene.Valid ∧
    (∀ mesh ∈ noCullingScene.m_TriangleMeshGeometries,
      mesh.cullMode = TriangleCullMode.NoCulling) ∧
    noCullingScene.DoesHit ratNumerics sceneRay = some true ∧
    (∃ anyHit closestHit, noCullingScene.DoesHit ratNumerics sceneRay = some anyHit ∧
      Scene.GetClosestHit ratNumerics noCullingScene sceneRay (HitRecord.fresh ratNumerics) =
        some closestHit ∧
      (anyHit = true ↔ closestHit.didHit = true)) ∧
    (meshOnlyScene TriangleCullMode.NoCulling).DoesHit ratNumerics axisAlignedRay = some true ∧
    Scene.GetClosestHit ratNumerics (meshOnlyScene TriangleCullMode.NoCulling) axisAlignedRay
        (HitRecord.fresh ratNumerics) =
      some { t := 4, didHit := true, materialIndex := 4, origin := ⟨0, 1 / 4, 1⟩,
             normal := ⟨0, 0, 1⟩ } ∧
    (meshOnlyScene TriangleCullMode.NoCulling).DoesHit ratNumerics missingSphereRay =
      some false ∧
    Scene.GetClosestHit ratNumerics (meshOnlyScene TriangleCullMode.NoCulling) missingSphereRay
        (HitRecord.fresh ratNumerics) = some (HitRecord.fresh ratNumerics) ∧
    (∃ anyHit closestHit,
      (meshOnlyScene TriangleCullMode.NoCulling).DoesHit ratNumerics axisAlignedRay =
        some anyHit ∧
      Scene.GetClosestHit ratNumerics (meshOnlyScene TriangleCullMode.NoCulling) axisAlignedRay
        (HitRecord.fresh ratNumerics) = some closestHit ∧
      (anyHit = true ↔ closestHit.didHit = true)) := by
  have hvalid : noCullingScene.Valid := by
    unfold Scene.Valid TriangleMesh.Valid
    decide!
  have hcull : ∀ mesh ∈ noCullingScene.m_TriangleMeshGeometries,
      mesh.cullMode = TriangleCullMode.NoCulling := by
    decide!
  have hvalidMesh : (meshOnlyScene TriangleCullMode.NoCulling).Valid := by
    unfold Scene.Valid TriangleMesh.Valid
    decide!
  have hcullMesh : ∀ mesh ∈ (meshOnlyScene TriangleCullMode.NoCulling).m_TriangleMeshGeometries,
      mesh.cullMode = TriangleCullMode.NoCulling := by
    decide!
  exact ⟨hvalid, hcull, by decide!,
    DoesHit_iff_GetClosestHit_didHit ratNumerics noCullingScene sceneRay hvalid hcull,
    by decide!, by decide!, by decide!, by decide!,
    DoesHit_iff_GetClosestHit_didHit ratNumerics (meshOnlyScene TriangleCullMode.NoCulling)
      axisAlignedRay hvalidMesh hcullMesh⟩

/-! ## Index safety of the mesh scan -/

omit [LinearOrderedField K] in
theorem getElem?_of_lt {α : Type} (l : List α) (i : Nat) (h : i < l.length) :
    ∃ a, l[i]? = some a ∧ a ∈ l :=
  ⟨l[i], List.getElem?_eq_getElem h, List.getElem_mem h⟩

omit [LinearOrderedField K] in
theorem triangleAt_isSome_of_lookups (mesh : TriangleMesh K) (normalIndex : Nat)
    (i0 i1 i2 : Int) (v0 v1 v2 normal : Vector3 K)
    (h0 : mesh.indices[normalIndex * 3]? = some i0)
    (h1 : mesh.indices[normalIndex * 3 + 1]? = some i1)
    (h2 : mesh.indices[normalIndex * 3 + 2]? = some i2)
    (hn : mesh.transformedNormals[normalIndex]? = some normal)
    (hv0 : mesh.positionAt i0 = some v0) (hv1 : mesh.positionAt i1 = some v1)
    (hv2 : mesh.positionAt i2 = some v2) :
    (mesh.triangleAt normalIndex).isSome = true := by
  simp [TriangleMesh.triangleAt, h0, h1, h2, hn, hv0, hv1, hv2]

/-- C22, counterexample: two meshes whose indices are all valid indices into
`positions` and whose index count is divisible by 3, and a ray that passes
their slab test. With two cached normals and one index triple the second
iteration of the scan reads `indices[3]`, past the end; with a cache of three
positions and the index `3` the scan reads `transformedPositions[3]`, past the
end. -/
theorem HitTest_TriangleMesh_stale_cache_out_of_bounds :
    ((∀ i ∈ staleNormalsMesh.indices, 0 ≤ i ∧ i.toNat < staleNormalsMesh.positions.length) ∧
      staleNormalsMesh.indices.length % 3 = 0 ∧
      SlabTest_TriangleMesh staleNormalsMesh sceneRay = true ∧
      staleNormalsMesh.transformedNormals.length = 2 ∧
      staleNormalsMesh.indices[1 * 3]? = none ∧
      HitTest_TriangleMesh ratNumerics staleNormalsMesh sceneRay (HitRecord.fresh ratNumerics)
        false = none) ∧
    ((∀ i ∈ stalePositionsMesh.indices,
        0 ≤ i ∧ i.toNat < stalePositionsMesh.positions.length) ∧
      stalePositionsMesh.indices.length % 3 = 0 ∧
      SlabTest_TriangleMesh stalePositionsMesh sceneRay = true ∧
      stalePositionsMesh.indices[0 * 3 + 2]? = some 3 ∧
      stalePositionsMesh.positionAt 3 = none ∧
      HitTest_TriangleMesh ratNumerics stalePositionsMesh sceneRay (HitRecord.fresh ratNumerics)
        false = none) := by
  decide!

/-- C22, amended: for every triangle mesh whose indices are all valid indices
into its positions, whose cache holds as many transformed positions as there
are positions and at most one transformed normal per index triple, every
element access of the scan of `HitTest_TriangleMesh` is within bounds: in
each iteration `indices[3k]`, `indices[3k+1]`, `indices[3k+2]`,
`transformedNormals[k]` and the three `transformedPositions[...]` exist, and
the test returns for every ray, record and flag. -/
theorem HitTest_TriangleMesh_accesses_in_bounds (mesh : TriangleMesh K)
    (hidx : ∀ i ∈ mesh.indices, 0 ≤ i ∧ i.toNat < mesh.positions.length)
    (hpos : mesh.transformedPositions.length = mesh.positions.length)
    (hnorm : mesh.transformedNormals.length * 3 ≤ mesh.indices.length) :
    (∀ normalIndex, normalIndex < mesh.transformedNormals.length →
      ∃ i0 i1 i2 v0 v1 v2 normal,
        mesh.indices[normalIndex * 3]? = some i0 ∧
        mesh.indices[normalIndex * 3 + 1]? = some i1 ∧
        mesh.indices[normalIndex * 3 + 2]? = some i2 ∧
        mesh.transformedNormals[normalIndex]? = some normal ∧
        mesh.positionAt i0 = some v0 ∧ mesh.positionAt i1 = some v1 ∧
        mesh.positionAt i2 = some v2) ∧
    mesh.Valid ∧
    ∀ (nm : Numerics K) (ray : Ray K) (hitRecord : HitRecord K) (ignoreHitRecord : Bool),
      (HitTest_TriangleMesh nm mesh ray hitRecord ignoreHitRecord).isSome = true := by
  have hposAt : ∀ i ∈ mesh.indices, ∃ v, mesh.positionAt i = some v := by
    intro i hi
    obtain ⟨h0, hlt⟩ := hidx i hi
    rw [← hpos] at hlt
    obtain ⟨v, hv, _⟩ := getElem?_of_lt mesh.transformedPositions i.toNat hlt
    exact ⟨v, by simp [TriangleMesh.positionAt, h0, hv]⟩
  have haccess : ∀ normalIndex, normalIndex < mesh.transformedNormals.length →
      ∃ i0 i1 i2 v0 v1 v2 normal,
        mesh.indices[normalIndex * 3]? = some i0 ∧
        mesh.indices[normalIndex * 3 + 1]? = some i1 ∧
        mesh.indices[normalIndex * 3 + 2]? = some i2 ∧
        mesh.transformedNormals[normalIndex]? = some normal ∧
        mesh.positionAt i0 = some v0 ∧ mesh.positionAt i1 = some v1 ∧
        mesh.positionAt i2 = some v2 := by
    intro k hk
    obtain ⟨i0, h0, hm0⟩ := getElem?_of_lt mesh.indices (k * 3) (by omega)
    obtain ⟨i1, h1, hm1⟩ := getElem?_of_lt mesh.indices (k * 3 + 1) (by omega)
    obtain ⟨i2, h2, hm2⟩ := getElem?_of_lt mesh.indices (k * 3 + 2) (by omega)
    obtain ⟨normal, hn, _⟩ := getElem?_of_lt mesh.transformedNormals k hk
    obtain ⟨v0, hv0⟩ := hposAt i0 hm0
    obtain ⟨v1, hv1⟩ := hposAt i1 hm1
    obtain ⟨v2, hv2⟩ := hposAt i2 hm2
    exact ⟨i0, i1, i2, v0, v1, v2, normal, h0, h1, h2, hn, hv0, hv1, hv2⟩
  have hvalid : mesh.Valid := by
    intro k hk
    obtain ⟨i0, i1, i2, v0, v1, v2, normal, h0, h1, h2, hn, hv0, hv1, hv2⟩ := haccess k hk
    exact triangleAt_isSome_of_lookups mesh k i0 i1 i2 v0 v1 v2 normal h0 h1 h2 hn hv0 hv1 hv2
  refine ⟨haccess, hvalid, fun nm ray hitRecord ignoreHitRecord => ?_⟩
  obtain ⟨result, hresult⟩ := HitTest_TriangleMesh_isSome nm mesh ray hitRecord ignoreHitRecord
    hvalid
  rw [hresult]
  rfl

/-- Witness of C22 (amended) on the scenario mesh, whose cache is up to date. -/
theorem HitTest_TriangleMesh_accesses_in_bounds_witness :
    (∀ i ∈ (scenarioMesh TriangleCullMode.NoCulling).indices,
      0 ≤ i ∧ i.toNat < (scenarioMesh TriangleCullMode.NoCulling).positions.length) ∧
    (scenarioMesh TriangleCullMode.NoCulling).Valid ∧
    (HitTest_TriangleMesh ratNumerics (scenarioMesh TriangleCullMode.NoCulling) sceneRay
      (HitRecord.fresh ratNumerics) false).isSome = true :=
  ⟨by decide!,
    (HitTest_TriangleMesh_accesses_in_bounds (scenarioMesh TriangleCullMode.NoCulling)
      (by decide!) (by decide!) (by decide!)).2.1,
    (HitTest_TriangleMesh_accesses_in_bounds (scenarioMesh TriangleCullMode.NoCulling)
      (by decide!) (by decide!) (by decide!)).2.2 ratNumerics sceneRay
      (HitRecord.fresh ratNumerics) false⟩

/-! ## Material indices -/

omit [LinearOrderedField K] in
theorem AddMaterial_materials (scene : Scene K) (pMaterial : Material K) :
    (scene.AddMaterial pMaterial).1.m_Materials = scene.m_Materials ++ [pMaterial] := rfl

omit [LinearOrderedField K] in
theorem AddMaterial_index (scene : Scene K) (pMaterial : Material K) :
    (scene.AddMaterial pMaterial).2 = scene.m_Materials.length % 256 := by
  simp [Scene.AddMaterial]

omit [LinearOrderedField K] in
theorem AddMaterials_materials (scene : Scene K) (materials : List (Material K)) :
    (scene.AddMaterials materials).1.m_Materials = scene.m_Materials ++ materials := by
  induction materials generalizing scene with
  | nil => simp [Scene.AddMaterials]
  | cons pMaterial rest ih =>
    simp only [Scene.AddMaterials]
    rw [ih, AddMaterial_materials]
    simp

omit [LinearOrderedField K] in
theorem AddMaterials_indices (scene : Scene K) (materials : List (Material K)) (k : Nat)
    (hk : k < materials.length) :
    (scene.AddMaterials materials).2[k]? = some ((scene.m_Materials.length + k) % 256) := by
  induction materials generalizing scene k with
  | nil => simp at hk
  | cons pMaterial rest ih =>
    simp only [Scene.AddMaterials]
    cases k with
    | zero => simp [AddMaterial_index]
    | succ j =>
      simp only [List.getElem?_cons_succ]
      rw [ih _ j (by simpa using hk), AddMaterial_materials]
      simp only [List.length_append, List.length_singleton]
      congr 2
      omega

/-- C21, counterexample: on a new scene, after 255 calls of `AddMaterial` the
256th call returns index 0, where the default solid colour is stored, not the
material just added (which is stored at position 256). -/
theorem AddMaterial_index_wraps_to_zero :
    ((((Scene.construct : Scene ℚ).AddMaterials (List.replicate 255 grayBlueLambert)).1
      ).AddMaterial grayBlueLambert).2 = 0 ∧
    ((((Scene.construct : Scene ℚ).AddMaterials (List.replicate 255 grayBlueLambert)).1
      ).AddMaterial grayBlueLambert).1.GetMaterials[0]? = some (Material.SolidColor ⟨1, 0, 0⟩) ∧
    ((((Scene.construct : Scene ℚ).AddMaterials (List.replicate 255 grayBlueLambert)).1
      ).AddMaterial grayBlueLambert).1.GetMaterials[256]? = some grayBlueLambert ∧
    some grayBlueLambert ≠ some (Material.SolidColor (⟨1, 0, 0⟩ : ColorRGB ℚ)) := by
  decide!

/-- C21, amended: a newly constructed `Scene` has exactly one material, the
default solid colour, at index 0. After any sequence `materials` of fewer than
255 earlier `AddMaterial` calls on it, the materials are the default followed
by `materials`, the earlier calls returned `1, 2, ...` and their entries are
still in place, and a further call appends its material without changing
earlier entries and returns the index at which it is stored, which is not 0. -/
theorem AddMaterial_index_stable (materials : List (Material K)) (pMaterial : Material K)
    (hlen : materials.length < 255) :
    (Scene.construct : Scene K).GetMaterials = [Material.SolidColor ⟨1, 0, 0⟩] ∧
    ((Scene.construct : Scene K).AddMaterials materials).1.GetMaterials =
      Material.SolidColor ⟨1, 0, 0⟩ :: materials ∧
    ((((Scene.construct : Scene K).AddMaterials materials).1).AddMaterial pMaterial).1.GetMaterials
      = ((Scene.construct : Scene K).AddMaterials materials).1.GetMaterials ++ [pMaterial] ∧
    ((((Scene.construct : Scene K).AddMaterials materials).1).AddMaterial pMaterial).2 =
      materials.length + 1 ∧
    ((((Scene.construct : Scene K).AddMaterials materials).1).AddMaterial pMaterial).1.GetMaterials[
      ((((Scene.construct : Scene K).AddMaterials materials).1).AddMaterial pMaterial).2]? =
        some pMaterial ∧
    ((((Scene.construct : Scene K).AddMaterials materials).1).AddMaterial pMaterial).2 ≠ 0 ∧
    ∀ k, k < materials.length →
      ((Scene.construct : Scene K).AddMaterials materials).2[k]? = some (k + 1) ∧
      ((((Scene.construct : Scene K).AddMaterials materials).1).AddMaterial
        pMaterial).1.GetMaterials[k + 1]? = materials[k]? := by
  have hmats : ((Scene.construct : Scene K).AddMaterials materials).1.m_Materials =
      Material.SolidColor ⟨1, 0, 0⟩ :: materials := by
    rw [AddMaterials_materials]
    rfl
  have hindex : ((((Scene.construct : Scene K).AddMaterials materials).1).AddMaterial
      pMaterial).2 = materials.length + 1 := by
    rw [AddMaterial_index, hmats, List.length_cons]
    exact Nat.mod_eq_of_lt (by omega)
  refine ⟨rfl, hmats, rfl, hindex, ?_, ?_, ?_⟩
  · rw [hindex]
    simp only [Scene.GetMaterials, AddMaterial_materials, hmats]
    simp
  · rw [hindex]
    omega
  · intro k hk
    constructor
    · rw [AddMaterials_indices _ _ k hk]
      have hone : (Scene.construct : Scene K).m_Materials.length = 1 := rfl
      rw [hone, Nat.mod_eq_of_lt (by omega)]
      congr 1
      omega
    · simp only [Scene.GetMaterials, AddMaterial_materials, hmats]
      simp only [List.cons_append, List.getElem?_cons_succ]
      rw [List.getElem?_append_left hk]

/-- Witness of C21 (amended): two earlier calls, then a third call that
returns index 3. -/
theorem AddMaterial_index_stable_witness :
    [grayBlueLambert, Material.SolidColor ⟨0, 0, 1⟩].length < 255 ∧
    ((((Scene.construct : Scene ℚ).AddMaterials
      [grayBlueLambert, Material.SolidColor ⟨0, 0, 1⟩]).1).AddMaterial
        (Material.CookTorrence ⟨3 / 4, 3 / 4, 3 / 4⟩ 0 1)).2 = 2 + 1 :=
  ⟨by decide,
    (AddMaterial_index_stable [grayBlueLambert, Material.SolidColor ⟨0, 0, 1⟩]
      (Material.CookTorrence ⟨3 / 4, 3 / 4, 3 / 4⟩ 0 1) (by decide)).2.2.2.1⟩

/-! ## The rays the renderer builds -/

theorem sqrMagnitude_normalized (nm : Numerics K) (v : Vector3 K)
    (hexact : nm.ExactAt v.SqrMagnitude) (hne : v.SqrMagnitude ≠ 0) :
    (v.Normalized nm).SqrMagnitude = 1 := by
  unfold Numerics.ExactAt at hexact
  rw [Vector3.Normalized, Vector3.Magnitude, sqrMagnitude_divide, hexact]
  exact div_self hne

theorem cross_dot_left (a b : Vector3 K) : Vector3.Dot (Vector3.Cross a b) a = 0 := by
  simp only [Vector3.Dot, Vector3.Cross]
  ring

theorem cross_dot_right (a b : Vector3 K) : Vector3.Dot (Vector3.Cross a b) b = 0 := by
  simp only [Vector3.Dot, Vector3.Cross]
  ring

theorem sqrMagnitude_cross (a b : Vector3 K) :
    (Vector3.Cross a b).SqrMagnitude =
      a.SqrMagnitude * b.SqrMagnitude - Vector3.Dot a b * Vector3.Dot a b := by
  simp only [Vector3.Dot, Vector3.Cross, Vector3.SqrMagnitude]
  ring

theorem dot_comm (a b : Vector3 K) : Vector3.Dot a b = Vector3.Dot b a := by
  simp only [Vector3.Dot]
  ring

theorem divide_one (a : Vector3 K) : a.divide 1 = a := by
  simp [Vector3.divide]

theorem sqrMagnitude_transformVector (m : Matrix K) (v : Vector3 K)
    (hx : m.xAxis.SqrMagnitude = 1) (hy : m.yAxis.SqrMagnitude = 1)
    (hz : m.zAxis.SqrMagnitude = 1) (hxy : Vector3.Dot m.xAxis m.yAxis = 0)
    (hxz : Vector3.Dot m.xAxis m.zAxis = 0) (hyz : Vector3.Dot m.yAxis m.zAxis = 0) :
    (m.TransformVector v).SqrMagnitude = v.SqrMagnitude := by
  simp only [Vector3.Dot, Vector3.SqrMagnitude, Matrix.TransformVector] at *
  linear_combination v.x * v.x * hx + v.y * v.y * hy + v.z * v.z * hz + 2 * v.x * v.y * hxy +
    2 * v.x * v.z * hxz + 2 * v.y * v.z * hyz

theorem cameraToWorld_orthonormal (nm : Numerics K) (camera : Camera K)
    (hup : camera.forward.x ≠ 0 ∨ camera.forward.z ≠ 0)
    (hforward : nm.ExactAt camera.forward.SqrMagnitude)
    (hright : nm.ExactAt
      (Vector3.Cross Vector3.UnitY (camera.forward.Normalized nm)).SqrMagnitude)
    (hone : nm.sqrt 1 = 1) :
    (camera.CalculateCameraToWorld nm).xAxis.SqrMagnitude = 1 ∧
    (camera.CalculateCameraToWorld nm).yAxis.SqrMagnitude = 1 ∧
    (camera.CalculateCameraToWorld nm).zAxis.SqrMagnitude = 1 ∧
    Vector3.Dot (camera.CalculateCameraToWorld nm).xAxis
      (camera.CalculateCameraToWorld nm).yAxis = 0 ∧
    Vector3.Dot (camera.CalculateCameraToWorld nm).xAxis
      (camera.CalculateCameraToWorld nm).zAxis = 0 ∧
    Vector3.Dot (camera.CalculateCameraToWorld nm).yAxis
      (camera.CalculateCameraToWorld nm).zAxis = 0 := by
  have hfne : camera.forward.SqrMagnitude ≠ 0 := by
    intro h0
    obtain ⟨hx, _, hz⟩ := sqrMagnitude_eq_zero _ h0
    rcases hup with h | h
    · exact h hx
    · exact h hz
  have hsne : nm.sqrt camera.forward.SqrMagnitude ≠ 0 := by
    intro h0
    unfold Numerics.ExactAt at hforward
    rw [h0, mul_zero] at hforward
    exact hfne hforward.symm
  have hf : (camera.forward.Normalized nm).SqrMagnitude = 1 :=
    sqrMagnitude_normalized nm _ hforward hfne
  have hcne : (Vector3.Cross Vector3.UnitY (camera.forward.Normalized nm)).SqrMagnitude ≠ 0 := by
    intro h0
    obtain ⟨hx, _, hz⟩ := sqrMagnitude_eq_zero _ h0
    simp only [Vector3.Cross, Vector3.UnitY, Vector3.Normalized, Vector3.Magnitude,
      Vector3.divide] at hx hz
    have hz0 : camera.forward.z = 0 := by
      have : camera.forward.z / nm.sqrt camera.forward.SqrMagnitude = 0 := by linarith
      rcases div_eq_zero_iff.mp this with h | h
      · exact h
      · exact absurd h hsne
    have hx0 : camera.forward.x = 0 := by
      have : camera.forward.x / nm.sqrt camera.forward.SqrMagnitude = 0 := by linarith
      rcases div_eq_zero_iff.mp this with h | h
      · exact h
      · exact absurd h hsne
    rcases hup with h | h
    · exact h hx0
    · exact h hz0
  have hr : ((Vector3.Cross Vector3.UnitY (camera.forward.Normalized nm)).Normalized
      nm).SqrMagnitude = 1 := sqrMagnitude_normalized nm _ hright hcne
  have hrf : Vector3.Dot ((Vector3.Cross Vector3.UnitY (camera.forward.Normalized nm)).Normalized
      nm) (camera.forward.Normalized nm) = 0 := by
    rw [Vector3.Normalized, dot_divide_left, cross_dot_right, zero_div]
  have hu0 : (Vector3.Cross (camera.forward.Normalized nm)
      ((Vector3.Cross Vector3.UnitY (camera.forward.Normalized nm)).Normalized
        nm)).SqrMagnitude = 1 := by
    rw [sqrMagnitude_cross, hf, hr, dot_comm, hrf]
    ring
  have hu : (Vector3.Cross (camera.forward.Normalized nm)
      ((Vector3.Cross Vector3.UnitY (camera.forward.Normalized nm)).Normalized nm)).Normalized nm
      = Vector3.Cross (camera.forward.Normalized nm)
      ((Vector3.Cross Vector3.UnitY (camera.forward.Normalized nm)).Normalized nm) := by
    rw [Vector3.Normalized, Vector3.Magnitude, hu0, hone, divide_one]
  simp only [Camera.CalculateCameraToWorld]
  rw [hu]
  refine ⟨hr, hu0, hf, ?_, hrf, cross_dot_left _ _⟩
  rw [dot_comm]
  exact cross_dot_right _ _

theorem nearbyPointLight_distance :
    (GetDirectionToLight nearbyPointLight frontOfSphereHit.origin).Magnitude ratNumerics =
      1 / 2000 := by
  have horigin : frontOfSphereHit.origin = ⟨0, 0, -1⟩ := by decide!
  have hsq : (GetDirectionToLight nearbyPointLight frontOfSphereHit.origin).SqrMagnitude =
      (1 / 2000 : ℚ) * (1 / 2000) := by
    rw [horigin]
    norm_num [GetDirectionToLight, nearbyPointLight, Vector3.sub, Vector3.SqrMagnitude]
  rw [Vector3.Magnitude, hsq]
  show Rat.sqrt _ = _
  rw [Rat.sqrt_eq, abs_of_pos (by norm_num)]

/-- C26, counterexample: for the hit at `(0,0,-1)` and the point light at
distance `1/2000` from it, the shadow ray of `RenderPixel` has bounds
`(1/1000, 1/2000)`, so `min < max` fails. For the camera with the non-zero
forward vector `(0,1,0)` the cross product with the world up axis is the zero
vector, `right` and `up` are not unit vectors (their components are `0/0`)
and the direction of the camera ray is not a unit vector. -/
theorem RenderPixel_rays_can_break_invariant :
    (RenderPixel.shadowRayTowards ratNumerics nearbyPointLight frontOfSphereHit).min = 1 / 1000 ∧
    (RenderPixel.shadowRayTowards ratNumerics nearbyPointLight frontOfSphereHit).max = 1 / 2000 ∧
    ¬ ((RenderPixel.shadowRayTowards ratNumerics nearbyPointLight frontOfSphereHit).min <
      (RenderPixel.shadowRayTowards ratNumerics nearbyPointLight frontOfSphereHit).max) ∧
    cameraLookingUp.forward ≠ Vector3.zero ∧
    Vector3.Cross Vector3.UnitY (cameraLookingUp.forward.Normalized ratNumerics) = Vector3.zero ∧
    ¬ ((RenderPixel.viewRay ratNumerics 2 2 1 4 1
      (cameraLookingUp.CalculateCameraToWorld ratNumerics) cameraLookingUp.origin (1 / 10000)
      ratNumerics.FLT_MAX).direction.SqrMagnitude = 1) := by
  have hmax : (RenderPixel.shadowRayTowards ratNumerics nearbyPointLight frontOfSphereHit).max
      = 1 / 2000 := nearbyPointLight_distance
  have hmin : (RenderPixel.shadowRayTowards ratNumerics nearbyPointLight frontOfSphereHit).min
      = 1 / 1000 := rfl
  refine ⟨hmin, hmax, ?_, by decide!, by decide!, by decide!⟩
  rw [hmin, hmax]
  norm_num

/-- C26, amended: for every camera whose forward vector is not parallel to the
world up axis (so not zero), every pixel, hit and light whose
`GetDirectionToLight` vector is longer than `0.001`: the camera ray built by
`RenderPixel` (the camera basis applied to the normalised camera-space
direction) has unit direction and the default bounds of `Ray`, `min < max`;
the shadow ray has unit direction, lower bound `0.001` and upper bound the
magnitude of the `GetDirectionToLight` vector, `min < max`. The square root
is exact at the squared magnitudes that are normalised. -/
theorem RenderPixel_rays_satisfy_invariant (nm : Numerics K) (camera : Camera K)
    (m_Width m_Height pixelIndex : Nat) (fov aspectRatio rayMin rayMax : K)
    (light : Light K) (closestHit : HitRecord K)
    (hbounds : rayMin < rayMax)
    (hup : camera.forward.x ≠ 0 ∨ camera.forward.z ≠ 0)
    (hforward : nm.ExactAt camera.forward.SqrMagnitude)
    (hright : nm.ExactAt
      (Vector3.Cross Vector3.UnitY (camera.forward.Normalized nm)).SqrMagnitude)
    (hone : nm.sqrt 1 = 1)
    (hpixel : nm.ExactAt (RenderPixel.cameraSpaceDirection m_Width m_Height pixelIndex fov
      aspectRatio).SqrMagnitude)
    (hlight : nm.ExactAt (GetDirectionToLight light closestHit.origin).SqrMagnitude)
    (hfar : 1 / 1000 < (GetDirectionToLight light closestHit.origin).Magnitude nm) :
    (RenderPixel.viewRay nm m_Width m_Height pixelIndex fov aspectRatio
      (camera.CalculateCameraToWorld nm) camera.origin rayMin rayMax).direction.SqrMagnitude
        = 1 ∧
    (RenderPixel.viewRay nm m_Width m_Height pixelIndex fov aspectRatio
      (camera.CalculateCameraToWorld nm) camera.origin rayMin rayMax).min <
      (RenderPixel.viewRay nm m_Width m_Height pixelIndex fov aspectRatio
        (camera.CalculateCameraToWorld nm) camera.origin rayMin rayMax).max ∧
    (RenderPixel.shadowRayTowards nm light closestHit).direction.SqrMagnitude = 1 ∧
    (RenderPixel.shadowRayTowards nm light closestHit).min = 1 / 1000 ∧
    (RenderPixel.shadowRayTowards nm light closestHit).max =
      (GetDirectionToLight light closestHit.origin).Magnitude nm ∧
    (RenderPixel.shadowRayTowards nm light closestHit).min <
      (RenderPixel.shadowRayTowards nm light closestHit).max := by
  obtain ⟨hx, hy, hz, hxy, hxz, hyz⟩ := cameraToWorld_orthonormal nm camera hup hforward hright
    hone
  refine ⟨?_, hbounds, ?_, rfl, rfl, hfar⟩
  · simp only [RenderPixel.viewRay]
    rw [sqrMagnitude_transformVector _ _ hx hy hz hxy hxz hyz]
    apply sqrMagnitude_normalized nm _ hpixel
    have hpos : 0 < (RenderPixel.cameraSpaceDirection m_Width m_Height pixelIndex fov
        aspectRatio).SqrMagnitude := by
      simp only [RenderPixel.cameraSpaceDirection, Vector3.SqrMagnitude]
      nlinarith [mul_self_nonneg ((2 * (((RenderPixel.px m_Width pixelIndex : K) + 1 / 2) /
        (m_Width : K)) - 1) * aspectRatio * fov),
        mul_self_nonneg ((1 - 2 * (((RenderPixel.py m_Width pixelIndex : K) + 1 / 2) /
          (m_Height : K))) * fov)]
    exact ne_of_gt hpos
  · show ((GetDirectionToLight light closestHit.origin).Normalized nm).SqrMagnitude = 1
    apply sqrMagnitude_normalized nm _ hlight
    intro h0
    have hexact := hlight
    unfold Numerics.ExactAt at hexact
    have hpos : 0 < (GetDirectionToLight light closestHit.origin).Magnitude nm :=
      lt_trans (by norm_num) hfar
    rw [h0] at hexact
    simp only [Vector3.Magnitude, h0] at hpos
    have := mul_pos hpos hpos
    rw [hexact] at this
    exact lt_irrefl _ this

/-- Witness of C26 (amended): the camera looking along `+z`, the pixel with
camera-space direction `(2, 2, 1)` and the point light at `(0,0,-3)`, at
distance 2 from the hit at `(0,0,-1)`. -/
theorem RenderPixel_rays_satisfy_invariant_witness :
    (RenderPixel.viewRay ratNumerics 2 2 1 4 1 (cameraAlongZ.CalculateCameraToWorld ratNumerics)
      cameraAlongZ.origin (1 / 10000) ratNumerics.FLT_MAX).direction = ⟨2 / 3, 2 / 3, 1 / 3⟩ ∧
    (RenderPixel.viewRay ratNumerics 2 2 1 4 1 (cameraAlongZ.CalculateCameraToWorld ratNumerics)
      cameraAlongZ.origin (1 / 10000) ratNumerics.FLT_MAX).direction.SqrMagnitude = 1 ∧
    (RenderPixel.shadowRayTowards ratNumerics pointLightInFront
      frontOfSphereHit).direction.SqrMagnitude = 1 :=
  ⟨by decide!,
    (RenderPixel_rays_satisfy_invariant ratNumerics cameraAlongZ 2 2 1 4 1 (1 / 10000)
      ratNumerics.FLT_MAX pointLightInFront frontOfSphereHit (by decide!) (by decide!)
      (by unfold Numerics.ExactAt; decide!) (by unfold Numerics.ExactAt; decide!) (by decide!)
      (by unfold Numerics.ExactAt; decide!) (by unfold Numerics.ExactAt; decide!)
      (by decide!)).1,
    (RenderPixel_rays_satisfy_invariant ratNumerics cameraAlongZ 2 2 1 4 1 (1 / 10000)
      ratNumerics.FLT_MAX pointLightInFront frontOfSphereHit (by decide!) (by decide!)
      (by unfold Numerics.ExactAt; decide!) (by unfold Numerics.ExactAt; decide!) (by decide!)
      (by unfold Numerics.ExactAt; decide!) (by unfold Numerics.ExactAt; decide!)
      (by decide!)).2.2.1⟩

/-! ## The slab pretest: the sign of a zero direction component -/

theorem SlabTest_TriangleMesh_signed_eq_combine (negativeZeroX negativeZeroY negativeZeroZ : Bool)
    (mesh : TriangleMesh K) (ray : Ray K) :
    SlabTest_TriangleMesh.signed negativeZeroX negativeZeroY negativeZeroZ mesh ray =
      SlabTest_TriangleMesh.combine
        (SlabTest_TriangleMesh.axis negativeZeroX mesh.transformedMinAABB.x
          mesh.transformedMaxAABB.x ray.origin.x ray.direction.x)
        (SlabTest_TriangleMesh.axis negativeZeroY mesh.transformedMinAABB.y
          mesh.transformedMaxAABB.y ray.origin.y ray.direction.y)
        (SlabTest_TriangleMesh.axis negativeZeroZ mesh.transformedMinAABB.z
          mesh.transformedMaxAABB.z ray.origin.z ray.direction.z) := rfl

theorem divFinite_zero_pos (negativeZero : Bool) (a : K) (h : 0 < a) :
    FloatValue.divFinite negativeZero a 0 =
      if negativeZero then FloatValue.negInf else FloatValue.posInf := by
  cases negativeZero <;> simp [FloatValue.divFinite, h, ne_of_gt h]

theorem divFinite_zero_neg (negativeZero : Bool) (a : K) (h : a < 0) :
    FloatValue.divFinite negativeZero a 0 =
      if negativeZero then FloatValue.posInf else FloatValue.negInf := by
  cases negativeZero <;> simp [FloatValue.divFinite, ne_of_lt h, not_lt.mpr (le_of_lt h)]

theorem divFinite_zero_zero (negativeZero : Bool) :
    FloatValue.divFinite negativeZero (0 : K) 0 = FloatValue.nan := by
  simp [FloatValue.divFinite]

theorem slab_axis_of_ne (negativeZero : Bool) (lo hi o d : K) (hd : d ≠ 0) :
    SlabTest_TriangleMesh.axis negativeZero lo hi o d =
      (FloatValue.finite (min ((lo - o) / d) ((hi - o) / d)),
        FloatValue.finite (max ((lo - o) / d) ((hi - o) / d))) := by
  simp only [SlabTest_TriangleMesh.axis, divFinite_of_ne _ _ _ hd, floatMin_finite,
    floatMax_finite]

theorem slab_axis_zero (s t : Bool) (lo hi o : K) :
    SlabTest_TriangleMesh.axis s lo hi o 0 = SlabTest_TriangleMesh.axis t lo hi o 0 ∨
    ((SlabTest_TriangleMesh.axis s lo hi o 0 = (FloatValue.posInf, FloatValue.posInf) ∨
        SlabTest_TriangleMesh.axis s lo hi o 0 = (FloatValue.negInf, FloatValue.negInf)) ∧
      (SlabTest_TriangleMesh.axis t lo hi o 0 = (FloatValue.posInf, FloatValue.posInf) ∨
        SlabTest_TriangleMesh.axis t lo hi o 0 = (FloatValue.negInf, FloatValue.negInf))) := by
  simp only [SlabTest_TriangleMesh.axis]
  rcases lt_trichotomy (lo - o) 0 with h1 | h1 | h1 <;>
    rcases lt_trichotomy (hi - o) 0 with h2 | h2 | h2
  · rw [divFinite_zero_neg _ _ h1, divFinite_zero_neg _ _ h2, divFinite_zero_neg _ _ h1,
      divFinite_zero_neg _ _ h2]
    cases s <;> cases t <;> simp [FloatValue.min, FloatValue.max, FloatValue.lt]
  · rw [h2, divFinite_zero_neg _ _ h1, divFinite_zero_neg _ _ h1, divFinite_zero_zero,
      divFinite_zero_zero]
    cases s <;> cases t <;> simp [FloatValue.min, FloatValue.max, FloatValue.lt]
  · rw [divFinite_zero_neg _ _ h1, divFinite_zero_pos _ _ h2, divFinite_zero_neg _ _ h1,
      divFinite_zero_pos _ _ h2]
    cases s <;> cases t <;> simp [FloatValue.min, FloatValue.max, FloatValue.lt]
  · rw [h1, divFinite_zero_neg _ _ h2, divFinite_zero_neg _ _ h2, divFinite_zero_zero,
      divFinite_zero_zero]
    cases s <;> cases t <;> simp [FloatValue.min, FloatValue.max, FloatValue.lt]
  · rw [h1, h2, divFinite_zero_zero, divFinite_zero_zero]
    simp
  · rw [h1, divFinite_zero_pos _ _ h2, divFinite_zero_pos _ _ h2, divFinite_zero_zero,
      divFinite_zero_zero]
    cases s <;> cases t <;> simp [FloatValue.min, FloatValue.max, FloatValue.lt]
  · rw [divFinite_zero_pos _ _ h1, divFinite_zero_neg _ _ h2, divFinite_zero_pos _ _ h1,
      divFinite_zero_neg _ _ h2]
    cases s <;> cases t <;> simp [FloatValue.min, FloatValue.max, FloatValue.lt]
  · rw [h2, divFinite_zero_pos _ _ h1, divFinite_zero_pos _ _ h1, divFinite_zero_zero,
      divFinite_zero_zero]
    cases s <;> cases t <;> simp [FloatValue.min, FloatValue.max, FloatValue.lt]
  · rw [divFinite_zero_pos _ _ h1, divFinite_zero_pos _ _ h2, divFinite_zero_pos _ _ h1,
      divFinite_zero_pos _ _ h2]
    cases s <;> cases t <;> simp [FloatValue.min, FloatValue.max, FloatValue.lt]

theorem floatMin_bad_left (a b : FloatValue K)
    (h : a = FloatValue.negInf ∨ a = FloatValue.nan) :
    FloatValue.min a b = FloatValue.negInf ∨ FloatValue.min a b = FloatValue.nan := by
  rcases h with rfl | rfl <;> cases b <;> simp [FloatValue.min, FloatValue.lt]

theorem floatMin_negInf_right (a : FloatValue K) :
    FloatValue.min a FloatValue.negInf = FloatValue.negInf ∨
      FloatValue.min a FloatValue.negInf = FloatValue.nan := by
  cases a <;> simp [FloatValue.min, FloatValue.lt]

theorem floatGt_bad (a b : FloatValue K) (h : a = FloatValue.negInf ∨ a = FloatValue.nan) :
    a.gt b = false := by
  rcases h with rfl | rfl <;> cases b <;> simp [FloatValue.gt, FloatValue.lt]

theorem floatMax_top_left (a b : FloatValue K)
    (h : a = FloatValue.posInf ∨ a = FloatValue.nan) :
    FloatValue.max a b = FloatValue.posInf ∨ FloatValue.max a b = FloatValue.nan := by
  rcases h with rfl | rfl <;> cases b <;> simp [FloatValue.max, FloatValue.lt]

theorem floatMax_posInf_right (a : FloatValue K) :
    FloatValue.max a FloatValue.posInf = FloatValue.posInf ∨
      FloatValue.max a FloatValue.posInf = FloatValue.nan := by
  cases a <;> simp [FloatValue.max, FloatValue.lt]

theorem floatMin_ne_posInf_left (a b : FloatValue K) (h : a ≠ FloatValue.posInf) :
    FloatValue.min a b ≠ FloatValue.posInf := by
  unfold FloatValue.min
  split_ifs with hlt
  · intro hb
    rw [hb] at hlt
    cases a <;> simp [FloatValue.lt] at hlt
  · exact h

theorem floatMin_finite_right (a : FloatValue K) (v : K) :
    FloatValue.min a (FloatValue.finite v) ≠ FloatValue.posInf := by
  unfold FloatValue.min
  split_ifs with hlt
  · simp
  · intro ha
    rw [ha] at hlt
    simp [FloatValue.lt] at hlt

theorem floatGe_top (a t : FloatValue K) (ht : t = FloatValue.posInf ∨ t = FloatValue.nan)
    (ha : a ≠ FloatValue.posInf) : a.ge t = false := by
  rcases ht with rfl | rfl <;> cases a <;> simp_all [FloatValue.ge]

theorem slab_combine_negInf (x y z : FloatValue K × FloatValue K)
    (h : x.2 = FloatValue.negInf ∨ y.2 = FloatValue.negInf ∨ z.2 = FloatValue.negInf) :
    SlabTest_TriangleMesh.combine x y z = false := by
  have hbad : FloatValue.min (FloatValue.min x.2 y.2) z.2 = FloatValue.negInf ∨
      FloatValue.min (FloatValue.min x.2 y.2) z.2 = FloatValue.nan := by
    rcases h with h | h | h
    · exact floatMin_bad_left _ _ (floatMin_bad_left _ _ (Or.inl h))
    · rw [h]
      exact floatMin_bad_left _ _ (floatMin_negInf_right _)
    · rw [h]
      exact floatMin_negInf_right _
  simp only [SlabTest_TriangleMesh.combine, floatGt_bad _ _ hbad, Bool.false_and]

theorem slab_combine_posInf (x y z : FloatValue K × FloatValue K)
    (h : x.1 = FloatValue.posInf ∨ y.1 = FloatValue.posInf ∨ z.1 = FloatValue.posInf)
    (hfin : (∃ v, x.2 = FloatValue.finite v) ∨ (∃ v, y.2 = FloatValue.finite v) ∨
      (∃ v, z.2 = FloatValue.finite v)) :
    SlabTest_TriangleMesh.combine x y z = false := by
  have htop : FloatValue.max (FloatValue.max x.1 y.1) z.1 = FloatValue.posInf ∨
      FloatValue.max (FloatValue.max x.1 y.1) z.1 = FloatValue.nan := by
    rcases h with h | h | h
    · exact floatMax_top_left _ _ (floatMax_top_left _ _ (Or.inl h))
    · rw [h]
      exact floatMax_top_left _ _ (floatMax_posInf_right _)
    · rw [h]
      exact floatMax_posInf_right _
  have hne : FloatValue.min (FloatValue.min x.2 y.2) z.2 ≠ FloatValue.posInf := by
    rcases hfin with ⟨v, hv⟩ | ⟨v, hv⟩ | ⟨v, hv⟩
    · exact floatMin_ne_posInf_left _ _ (floatMin_ne_posInf_left _ _ (by rw [hv]; simp))
    · rw [hv]
      exact floatMin_ne_posInf_left _ _ (floatMin_finite_right _ _)
    · rw [hv]
      exact floatMin_finite_right _ _
  simp only [SlabTest_TriangleMesh.combine, floatGe_top _ _ htop hne, Bool.and_false]

theorem slab_combine_extreme (x y z : FloatValue K × FloatValue K)
    (h : (x = (FloatValue.posInf, FloatValue.posInf) ∨ x = (FloatValue.negInf, FloatValue.negInf)) ∨
      (y = (FloatValue.posInf, FloatValue.posInf) ∨ y = (FloatValue.negInf, FloatValue.negInf)) ∨
      (z = (FloatValue.posInf, FloatValue.posInf) ∨ z = (FloatValue.negInf, FloatValue.negInf)))
    (hfin : (∃ v, x.2 = FloatValue.finite v) ∨ (∃ v, y.2 = FloatValue.finite v) ∨
      (∃ v, z.2 = FloatValue.finite v)) :
    SlabTest_TriangleMesh.combine x y z = false := by
  rcases h with (h | h) | (h | h) | (h | h)
  · exact slab_combine_posInf x y z (Or.inl (by rw [h])) hfin
  · exact slab_combine_negInf x y z (Or.inl (by rw [h]))
  · exact slab_combine_posInf x y z (Or.inr (Or.inl (by rw [h]))) hfin
  · exact slab_combine_negInf x y z (Or.inr (Or.inl (by rw [h])))
  · exact slab_combine_posInf x y z (Or.inr (Or.inr (by rw [h]))) hfin
  · exact slab_combine_negInf x y z (Or.inr (Or.inr (by rw [h])))

theorem slab_axis_cases (s t : Bool) (lo hi o d : K) :
    SlabTest_TriangleMesh.axis s lo hi o d = SlabTest_TriangleMesh.axis t lo hi o d ∨
    ((SlabTest_TriangleMesh.axis s lo hi o d = (FloatValue.posInf, FloatValue.posInf) ∨
        SlabTest_TriangleMesh.axis s lo hi o d = (FloatValue.negInf, FloatValue.negInf)) ∧
      (SlabTest_TriangleMesh.axis t lo hi o d = (FloatValue.posInf, FloatValue.posInf) ∨
        SlabTest_TriangleMesh.axis t lo hi o d = (FloatValue.negInf, FloatValue.negInf))) := by
  by_cases hd : d = 0
  · rw [hd]
    exact slab_axis_zero s t lo hi o
  · left
    rw [slab_axis_of_ne s lo hi o d hd, slab_axis_of_ne t lo hi o d hd]

/-- The sign of a zero component of the direction does not change the result
of the slab pretest, unless all three components are zero. -/
theorem SlabTest_TriangleMesh_sign_irrelevant (negativeZeroX negativeZeroY negativeZeroZ : Bool)
    (mesh : TriangleMesh K) (ray : Ray K)
    (hdir : ray.direction.x ≠ 0 ∨ ray.direction.y ≠ 0 ∨ ray.direction.z ≠ 0) :
    SlabTest_TriangleMesh.signed negativeZeroX negativeZeroY negativeZeroZ mesh ray =
      SlabTest_TriangleMesh mesh ray := by
  unfold SlabTest_TriangleMesh
  rw [SlabTest_TriangleMesh_signed_eq_combine, SlabTest_TriangleMesh_signed_eq_combine]
  have hfin : ∀ s t u : Bool,
      (∃ v, (SlabTest_TriangleMesh.axis s mesh.transformedMinAABB.x mesh.transformedMaxAABB.x
        ray.origin.x ray.direction.x).2 = FloatValue.finite v) ∨
      (∃ v, (SlabTest_TriangleMesh.axis t mesh.transformedMinAABB.y mesh.transformedMaxAABB.y
        ray.origin.y ray.direction.y).2 = FloatValue.finite v) ∨
      (∃ v, (SlabTest_TriangleMesh.axis u mesh.transformedMinAABB.z mesh.transformedMaxAABB.z
        ray.origin.z ray.direction.z).2 = FloatValue.finite v) := by
    intro s t u
    rcases hdir with h | h | h
    · exact Or.inl ⟨_, by rw [slab_axis_of_ne s _ _ _ _ h]⟩
    · exact Or.inr (Or.inl ⟨_, by rw [slab_axis_of_ne t _ _ _ _ h]⟩)
    · exact Or.inr (Or.inr ⟨_, by rw [slab_axis_of_ne u _ _ _ _ h]⟩)
  rcases slab_axis_cases negativeZeroX false mesh.transformedMinAABB.x mesh.transformedMaxAABB.x
    ray.origin.x ray.direction.x with hx | ⟨hx, hx0⟩
  · rcases slab_axis_cases negativeZeroY false mesh.transformedMinAABB.y
      mesh.transformedMaxAABB.y ray.origin.y ray.direction.y with hy | ⟨hy, hy0⟩
    · rcases slab_axis_cases negativeZeroZ false mesh.transformedMinAABB.z
        mesh.transformedMaxAABB.z ray.origin.z ray.direction.z with hz | ⟨hz, hz0⟩
      · rw [hx, hy, hz]
      · rw [slab_combine_extreme _ _ _ (Or.inr (Or.inr hz)) (hfin _ _ _),
          slab_combine_extreme _ _ _ (Or.inr (Or.inr hz0)) (hfin _ _ _)]
    · rw [slab_combine_extreme _ _ _ (Or.inr (Or.inl hy)) (hfin _ _ _),
        slab_combine_extreme _ _ _ (Or.inr (Or.inl hy0)) (hfin _ _ _)]
  · rw [slab_combine_extreme _ _ _ (Or.inl hx) (hfin _ _ _),
      slab_combine_extreme _ _ _ (Or.inl hx0) (hfin _ _ _)]

/-! ## Triangle meshes and the zero direction -/

theorem HitTest_Triangle_parallel_miss (nm : Numerics K) (triangle : Triangle K) (ray : Ray K)
    (hitRecord : HitRecord K) (ignoreHitRecord : Bool)
    (hpar : Vector3.Dot triangle.normal ray.direction = 0) :
    (HitTest_Triangle nm triangle ray hitRecord ignoreHitRecord).1 = false := by
  have hplane : HitTest_Plane triangle.supportingPlane ray (HitRecord.fresh nm) false =
      (false, HitRecord.fresh nm) :=
    HitTest_Plane_of_parallel _ ray _ false (by rw [dot_comm]; exact hpar)
  simp only [HitTest_Triangle, hplane]
  split_ifs <;> simp_all

theorem dot_zero_right (a : Vector3 K) : Vector3.Dot a Vector3.zero = 0 := by
  simp [Vector3.Dot, Vector3.zero]

/-- For a ray whose direction is the zero vector no triangle is hit, so the
mesh test returns `false` and leaves the record, with or without the slab
pretest. -/
theorem HitTest_TriangleMesh_zero_direction (nm : Numerics K) (mesh : TriangleMesh K)
    (ray : Ray K) (hitRecord : HitRecord K) (ignoreHitRecord : Bool) (hvalid : mesh.Valid)
    (hzero : ray.direction = Vector3.zero) :
    HitTest_TriangleMesh nm mesh ray hitRecord ignoreHitRecord = some (false, hitRecord) ∧
    HitTest_TriangleMesh.withoutSlabTest nm mesh ray hitRecord ignoreHitRecord =
      some (false, hitRecord) := by
  obtain ⟨temp, htemp⟩ := scan_isSome nm mesh ray ignoreHitRecord hvalid
    (List.range mesh.transformedNormals.length) (fun i hi => List.mem_range.mp hi)
    (HitRecord.fresh nm)
  have hfresh : temp = HitRecord.fresh nm :=
    scan_all_miss nm mesh ray ignoreHitRecord _ _ temp
      (fun i _ triangle _ record =>
        HitTest_Triangle_parallel_miss nm triangle ray record ignoreHitRecord
          (by rw [hzero]; exact dot_zero_right _)) htemp
  have hdid : temp.didHit = false := by rw [hfresh]; rfl
  constructor
  · rw [HitTest_TriangleMesh_of_scan nm mesh ray hitRecord ignoreHitRecord temp htemp,
      if_neg (fun h => by rw [hdid] at h; exact Bool.noConfusion h.2.1)]
  · rw [withoutSlabTest_of_scan nm mesh ray hitRecord ignoreHitRecord temp htemp,
      if_neg (fun h => by rw [hdid] at h; exact Bool.noConfusion h.1)]

theorem direction_eq_zero (ray : Ray K)
    (h : ¬ (ray.direction.x ≠ 0 ∨ ray.direction.y ≠ 0 ∨ ray.direction.z ≠ 0)) :
    ray.direction = Vector3.zero := by
  push_neg at h
  obtain ⟨hx, hy, hz⟩ := h
  cases hd : ray.direction with
  | mk x y z =>
    rw [hd] at hx hy hz
    simp only at hx hy hz
    subst hx hy hz
    rfl

/-- For a mesh whose element accesses are in bounds, the mesh test does not
depend on the signs of the zero components of the direction. -/
theorem HitTest_TriangleMesh_sign_irrelevant (negativeZeroX negativeZeroY negativeZeroZ : Bool)
    (nm : Numerics K) (mesh : TriangleMesh K) (ray : Ray K) (hitRecord : HitRecord K)
    (ignoreHitRecord : Bool) (hvalid : mesh.Valid) :
    HitTest_TriangleMesh.signed negativeZeroX negativeZeroY negativeZeroZ nm mesh ray hitRecord
        ignoreHitRecord =
      HitTest_TriangleMesh nm mesh ray hitRecord ignoreHitRecord := by
  by_cases hdir : ray.direction.x ≠ 0 ∨ ray.direction.y ≠ 0 ∨ ray.direction.z ≠ 0
  · unfold HitTest_TriangleMesh.signed HitTest_TriangleMesh
    rw [SlabTest_TriangleMesh_sign_irrelevant negativeZeroX negativeZeroY negativeZeroZ mesh ray
      hdir]
  · have hzero := direction_eq_zero ray hdir
    rw [(HitTest_TriangleMesh_zero_direction nm mesh ray hitRecord ignoreHitRecord hvalid
      hzero).1]
    obtain ⟨temp, htemp⟩ := scan_isSome nm mesh ray ignoreHitRecord hvalid
      (List.range mesh.transformedNormals.length) (fun i hi => List.mem_range.mp hi)
      (HitRecord.fresh nm)
    have hfresh : temp = HitRecord.fresh nm :=
      scan_all_miss nm mesh ray ignoreHitRecord _ _ temp
        (fun i _ triangle _ record =>
          HitTest_Triangle_parallel_miss nm triangle ray record ignoreHitRecord
            (by rw [hzero]; exact dot_zero_right _)) htemp
    have hdid : temp.didHit = false := by rw [hfresh]; rfl
    unfold HitTest_TriangleMesh.signed
    rw [htemp]
    cases SlabTest_TriangleMesh.signed negativeZeroX negativeZeroY negativeZeroZ mesh ray <;>
      simp [hdid]

/-! ## The mesh adopts its closest triangle -/

/-- C14: for a mesh whose element accesses are in bounds and that passes the
slab test (evaluated on floats, whatever the signs of the zero components of
the direction), the closest-hit `HitTest_TriangleMesh` returns true exactly
when some triangle of the mesh is hit when tested alone against a fresh
record and the least `t` of those hits is smaller than `hitRecord.t`; on true
the record is the record of a triangle attaining that least `t` (its `t`,
`origin`, `normal`, `didHit = true`) with `materialIndex` replaced by the
mesh's. -/
theorem HitTest_TriangleMesh_adopts_closest (nm : Numerics K) (mesh : TriangleMesh K)
    (ray : Ray K) (hitRecord : HitRecord K)
    (negativeZeroX negativeZeroY negativeZeroZ : Bool) (hvalid : mesh.Valid)
    (hslab : SlabTest_TriangleMesh.signed negativeZeroX negativeZeroY negativeZeroZ mesh ray =
      true) :
    ∃ result, HitTest_TriangleMesh nm mesh ray hitRecord false = some result ∧
      HitTest_TriangleMesh.signed negativeZeroX negativeZeroY negativeZeroZ nm mesh ray
        hitRecord false = some result ∧
      (result.1 = true ↔
        ∃ closest, mesh.TriangleHitAlone nm ray closest ∧
          (∀ other, mesh.TriangleHitAlone nm ray other → closest.t ≤ other.t) ∧
          closest.t < hitRecord.t) ∧
      (result.1 = true →
        ∃ closest, mesh.TriangleHitAlone nm ray closest ∧
          (∀ other, mesh.TriangleHitAlone nm ray other → closest.t ≤ other.t) ∧
          result.2 = { closest with materialIndex := mesh.materialIndex } ∧
          result.2.didHit = true) := by
  have hsigned := HitTest_TriangleMesh_sign_irrelevant negativeZeroX negativeZeroY
    negativeZeroZ nm mesh ray hitRecord false hvalid
  by_cases hdir : ray.direction.x ≠ 0 ∨ ray.direction.y ≠ 0 ∨ ray.direction.z ≠ 0
  · have hslab' : SlabTest_TriangleMesh mesh ray = true := by
      rw [← SlabTest_TriangleMesh_sign_irrelevant negativeZeroX negativeZeroY negativeZeroZ mesh
        ray hdir]
      exact hslab
    obtain ⟨result, h1, h2, h3⟩ := mesh_adopts_closest_of_slab nm mesh ray hitRecord hvalid
      hslab'
    exact ⟨result, h1, by rw [hsigned]; exact h1, h2, h3⟩
  · have hzero := direction_eq_zero ray hdir
    have hmiss := (HitTest_TriangleMesh_zero_direction nm mesh ray hitRecord false hvalid
      hzero).1
    have hnone : ∀ closest, ¬ mesh.TriangleHitAlone nm ray closest := by
      rintro closest ⟨i, triangle, _, _, hhit⟩
      have hfalse := HitTest_Triangle_parallel_miss nm triangle ray (HitRecord.fresh nm) false
        (by rw [hzero]; exact dot_zero_right _)
      rw [hhit] at hfalse
      cases hfalse
    refine ⟨(false, hitRecord), hmiss, by rw [hsigned]; exact hmiss, ⟨fun h => ?_,
      fun ⟨closest, hc, _⟩ => absurd hc (hnone closest)⟩, fun h => ?_⟩
    · cases h
    · cases h

/-- C14, concrete instances: the one-triangle scenario mesh passes the slab test
for `sceneRay`; its triangle is hit alone at `t = 3`, and the mesh test
against a fresh record returns that hit with the mesh's material 4. The mesh
of two triangles passes the slab test for the ray along the `z` axis (two
zero direction components); its triangles are hit alone at `t = 5` and at
`t = 4`, and the mesh test returns the hit at `t = 4` of the second triangle
with the mesh's material 4. -/
theorem HitTest_TriangleMesh_adopts_closest_witness :
    (scenarioMesh TriangleCullMode.BackFaceCulling).Valid ∧
    SlabTest_TriangleMesh (scenarioMesh TriangleCullMode.BackFaceCulling) sceneRay = true ∧
    HitTest_TriangleMesh ratNumerics (scenarioMesh TriangleCullMode.BackFaceCulling) sceneRay
        (HitRecord.fresh ratNumerics) false =
      some (true, { t := 3, didHit := true, materialIndex := 4, origin := ⟨0, 3 / 10, 0⟩,
                    normal := ⟨0, 0, 1⟩ }) ∧
    (∃ closest, (scenarioMesh TriangleCullMode.BackFaceCulling).TriangleHitAlone ratNumerics
        sceneRay closest ∧ closest.t = 3) ∧
    (twoTriangleMesh TriangleCullMode.BackFaceCulling).Valid ∧
    SlabTest_TriangleMesh (twoTriangleMesh TriangleCullMode.BackFaceCulling) axisAlignedRay =
      true ∧
    (twoTriangleMesh TriangleCullMode.BackFaceCulling).TriangleHitAlone ratNumerics
      axisAlignedRay { t := 5, didHit := true, materialIndex := 0, origin := ⟨0, 1 / 4, 0⟩,
                       normal := ⟨0, 0, 1⟩ } ∧
    (twoTriangleMesh TriangleCullMode.BackFaceCulling).TriangleHitAlone ratNumerics
      axisAlignedRay { t := 4, didHit := true, materialIndex := 0, origin := ⟨0, 1 / 4, 1⟩,
                       normal := ⟨0, 0, 1⟩ } ∧
    HitTest_TriangleMesh ratNumerics (twoTriangleMesh TriangleCullMode.BackFaceCulling)
        axisAlignedRay (HitRecord.fresh ratNumerics) false =
      some (true, { t := 4, didHit := true, materialIndex := 4, origin := ⟨0, 1 / 4, 1⟩,
                    normal := ⟨0, 0, 1⟩ }) ∧
    ∃ closest, (twoTriangleMesh TriangleCullMode.BackFaceCulling).TriangleHitAlone ratNumerics
        axisAlignedRay closest ∧
      (∀ other, (twoTriangleMesh TriangleCullMode.BackFaceCulling).TriangleHitAlone ratNumerics
        axisAlignedRay other → closest.t ≤ other.t) ∧ closest.t = 4 := by
  have hvalid : (scenarioMesh TriangleCullMode.BackFaceCulling).Valid := by
    unfold TriangleMesh.Valid
    decide!
  have hrun : HitTest_TriangleMesh ratNumerics (scenarioMesh TriangleCullMode.BackFaceCulling)
      sceneRay (HitRecord.fresh ratNumerics) false =
      some (true, { t := 3, didHit := true, materialIndex := 4, origin := ⟨0, 3 / 10, 0⟩,
                    normal := ⟨0, 0, 1⟩ }) := by decide!
  obtain ⟨result, hsome, _, _, hadopt⟩ := HitTest_TriangleMesh_adopts_closest ratNumerics
    (scenarioMesh TriangleCullMode.BackFaceCulling) sceneRay (HitRecord.fresh ratNumerics)
    false false false hvalid (by decide!)
  rw [hrun] at hsome
  cases hsome
  obtain ⟨closest, halone, _, heq, _⟩ := hadopt rfl
  have hvalidTwo : (twoTriangleMesh TriangleCullMode.BackFaceCulling).Valid := by
    unfold TriangleMesh.Valid
    decide!
  have hrunTwo : HitTest_TriangleMesh ratNumerics
      (twoTriangleMesh TriangleCullMode.BackFaceCulling) axisAlignedRay
      (HitRecord.fresh ratNumerics) false =
      some (true, { t := 4, didHit := true, materialIndex := 4, origin := ⟨0, 1 / 4, 1⟩,
                    normal := ⟨0, 0, 1⟩ }) := by decide!
  obtain ⟨resultTwo, hsomeTwo, _, _, hadoptTwo⟩ := HitTest_TriangleMesh_adopts_closest
    ratNumerics (twoTriangleMesh TriangleCullMode.BackFaceCulling) axisAlignedRay
    (HitRecord.fresh ratNumerics) false false false hvalidTwo (by decide!)
  rw [hrunTwo] at hsomeTwo
  cases hsomeTwo
  obtain ⟨closestTwo, haloneTwo, hminTwo, heqTwo, _⟩ := hadoptTwo rfl
  refine ⟨hvalid, by decide!, hrun, ⟨closest, halone, ?_⟩, hvalidTwo, by decide!, ?_, ?_,
    hrunTwo, closestTwo, haloneTwo, hminTwo, ?_⟩
  · have := congrArg HitRecord.t heq
    exact this.symm
  · exact ⟨0, { v0 := ⟨-1, 0, 0⟩, v1 := ⟨1, 0, 0⟩, v2 := ⟨0, 1, 0⟩, normal := ⟨0, 0, 1⟩,
                cullMode := TriangleCullMode.BackFaceCulling, materialIndex := 0 },
      by decide, by decide!, by decide!⟩
  · exact ⟨1, { v0 := ⟨-1, 0, 1⟩, v1 := ⟨1, 0, 1⟩, v2 := ⟨0, 1, 1⟩, normal := ⟨0, 0, 1⟩,
                cullMode := TriangleCullMode.BackFaceCulling, materialIndex := 0 },
      by decide, by decide!, by decide!⟩
  · have := congrArg HitRecord.t heqTwo
    exact this.symm

end dae
